import Mathlib

/-!
# BRAY_HdParam: the render-session coordinator of the Karma Hydra delegate

A shallow embedding of `src/houdini/custom/RAY/BRAY_HdKarma/BRAY_HdParam.h`.

* C++ `float` / `double` values are embedded as `Fp`: not-a-number, the two
  infinities and the finite values, the finite values as rationals (the two
  zeros are identified). Comparisons follow IEEE: every comparison with
  not-a-number is false. Where the header converts or divides (`setFPS`), the
  rounding to `float` and `double` is embedded (`FloatFormat.round`); the
  sample times, whose code is not among the sources, are those of the formula
  of the spec in exact arithmetic.
* `GfVec2i` is a pair of integers.
* The renderer (`BRAY::RendererPtr`) and the render thread (`HdRenderThread`)
  are libraries outside these sources. Their joint state is a type parameter
  `β` and the three operations the coordinator calls are the fields of
  `Backend β`.
* `UT_ASSERT` is a build-dependent check: compiled out, its condition is not
  evaluated; enabled, a failed condition ends the call. The build is the
  boolean parameter `asserts`.
* Calls with effects return a `Call`: the effects issued in order, the state
  when the call ended, and the returned value (`none` when the call was ended
  by a failed assertion).
-/

namespace HdKarma

/-! ## Floating-point values -/

/-- Values of a C++ `float` or `double`. -/
inductive Fp where
  | nan
  | negInf
  | fin (q : ℚ)
  | posInf
  deriving DecidableEq

namespace Fp

/-- The C++ comparison `a < b`. -/
def lt : Fp → Fp → Bool
  | nan, _ => false
  | _, nan => false
  | negInf, negInf => false
  | negInf, _ => true
  | fin _, negInf => false
  | fin p, fin q => decide (p < q)
  | fin _, posInf => true
  | posInf, _ => false

/-- The C++ comparison `a <= b`. -/
def le : Fp → Fp → Bool
  | nan, _ => false
  | _, nan => false
  | negInf, _ => true
  | fin _, negInf => false
  | fin p, fin q => decide (p ≤ q)
  | fin _, posInf => true
  | posInf, posInf => true
  | posInf, _ => false

/-- The C++ comparison `a > b`. -/
def gt (a b : Fp) : Bool := lt b a

/-- The C++ comparison `a == b`. -/
def beq : Fp → Fp → Bool
  | negInf, negInf => true
  | fin p, fin q => decide (p = q)
  | posInf, posInf => true
  | _, _ => false

/-- The C++ comparison `a != 0`. -/
def nonZero (a : Fp) : Bool := !(beq a (fin 0))

/-- Conversion of an `int` to `double` (exact for 32-bit integers). -/
def ofInt (i : Int) : Fp := fin (i : ℚ)

/-- Sign of a value that is not not-a-number: `-1`, `0` or `1`. -/
def sgn : Fp → Int
  | nan => 0
  | negInf => -1
  | fin q => if q < 0 then -1 else if q = 0 then 0 else 1
  | posInf => 1

/-- An infinity of the given sign; not-a-number for sign `0`. -/
def infOfSign (s : Int) : Fp :=
  if s = 0 then nan else if s < 0 then negInf else posInf

/-- The C++ product `a * b`. -/
def mul : Fp → Fp → Fp
  | nan, _ => nan
  | _, nan => nan
  | fin p, fin q => fin (p * q)
  | a, b => infOfSign (sgn a * sgn b)

/-- The C++ quotient `a / b`, with a division by zero made explicit: `none`
when the divisor compares equal to zero. -/
def div? : Fp → Fp → Option Fp
  | nan, b => if nonZero b then some nan else none
  | _, nan => some nan
  | fin p, fin q => if q = 0 then none else some (fin (p / q))
  | fin _, _ => some (fin 0)
  | a, fin q => if q = 0 then none else some (infOfSign (sgn a * sgn (fin q)))
  | _, _ => some nan

end Fp

/-! ## 32-bit atomic counter -/

/-- Two-complement reduction of an integer to the range of `int32`. -/
def wrapInt32 (x : Int) : Int := (x + 2147483648) % 4294967296 - 2147483648

/-- Embeds `SYS_AtomicInt32::add` (`SYS_AtomicInt.h`, outside the sources): adds `n` to the counter holding `v`, in 32-bit
wrapping arithmetic; the result is the new value of the counter. -/
def SYS_AtomicInt32.add (v n : Int) : Int := wrapInt32 (v + n)

/-! ## Data model -/

/-- Modelled from the spec: `XUSD_RenderSettings::HUSD_AspectConformPolicy`
is declared in `XUSD_RenderSettings.h`, which is not among the sources; the
spec lists the policies as Expand, Crop, ScaleWidth, ScaleHeight. -/
inductive ConformPolicy where
  | Expand
  | Crop
  | ScaleWidth
  | ScaleHeight
  deriving DecidableEq

/-- Embeds `GfVec2i`, a vector of two `int`. -/
abbrev GfVec2i := Int × Int

/-- The operations of the renderer backend that the coordinator calls, over a
backend state `β` covering the renderer and its render thread. -/
structure Backend (β : Type) where
  /-- Embeds `BRAY::RendererPtr::prepareForStop` -/
  prepareForStop : β → β
  /-- Embeds `HdRenderThread::StopRender` -/
  StopRender : β → β
  /-- Embeds `BRAY::RendererPtr::isRendering` -/
  isRendering : β → Bool

/-- The data members of `BRAY_HdParam`. `backend` is the state behind the
references `myRenderer` and `myThread`; `mySceneVersion` is the value of the
shared counter the member refers to; instancers are identified by their
address. -/
structure BRAY_HdParam (β σ : Type) where
  myQueuedInstancers : List (Finset Nat)
  myCameraPath : String
  myScene : σ
  backend : β
  mySceneVersion : Int
  myResolution : GfVec2i
  myRenderRes : GfVec2i
  myDataWindow : Fp × Fp × Fp × Fp
  myPixelAspect : Fp
  myShutter : Fp × Fp
  myFPS : Fp
  myIFPS : Fp
  myConformPolicy : ConformPolicy
  myInstantShutter : Bool
  myLightCategories : Finset String

/-- The effects a call has on the backend, the shared counter and the caller. -/
inductive Effect where
  | prepareForStop
  | StopRender
  | assertFailed
  | versionAdd (n : Int)
  | returnScene
  deriving DecidableEq

/-- The outcome of a call. -/
structure Call (S R : Type) where
  trace : List Effect
  state : S
  result : Option R

/-- Embeds `UT_ASSERT(cond)` (`UT_Assert.h`, outside the sources): whether execution continues past the assertion. With
assertions compiled out the condition is not evaluated. -/
def UT_ASSERT (asserts : Bool) (cond : Unit → Bool) : Bool :=
  if asserts then cond () else true

namespace BRAY_HdParam

variable {β σ : Type}

/-- Embeds `BRAY_HdParam::stopRendering` -/
def stopRendering (asserts : Bool) (ops : Backend β) (s : BRAY_HdParam β σ) :
    Call (BRAY_HdParam β σ) Unit :=
  let b1 := ops.prepareForStop s.backend
  let b2 := ops.StopRender b1
  let s2 := { s with backend := b2 }
  if UT_ASSERT asserts (fun _ => !ops.isRendering b2) then
    { trace := [Effect.prepareForStop, Effect.StopRender], state := s2, result := some () }
  else
    { trace := [Effect.prepareForStop, Effect.StopRender, Effect.assertFailed],
      state := s2, result := none }

/-- Embeds `BRAY_HdParam::getSceneForEdit` -/
def getSceneForEdit (asserts : Bool) (ops : Backend β) (s : BRAY_HdParam β σ) :
    Call (BRAY_HdParam β σ) σ :=
  let c := stopRendering asserts ops s
  match c.result with
  | none => { trace := c.trace, state := c.state, result := none }
  | some _ =>
    let s3 := { c.state with
      mySceneVersion := SYS_AtomicInt32.add c.state.mySceneVersion 1 }
    { trace := c.trace ++ [Effect.versionAdd 1, Effect.returnScene],
      state := s3, result := some s3.myScene }

/-- The state after `k` consecutive calls of `getSceneForEdit`. -/
def getSceneForEditTimes (asserts : Bool) (ops : Backend β) :
    Nat → BRAY_HdParam β σ → BRAY_HdParam β σ
  | 0, s => s
  | k + 1, s => getSceneForEditTimes asserts ops k (getSceneForEdit asserts ops s).state

/-- Embeds `BRAY_HdParam::validShutter` -/
def validShutter (s : BRAY_HdParam β σ) : Bool :=
  !s.myInstantShutter && Fp.gt s.myShutter.2 s.myShutter.1

/-- Embeds `BRAY_HdParam::shutterOpen` -/
def shutterOpen (s : BRAY_HdParam β σ) : Fp := s.myShutter.1

/-- Embeds `BRAY_HdParam::shutterClose` -/
def shutterClose (s : BRAY_HdParam β σ) : Fp := s.myShutter.2

/-- Embeds `BRAY_HdParam::resolution` -/
def resolution (s : BRAY_HdParam β σ) : GfVec2i :=
  if s.myResolution.1 < 0 then s.myRenderRes else s.myResolution

/-- Embeds `BRAY_HdParam::pixelAspect` -/
def pixelAspect (s : BRAY_HdParam β σ) : Fp := s.myPixelAspect

/-- Embeds `BRAY_HdParam::instantShutter` -/
def instantShutter (s : BRAY_HdParam β σ) : Bool := s.myInstantShutter

/-- Embeds `BRAY_HdParam::setRenderResolution` -/
def setRenderResolution (s : BRAY_HdParam β σ) (r : GfVec2i) : BRAY_HdParam β σ :=
  { s with myRenderRes := r }

end BRAY_HdParam

/-- Modelled from the spec: `SYSsafediv` is declared in `SYS_Math.h`, which is
not among the sources. The spec describes it as a division guarded against a
zero denominator, yielding a defined fallback; the fallback, which may depend
on the numerator, is the parameter `fallback`. -/
def SYSsafediv (fallback : Fp → Fp) (x y : Fp) : Option Fp :=
  if Fp.nonZero y then Fp.div? x y else some (fallback x)

namespace BRAY_HdParam

variable {β σ : Type}

/-- Embeds `BRAY_HdParam::imageAspect`; `none` would be a division by zero. -/
def imageAspect (fallback : Fp → Fp) (s : BRAY_HdParam β σ) : Option Fp :=
  SYSsafediv fallback (Fp.mul s.myPixelAspect (Fp.ofInt s.myResolution.1))
    (Fp.ofInt s.myResolution.2)

end BRAY_HdParam

/-! ## Sample backends and states -/

/-- A backend whose state is its rendering flag: the stop notice changes
nothing and the blocking stop clears the flag. -/
def flagBackend : Backend Bool where
  prepareForStop := fun b => b
  StopRender := fun _ => false
  isRendering := fun b => b

/-- A backend that cannot be stopped: both halt requests leave it as it is. -/
def stuckBackend : Backend Bool where
  prepareForStop := fun b => b
  StopRender := fun b => b
  isRendering := fun b => b

/-- A coordinator state with the given backend state and scene version, an
unset explicit resolution and a 1920 x 1080 viewport. -/
def sampleParam {β : Type} (b : β) (v : Int) : BRAY_HdParam β String where
  myQueuedInstancers := []
  myCameraPath := "/cameras/camera1"
  myScene := "scene"
  backend := b
  mySceneVersion := v
  myResolution := (-1, -1)
  myRenderRes := (1920, 1080)
  myDataWindow := (Fp.fin 0, Fp.fin 0, Fp.fin 1, Fp.fin 1)
  myPixelAspect := Fp.fin 1
  myShutter := (Fp.fin 0, Fp.fin 1)
  myFPS := Fp.fin 24
  myIFPS := Fp.fin (1 / 24)
  myConformPolicy := ConformPolicy.Expand
  myInstantShutter := false
  myLightCategories := ∅

/-! ## Contracts at the backend boundary -/

namespace BRAY_HdParam

variable {β σ : Type}

/-- The boundary contract of the blocking stop: when `StopRender` returns, the
renderer reports not-rendering. It combines the guarantee of the blocking stop
(the render thread is quiescent when it returns) with the link between the
render thread and the renderer (a renderer whose thread is quiescent reports
not-rendering); both are properties of libraries outside the sources. -/
def StopContract (ops : Backend β) : Prop :=
  ∀ b : β, ops.isRendering (ops.StopRender b) = false

/-- A call passes the assertion: assertions are compiled out, or the blocking
stop honours its contract. -/
def PassesAssert (asserts : Bool) (ops : Backend β) : Prop :=
  asserts = false ∨ StopContract ops

end BRAY_HdParam

/-! ## Parameter store setters

`VtValue`, `SdfPath` and `UT_StringHolder` are library types outside the
sources. The external value representation is a type parameter `ν` with its
conversions in `VtConvert ν`; a structured path is a type parameter `π` with
its text `GetText : π → String`. The setters declared in the header and defined
in `BRAY_HdParam.C` are not among the sources. -/

namespace Fp

/-- The C++ negation `-a`. -/
def neg : Fp → Fp
  | nan => nan
  | negInf => posInf
  | fin q => fin (-q)
  | posInf => negInf

/-- The C++ sum `a + b`. -/
def add : Fp → Fp → Fp
  | nan, _ => nan
  | _, nan => nan
  | fin p, fin q => fin (p + q)
  | negInf, posInf => nan
  | posInf, negInf => nan
  | negInf, _ => negInf
  | posInf, _ => posInf
  | fin _, b => b

/-- The C++ difference `a - b`. -/
def sub (a b : Fp) : Fp := add a (neg b)

end Fp

/-! ## Rounding to a binary floating-point format

`setFPS` takes an `fpreal` (a `double`), divides in double precision and stores
into `float` members, so the rounding of the two formats is embedded: round to
nearest, ties to even, overflow to infinity, gradual underflow. -/

/-- A binary floating-point format: the precision in bits (hidden bit
included) and the exponents of the smallest and of the largest normal values. -/
structure FloatFormat where
  prec : Nat
  emin : Int
  emax : Int

/-- The format of a C++ `float`. -/
def binary32 : FloatFormat := ⟨24, -126, 127⟩

/-- The format of a C++ `double`. -/
def binary64 : FloatFormat := ⟨53, -1022, 1023⟩

/-- The integer nearest to `x`; of the two nearest when `x` lies halfway, the
even one. -/
def roundHalfEven (x : ℚ) : Int :=
  if x - ⌊x⌋ < 1 / 2 then ⌊x⌋
  else if 1 / 2 < x - ⌊x⌋ then ⌊x⌋ + 1
  else if ⌊x⌋ % 2 = 0 then ⌊x⌋ else ⌊x⌋ + 1

namespace FloatFormat

/-- The spacing of the values of the format at `q`: 2^(e - prec + 1), where e
is the binary exponent of `q`, or `emin` when `q` is below the normal range. -/
def quantum (f : FloatFormat) (q : ℚ) : ℚ :=
  2 ^ (max (Int.log 2 |q|) f.emin - (f.prec - 1))

/-- The multiple of the spacing nearest to `q`, ties to even: the value `q`
rounds to when the exponent range has no upper limit. -/
def nearest (f : FloatFormat) (q : ℚ) : ℚ :=
  roundHalfEven (q / f.quantum q) * f.quantum q

/-- The conversion of the exact value `q` to the format: the nearest value,
or the infinity of the sign of `q` when that exceeds the largest finite
value. -/
def round (f : FloatFormat) (q : ℚ) : Fp :=
  if 2 ^ (f.emax + 1) ≤ |f.nearest q| then (if q < 0 then Fp.negInf else Fp.posInf)
  else Fp.fin (f.nearest q)

end FloatFormat

/-- Values of an `fpreal` argument, a C++ `double` (the type is declared in
`SYS_Types.h`, outside the sources). The negative zero is kept apart from the
zero `fin 0`, since the quotient `1/v` tells the two apart. -/
inductive Fpreal where
  | nan
  | negInf
  | negZero
  | fin (q : ℚ)
  | posInf
  deriving DecidableEq

namespace Fpreal

/-- The conversion of a `double` to `float`, as in the assignment of an
`fpreal` to a `float` member. -/
def toFloat : Fpreal → Fp
  | nan => Fp.nan
  | negInf => Fp.negInf
  | negZero => Fp.fin 0
  | fin q => binary32.round q
  | posInf => Fp.posInf

/-- A rounded result as a `double`: a zero result of a negative exact value is
the negative zero. -/
def ofRounded (negative : Bool) : Fp → Fpreal
  | Fp.nan => nan
  | Fp.negInf => negInf
  | Fp.fin r => if r = 0 ∧ negative = true then negZero else fin r
  | Fp.posInf => posInf

/-- The C++ quotient `1/v` in double precision: infinite for the two zeros,
zero for the two infinities, the rounded quotient otherwise. -/
def inv : Fpreal → Fpreal
  | nan => nan
  | negInf => negZero
  | negZero => negInf
  | fin q => if q = 0 then posInf else ofRounded (decide (q < 0)) (binary64.round (1 / q))
  | posInf => fin 0

end Fpreal

/-- Conversions of the external value representation (`VtValue`) to the types
of the stored parameters; `none` is a conversion failure (a value of the wrong
type or shape). -/
structure VtConvert (ν : Type) where
  toVec2i : ν → Option GfVec2i
  toVec4f : ν → Option (Fp × Fp × Fp × Fp)
  toReal : ν → Option Fp
  toBool : ν → Option Bool
  toConformPolicy : ν → Option ConformPolicy
  toText : ν → Option String

/-- Modelled from the spec: the external value representation, a tagged union
holding scalars, vectors, strings or paths (the library type `VtValue`); used
for concrete instances. -/
inductive VtValue where
  | empty
  | bool (b : Bool)
  | real (x : Fp)
  | vec2i (v : GfVec2i)
  | vec4f (v : Fp × Fp × Fp × Fp)
  | text (s : String)
  | policy (p : ConformPolicy)

/-- The conversions of `VtValue`: each succeeds exactly on a value holding the
requested type. -/
def VtValue.holding : VtConvert VtValue where
  toVec2i := fun v => match v with
    | VtValue.vec2i r => some r
    | _ => none
  toVec4f := fun v => match v with
    | VtValue.vec4f r => some r
    | _ => none
  toReal := fun v => match v with
    | VtValue.real r => some r
    | _ => none
  toBool := fun v => match v with
    | VtValue.bool r => some r
    | _ => none
  toConformPolicy := fun v => match v with
    | VtValue.policy r => some r
    | _ => none
  toText := fun v => match v with
    | VtValue.text r => some r
    | _ => none

/-- Modelled from the spec: the validate-and-store step of the setters defined
in `BRAY_HdParam.C`. A conversion failure leaves the stored value unchanged and
reports no change; otherwise the stored value is compared with the new one and
the result is true iff the stored value changed. -/
def storeIfChanged {S α : Type} [DecidableEq α] (get : S → α) (set : α → S → S)
    (converted : Option α) (s : S) : Bool × S :=
  match converted with
  | none => (false, s)
  | some v => if v = get s then (false, s) else (true, set v s)

namespace BRAY_HdParam

variable {β σ ν π : Type}

/-- Modelled from the spec: `BRAY_HdParam::setResolution`, defined in
`BRAY_HdParam.C`: validate-and-store with change detection. -/
def setResolution (cv : VtConvert ν) (val : ν) (s : BRAY_HdParam β σ) :
    Bool × BRAY_HdParam β σ :=
  storeIfChanged (fun t => t.myResolution) (fun v t => { t with myResolution := v })
    (cv.toVec2i val) s

/-- Modelled from the spec: `BRAY_HdParam::setDataWindow`, defined in
`BRAY_HdParam.C`: validate-and-store with change detection. -/
def setDataWindow (cv : VtConvert ν) (val : ν) (s : BRAY_HdParam β σ) :
    Bool × BRAY_HdParam β σ :=
  storeIfChanged (fun t => t.myDataWindow) (fun v t => { t with myDataWindow := v })
    (cv.toVec4f val) s

/-- Modelled from the spec: `BRAY_HdParam::setPixelAspect`, defined in
`BRAY_HdParam.C`: validate-and-store with change detection. -/
def setPixelAspect (cv : VtConvert ν) (val : ν) (s : BRAY_HdParam β σ) :
    Bool × BRAY_HdParam β σ :=
  storeIfChanged (fun t => t.myPixelAspect) (fun v t => { t with myPixelAspect := v })
    (cv.toReal val) s

/-- Modelled from the spec: `BRAY_HdParam::setConformPolicy`, defined in
`BRAY_HdParam.C`: validate-and-store with change detection. -/
def setConformPolicy (cv : VtConvert ν) (val : ν) (s : BRAY_HdParam β σ) :
    Bool × BRAY_HdParam β σ :=
  storeIfChanged (fun t => t.myConformPolicy) (fun v t => { t with myConformPolicy := v })
    (cv.toConformPolicy val) s

/-- Modelled from the spec: `BRAY_HdParam::setInstantShutter`, defined in
`BRAY_HdParam.C`: validate-and-store with change detection. -/
def setInstantShutter (cv : VtConvert ν) (val : ν) (s : BRAY_HdParam β σ) :
    Bool × BRAY_HdParam β σ :=
  storeIfChanged (fun t => t.myInstantShutter) (fun v t => { t with myInstantShutter := v })
    (cv.toBool val) s

/-- Modelled from the spec: the template `BRAY_HdParam::setShutter<INDEX>`,
declared in the header and defined in `BRAY_HdParam.C`: INDEX 0 is the open
time, INDEX 1 the close time; validate-and-store with change detection. -/
def setShutterIndex (cv : VtConvert ν) (index : Fin 2) (val : ν) (s : BRAY_HdParam β σ) :
    Bool × BRAY_HdParam β σ :=
  if index = 0 then
    storeIfChanged (fun t => t.myShutter.1)
      (fun v t => { t with myShutter := (v, t.myShutter.2) }) (cv.toReal val) s
  else
    storeIfChanged (fun t => t.myShutter.2)
      (fun v t => { t with myShutter := (t.myShutter.1, v) }) (cv.toReal val) s

/-- Embeds the combined `BRAY_HdParam::setShutter(open, close)` of the header.
The template setter it calls is the parameter `single`. -/
def setShutter (single : Fin 2 → ν → BRAY_HdParam β σ → Bool × BRAY_HdParam β σ)
    (vOpen vClose : ν) (s : BRAY_HdParam β σ) : Bool × BRAY_HdParam β σ :=
  let r0 := single 0 vOpen s
  let change := r0.1
  let r1 := single 1 vClose r0.2
  let change := change || r1.1
  (change, r1.2)

/-- The combined shutter setter in the words of the spec: both single setters
are applied, open first, and the result is true if either changed. -/
def setShutterSpec (single : Fin 2 → ν → BRAY_HdParam β σ → Bool × BRAY_HdParam β σ)
    (vOpen vClose : ν) (s : BRAY_HdParam β σ) : Bool × BRAY_HdParam β σ :=
  ((single 0 vOpen s).1 || (single 1 vClose (single 0 vOpen s).2).1,
    (single 1 vClose (single 0 vOpen s).2).2)

/-- Modelled from the spec: `BRAY_HdParam::setCameraPath(const UT_StringHolder &)`,
defined in `BRAY_HdParam.C`: stores the plain identifier and returns whether it
differs from the previous one. -/
def setCameraPath (path : String) (s : BRAY_HdParam β σ) : Bool × BRAY_HdParam β σ :=
  storeIfChanged (fun t => t.myCameraPath) (fun v t => { t with myCameraPath := v })
    (some path) s

/-- Embeds `BRAY_HdParam::setCameraPath(const SdfPath &)` of the header:
`return setCameraPath(path.GetText())`. The text of a path and the string
overload it forwards to are the parameters `GetText` and `setString`. -/
def setCameraPathSdf (GetText : π → String)
    (setString : String → BRAY_HdParam β σ → Bool × BRAY_HdParam β σ)
    (path : π) (s : BRAY_HdParam β σ) : Bool × BRAY_HdParam β σ :=
  setString (GetText path) s

/-- Embeds `BRAY_HdParam::setFPS`: `myFPS = v; myIFPS = 1/v;`. The argument is
an `fpreal`, the quotient is taken in double precision, and both values are
converted to `float` when they are stored in the members. -/
def setFPS (v : Fpreal) (s : BRAY_HdParam β σ) : BRAY_HdParam β σ :=
  { s with myFPS := v.toFloat, myIFPS := v.inv.toFloat }

/-- Embeds `BRAY_HdParam::fps` -/
def fps (s : BRAY_HdParam β σ) : Fp := s.myFPS

/-- The state after a sequence of `setRenderResolution` calls, first argument
first. -/
def setRenderResolutionAll (s : BRAY_HdParam β σ) (rs : List GfVec2i) : BRAY_HdParam β σ :=
  rs.foldl setRenderResolution s

end BRAY_HdParam

/-! ## Time sampler and deferred instancer queue

`fillShutterTimes`, `fillFrameTimes`, `queueInstancer`,
`processQueuedInstancers` and `getQueueCount` are declared in the header and
defined in `BRAY_HdParam.C`, which is not among the sources. -/

/-- All values of a list of fallible values, or `none` when one of them
failed. -/
def collectAll {α : Type} : List (Option α) → Option (List α)
  | [] => some []
  | none :: _ => none
  | some x :: rest => (collectAll rest).map (fun r => x :: r)

/-- Inserts `x` into bin `k` of an array of sets, growing the array with empty
bins when it is too short. -/
def insertIntoBin : List (Finset Nat) → Nat → Nat → List (Finset Nat)
  | [], 0, x => [{x}]
  | [], k + 1, x => ∅ :: insertIntoBin [] k x
  | b :: bs, 0, x => insert x b :: bs
  | b :: bs, k + 1, x => b :: insertIntoBin bs k x

/-- The distinct entries of all bins. -/
def allBins (bins : List (Finset Nat)) : Finset Nat :=
  bins.foldr (fun b acc => b ∪ acc) ∅

namespace BRAY_HdParam

variable {β σ : Type}

/-- Modelled from the spec: sample `i` of `n` linearly spaced sample times
across the shutter interval, `t_i = open + i*(close-open)/(n-1)`; `none` is a
division by zero. -/
def shutterTime (tOpen tClose : Fp) (n : Int) (i : Nat) : Option Fp :=
  match Fp.div? (Fp.mul (Fp.ofInt i) (Fp.sub tClose tOpen)) (Fp.ofInt (n - 1)) with
  | none => none
  | some d => some (Fp.add tOpen d)

/-- Modelled from the spec: `BRAY_HdParam::fillShutterTimes`, defined in
`BRAY_HdParam.C`. For `n == 1` it writes the single time open; for a valid
shutter it writes `n` linearly spaced times, both endpoints included; for an
invalid shutter all samples collapse to the same instant, the open time, or 0
for an instant shutter when `zeroOnInstant` is set (the spec leaves this
choice). The result is the list of values written, `none` for a division by
zero. -/
def fillShutterTimes (zeroOnInstant : Bool) (s : BRAY_HdParam β σ) (n : Int) :
    Option (List Fp) :=
  if n = 1 then
    some [shutterOpen s]
  else if validShutter s then
    collectAll ((List.range n.toNat).map (shutterTime (shutterOpen s) (shutterClose s) n))
  else
    some (List.replicate n.toNat
      (if zeroOnInstant && s.myInstantShutter then Fp.fin 0 else shutterOpen s))

/-- Modelled from the spec: `BRAY_HdParam::fillFrameTimes`, defined in
`BRAY_HdParam.C`: the values of `fillShutterTimes`, each scaled by fps. -/
def fillFrameTimes (zeroOnInstant : Bool) (s : BRAY_HdParam β σ) (n : Int) :
    Option (List Fp) :=
  (fillShutterTimes zeroOnInstant s n).map (fun ts => ts.map (fun t => Fp.mul t s.myFPS))

/-- Modelled from the spec: `BRAY_HdParam::queueInstancer`, defined in
`BRAY_HdParam.C`: adds the instancer to one bin of the queue, with set
semantics per bin. The spec does not say how the bin is chosen; the choice is
the parameter `binOf`, applied to the scene delegate and the instancer. -/
def queueInstancer (binOf : Nat → Nat → Nat) (sd inst : Nat) (s : BRAY_HdParam β σ) :
    BRAY_HdParam β σ :=
  { s with myQueuedInstancers := insertIntoBin s.myQueuedInstancers (binOf sd inst) inst }

/-- Modelled from the spec: `BRAY_HdParam::getQueueCount`, defined in
`BRAY_HdParam.C`: the number of queued distinct entries across all bins. -/
def getQueueCount (s : BRAY_HdParam β σ) : Nat :=
  (allBins s.myQueuedInstancers).card

/-- Modelled from the spec: `BRAY_HdParam::processQueuedInstancers`, defined in
`BRAY_HdParam.C`: empties every bin and processes the distinct instancers
collected, skipping those that were destroyed since (`alive` tells which
instancers still exist). The result is the set of instancers processed and the
state with the emptied queue. -/
def processQueuedInstancers (alive : Nat → Bool) (s : BRAY_HdParam β σ) :
    Finset Nat × BRAY_HdParam β σ :=
  ((allBins s.myQueuedInstancers).filter (fun x => alive x = true),
    { s with myQueuedInstancers := s.myQueuedInstancers.map (fun _ => ∅) })

end BRAY_HdParam

/-! ## Properties of setters -/

/-- A setter detects changes of the stored value `get`, for values converted
by `conv`: setting the current value returns false and leaves the store
unchanged; setting a different valid value returns true and stores it;
repeating the identical set immediately afterwards returns false and changes
nothing; a conversion failure returns false and leaves the store unchanged. -/
def DetectsChange {S α ν : Type} (conv : ν → Option α) (get : S → α)
    (setter : ν → S → Bool × S) : Prop :=
  ∀ (val : ν) (s : S),
    (∀ v, conv val = some v → v = get s → setter val s = (false, s)) ∧
    (∀ v, conv val = some v → v ≠ get s →
      (setter val s).1 = true ∧ get (setter val s).2 = v) ∧
    setter val (setter val s).2 = (false, (setter val s).2) ∧
    (conv val = none → setter val s = (false, s))

/-- An operation on the coordinator state keeps the frame rate and its cached
inverse. -/
def KeepsFrameRate {β σ : Type} (f : BRAY_HdParam β σ → BRAY_HdParam β σ) : Prop :=
  ∀ s, (f s).myFPS = s.myFPS ∧ (f s).myIFPS = s.myIFPS

/-! ## Named setting dispatch and light category registry

`updateRenderSetting`, `setCameraPath(const VtValue &)`, `addLightCategory`,
`eraseLightCategory` and `isValidLightCategory` are declared in the header and
defined in `BRAY_HdParam.C`, which is not among the sources. -/

/-- The setters of the header that take a value in external representation,
the targets of the named dispatch. -/
inductive RenderSetting where
  | resolution
  | dataWindow
  | pixelAspect
  | conformPolicy
  | instantShutter
  | shutterOpen
  | shutterClose
  | cameraPath
  deriving DecidableEq

namespace BRAY_HdParam

variable {β σ ν τ : Type}

/-- Modelled from the spec: `BRAY_HdParam::setCameraPath(const VtValue &)`,
defined in `BRAY_HdParam.C`: normalises the value to a plain identifier and
stores it with change detection; a value that is no identifier is a conversion
failure. -/
def setCameraPathVt (cv : VtConvert ν) (val : ν) (s : BRAY_HdParam β σ) :
    Bool × BRAY_HdParam β σ :=
  storeIfChanged (fun t => t.myCameraPath) (fun v t => { t with myCameraPath := v })
    (cv.toText val) s

/-- The setter a recognised setting forwards to. -/
def forwardSetting (cv : VtConvert ν) (setting : RenderSetting) (val : ν)
    (s : BRAY_HdParam β σ) : Bool × BRAY_HdParam β σ :=
  match setting with
  | RenderSetting.resolution => setResolution cv val s
  | RenderSetting.dataWindow => setDataWindow cv val s
  | RenderSetting.pixelAspect => setPixelAspect cv val s
  | RenderSetting.conformPolicy => setConformPolicy cv val s
  | RenderSetting.instantShutter => setInstantShutter cv val s
  | RenderSetting.shutterOpen => setShutterIndex cv 0 val s
  | RenderSetting.shutterClose => setShutterIndex cv 1 val s
  | RenderSetting.cameraPath => setCameraPathVt cv val s

/-- Modelled from the spec: `BRAY_HdParam::updateRenderSetting`, defined in
`BRAY_HdParam.C`: a named dispatch that looks up which setter a setting name
maps to and forwards; an unknown name is a no-op reporting no change. The spec
does not list the recognised names: the lookup is the parameter `settingOf`
over the token type `τ`, `none` for a name that is not recognised. -/
def updateRenderSetting (settingOf : τ → Option RenderSetting) (cv : VtConvert ν)
    (token : τ) (val : ν) (s : BRAY_HdParam β σ) : Bool × BRAY_HdParam β σ :=
  match settingOf token with
  | none => (false, s)
  | some setting => forwardSetting cv setting val s

/-- Modelled from the spec: `BRAY_HdParam::addLightCategory`, defined in
`BRAY_HdParam.C`: idempotent insertion into the set of categories. -/
def addLightCategory (name : String) (s : BRAY_HdParam β σ) : BRAY_HdParam β σ :=
  { s with myLightCategories := insert name s.myLightCategories }

/-- Modelled from the spec: `BRAY_HdParam::eraseLightCategory`, defined in
`BRAY_HdParam.C`: removes the name if present and returns whether it was
present. -/
def eraseLightCategory (name : String) (s : BRAY_HdParam β σ) : Bool × BRAY_HdParam β σ :=
  (decide (name ∈ s.myLightCategories),
    { s with myLightCategories := s.myLightCategories.erase name })

/-- Modelled from the spec: `BRAY_HdParam::isValidLightCategory`, defined in
`BRAY_HdParam.C`: membership test. -/
def isValidLightCategory (name : String) (s : BRAY_HdParam β σ) : Bool :=
  decide (name ∈ s.myLightCategories)

end BRAY_HdParam

end HdKarma

/-!
# HUSD_FindCollections and HUSD_PropertyHandle

A shallow embedding of `src/houdini/lib/H_USD/HUSD/HUSD_FindCollections.C` and
`src/houdini/lib/H_USD/HUSD/HUSD_PropertyHandle.C`. The USD stage, the prim
selection of `HUSD_FindPrims`, the pattern matching of `UT_String`, the casts
and the formatting of values and the parameter templates of `PRM` and `PI` are
libraries outside these sources and are parameters of the embedding. Paths are
strings and a path set (`XUSD_PathSet`) is a finite set of paths.
-/

namespace HUSD

/-! ## HUSD_FindCollections -/

/-- What `getExpandedPathSet` reads from outside the finder. -/
structure CollectionEnv where
  /-- Whether the locked data exists and its stage is valid
  (`outdata && outdata->isStageValid()`). -/
  stageValid : Bool
  /-- The paths of `myFindPrims.getExpandedPathSet().sdfPathSet()`, in order. -/
  primPaths : List String
  /-- Whether `stage->GetPrimAtPath(primpath)` is a valid prim. -/
  primValid : String → Bool
  /-- For a prim: `UsdCollectionAPI::GetAllCollections(prim)`, each collection
  as its name and its collection path. -/
  allCollections : String → List (String × String)
  /-- For a prim and a name: the collection path of `UsdCollectionAPI(prim, name)`
  when that collection is valid. -/
  namedCollection : String → String → Option String
  /-- Embeds `UT_String::multiMatchCheck` on a pattern. -/
  multiMatchCheck : String → Bool
  /-- Embeds `UT_String(name).multiMatch(pattern) != 0`. -/
  multiMatch : String → String → Bool

/-- The data members of `HUSD_FindCollections` and of its private part that
the finder itself writes. -/
structure HUSD_FindCollections where
  myCollectionPattern : String
  myExpandedPathSet : Finset String
  myExpandedPathSetCalculated : Bool

namespace HUSD_FindCollections

/-- Embeds the constructors of `HUSD_FindCollections`: the pattern is the
collection name given (empty for the first constructor), the private part
starts with an empty path set that is not calculated. -/
def create (collectionname : String) : HUSD_FindCollections where
  myCollectionPattern := collectionname
  myExpandedPathSet := ∅
  myExpandedPathSetCalculated := false

/-- Embeds `UT_StringHolder::isstring`: the string is not empty. -/
def isstring (s : String) : Bool := decide (s ≠ "")

/-- Embeds `HUSD_FindCollections::setCollectionPattern` -/
def setCollectionPattern (pattern : String) (f : HUSD_FindCollections) :
    HUSD_FindCollections :=
  { f with myCollectionPattern := pattern, myExpandedPathSetCalculated := false }

/-- The body of the loop over the prim paths in `getExpandedPathSet`: the path
set after the visit of one prim path. -/
def visitPrim (env : CollectionEnv) (pattern : String) (acc : Finset String)
    (primpath : String) : Finset String :=
  if env.primValid primpath then
    if env.multiMatchCheck pattern then
      (env.allCollections primpath).foldl
        (fun set collection =>
          if env.multiMatch collection.1 pattern then insert collection.2 set else set)
        acc
    else
      match env.namedCollection primpath pattern with
      | some path => insert path acc
      | none => acc
  else acc

/-- Embeds `HUSD_FindCollections::getExpandedPathSet`: the path set returned
and the finder with its private part as the call leaves it. -/
def getExpandedPathSet (env : CollectionEnv) (f : HUSD_FindCollections) :
    Finset String × HUSD_FindCollections :=
  if f.myExpandedPathSetCalculated || !isstring f.myCollectionPattern then
    (f.myExpandedPathSet, f)
  else
    let set :=
      if env.stageValid then
        env.primPaths.foldl (visitPrim env f.myCollectionPattern) f.myExpandedPathSet
      else f.myExpandedPathSet
    (set, { f with myExpandedPathSet := set, myExpandedPathSetCalculated := true })

/-- A stage with the single prim `/lights`, which has the collections `key` and
`fill`; no pattern is a multi-match pattern. -/
def sampleEnv : CollectionEnv where
  stageValid := true
  primPaths := ["/lights"]
  primValid := fun p => decide (p = "/lights")
  allCollections := fun p =>
    if p = "/lights" then
      [("key", "/lights.collection:key"), ("fill", "/lights.collection:fill")]
    else []
  namedCollection := fun p n =>
    if p = "/lights" ∧ (n = "key" ∨ n = "fill") then some (p ++ ".collection:" ++ n) else none
  multiMatchCheck := fun _ => false
  multiMatch := fun name pattern => decide (name = pattern)

end HUSD_FindCollections

/-! ## HUSD_PropertyHandle: value converters and the value-type table -/

/-- The scalar types the string and scalar converters are instantiated with. -/
inductive ScalarType where
  | TfToken
  | stdString
  | int
  | int64
  | uint
  | uint64
  | fpreal32
  | fpreal64
  deriving DecidableEq

/-- The vector types the vector converters are instantiated with. -/
inductive VecType where
  | GfVec2d
  | GfVec2f
  | GfVec2i
  | GfVec3d
  | GfVec3f
  | GfVec3i
  | GfVec4d
  | GfVec4f
  | GfVec4i
  deriving DecidableEq

/-- Embeds `VecType::dimension` of the library vector types. -/
def VecType.dimension : VecType → Nat
  | GfVec2d => 2
  | GfVec2f => 2
  | GfVec2i => 2
  | GfVec3d => 3
  | GfVec3f => 3
  | GfVec3i => 3
  | GfVec4d => 4
  | GfVec4f => 4
  | GfVec4i => 4

/-- The matrix types the matrix converters are instantiated with. -/
inductive MatType where
  | GfMatrix2d
  | GfMatrix3d
  | GfMatrix4d
  deriving DecidableEq

/-- Embeds `MatType::numRows` of the library matrix types. -/
def MatType.numRows : MatType → Nat
  | GfMatrix2d => 2
  | GfMatrix3d => 3
  | GfMatrix4d => 4

/-- Embeds `MatType::numColumns` of the library matrix types. -/
def MatType.numColumns : MatType → Nat
  | GfMatrix2d => 2
  | GfMatrix3d => 3
  | GfMatrix4d => 4

/-- The operations on `VtValue` (type `ν`, with components of type `κ`) and the
formatting the converters call, all outside the sources. A cast returns `none`
when the value cast is empty (`castin.IsEmpty()`); the `element` operations
build the value that holds one element (`VtValue elementin(array[0])`). -/
structure VtOps (ν κ : Type) where
  GetArraySize : ν → Nat
  castAsset : ν → Option String
  castAssetArray : ν → Option (List String)
  assetElement : String → ν
  castString : ScalarType → ν → Option String
  castStringArray : ScalarType → ν → Option (List String)
  stringElement : ScalarType → String → ν
  castScalar : ScalarType → ν → Option κ
  castScalarArray : ScalarType → ν → Option (List κ)
  scalarElement : ScalarType → κ → ν
  castVec : VecType → ν → Option (Nat → κ)
  castVecArray : VecType → ν → Option (List (Nat → κ))
  vecElement : VecType → (Nat → κ) → ν
  castMat : MatType → ν → Option (Nat → Nat → κ)
  castMatArray : MatType → ν → Option (List (Nat → Nat → κ))
  matElement : MatType → (Nat → Nat → κ) → ν
  /-- Embeds `UTformat` with the format `"{}"`. -/
  UTformat : ScalarType → κ → String
  /-- Embeds `sprintf` with the format `SYS_FPREAL_DIG_FMT`. -/
  sprintfDig : κ → String

/-- The writes of a converter to the array `out` of default strings, in the
order they are made: index and string written. -/
abbrev Writes := List (Nat × String)

/-- The array `out` after the writes. -/
def applyWrites (ws : Writes) (out : Nat → String) : Nat → String :=
  ws.foldl (fun o w => Function.update o w.1 w.2) out

/-- Element 0 of an array that was cast, handed to the scalar converter. The
array converters read it after `GetArraySize() > 0`; an empty list stands for a
read outside the array, for which the model writes nothing. -/
def withElement0 {α : Type} (xs : List α) (convert : α → Writes) : Writes :=
  match xs with
  | [] => []
  | x :: _ => convert x

section Converters

variable {ν κ : Type}

/-- Embeds `theDefaultConverter`: `out->clear()`. -/
def theDefaultConverter (_v : ν) : Writes := [(0, "")]

/-- Embeds `theAssetConverter` -/
def theAssetConverter (ops : VtOps ν κ) (v : ν) : Writes :=
  match ops.castAsset v with
  | none => []
  | some asset => [(0, asset)]

/-- Embeds `theArrayAssetConverter` -/
def theArrayAssetConverter (ops : VtOps ν κ) (v : ν) : Writes :=
  if ops.GetArraySize v > 0 then
    match ops.castAssetArray v with
    | none => []
    | some xs => withElement0 xs (fun x => theAssetConverter ops (ops.assetElement x))
  else []

/-- Embeds `theStringConverter<ScalarType>` -/
def theStringConverter (ops : VtOps ν κ) (t : ScalarType) (v : ν) : Writes :=
  match ops.castString t v with
  | none => []
  | some s => [(0, s)]

/-- Embeds `theArrayStringConverter<ScalarType>` -/
def theArrayStringConverter (ops : VtOps ν κ) (t : ScalarType) (v : ν) : Writes :=
  if ops.GetArraySize v > 0 then
    match ops.castStringArray t v with
    | none => []
    | some xs => withElement0 xs (fun x => theStringConverter ops t (ops.stringElement t x))
  else []

/-- Embeds `theScalarConverter<ScalarType>` -/
def theScalarConverter (ops : VtOps ν κ) (t : ScalarType) (v : ν) : Writes :=
  match ops.castScalar t v with
  | none => []
  | some x => [(0, ops.UTformat t x)]

/-- Embeds `theArrayScalarConverter<ScalarType>` -/
def theArrayScalarConverter (ops : VtOps ν κ) (t : ScalarType) (v : ν) : Writes :=
  if ops.GetArraySize v > 0 then
    match ops.castScalarArray t v with
    | none => []
    | some xs => withElement0 xs (fun x => theScalarConverter ops t (ops.scalarElement t x))
  else []

/-- The loop of `theVecConverter` over the components of a vector. -/
def vecWrites (dimension : Nat) (format : κ → String) (vec : Nat → κ) : Writes :=
  (List.range dimension).map (fun i => (i, format (vec i)))

/-- Embeds `theVecConverter<VecType>` -/
def theVecConverter (ops : VtOps ν κ) (t : VecType) (v : ν) : Writes :=
  match ops.castVec t v with
  | none => []
  | some vec => vecWrites t.dimension ops.sprintfDig vec

/-- Embeds `theArrayVecConverter<VecType>` -/
def theArrayVecConverter (ops : VtOps ν κ) (t : VecType) (v : ν) : Writes :=
  if ops.GetArraySize v > 0 then
    match ops.castVecArray t v with
    | none => []
    | some xs => withElement0 xs (fun x => theVecConverter ops t (ops.vecElement t x))
  else []

/-- The two nested loops of `theMatConverter` over the rows and the columns of
a matrix: `out[r*numColumns+c]` receives element `[r][c]`. -/
def matWrites (numRows numColumns : Nat) (format : κ → String) (mat : Nat → Nat → κ) :
    Writes :=
  (List.range numRows).flatMap (fun r =>
    (List.range numColumns).map (fun c => (r * numColumns + c, format (mat r c))))

/-- Embeds `theMatConverter<MatType>` -/
def theMatConverter (ops : VtOps ν κ) (t : MatType) (v : ν) : Writes :=
  match ops.castMat t v with
  | none => []
  | some mat => matWrites t.numRows t.numColumns ops.sprintfDig mat

/-- Embeds `theArrayMatConverter<MatType>` -/
def theArrayMatConverter (ops : VtOps ν κ) (t : MatType) (v : ν) : Writes :=
  if ops.GetArraySize v > 0 then
    match ops.castMatArray t v with
    | none => []
    | some xs => withElement0 xs (fun x => theMatConverter ops t (ops.matElement t x))
  else []

end Converters

/-- A `ValueConverter`: one of the converter functions a table entry can point
to. -/
inductive ValueConverter where
  | theDefaultConverter
  | theAssetConverter
  | theArrayAssetConverter
  | theStringConverter (t : ScalarType)
  | theArrayStringConverter (t : ScalarType)
  | theScalarConverter (t : ScalarType)
  | theArrayScalarConverter (t : ScalarType)
  | theVecConverter (t : VecType)
  | theArrayVecConverter (t : VecType)
  | theMatConverter (t : MatType)
  | theArrayMatConverter (t : MatType)
  deriving DecidableEq

/-- The call of a converter through its pointer. -/
def ValueConverter.run {ν κ : Type} (ops : VtOps ν κ) : ValueConverter → ν → Writes
  | ValueConverter.theDefaultConverter => HUSD.theDefaultConverter
  | ValueConverter.theAssetConverter => HUSD.theAssetConverter ops
  | ValueConverter.theArrayAssetConverter => HUSD.theArrayAssetConverter ops
  | ValueConverter.theStringConverter t => HUSD.theStringConverter ops t
  | ValueConverter.theArrayStringConverter t => HUSD.theArrayStringConverter ops t
  | ValueConverter.theScalarConverter t => HUSD.theScalarConverter ops t
  | ValueConverter.theArrayScalarConverter t => HUSD.theArrayScalarConverter ops t
  | ValueConverter.theVecConverter t => HUSD.theVecConverter ops t
  | ValueConverter.theArrayVecConverter t => HUSD.theArrayVecConverter ops t
  | ValueConverter.theMatConverter t => HUSD.theMatConverter ops t
  | ValueConverter.theArrayMatConverter t => HUSD.theArrayMatConverter ops t

/-- Whether the cast a scalar converter starts with succeeds on a value (the
default converter casts nothing). -/
def ValueConverter.castSucceeds {ν κ : Type} (ops : VtOps ν κ) : ValueConverter → ν → Bool
  | ValueConverter.theDefaultConverter, _ => true
  | ValueConverter.theAssetConverter, v => (ops.castAsset v).isSome
  | ValueConverter.theStringConverter t, v => (ops.castString t v).isSome
  | ValueConverter.theScalarConverter t, v => (ops.castScalar t v).isSome
  | ValueConverter.theVecConverter t, v => (ops.castVec t v).isSome
  | ValueConverter.theMatConverter t, v => (ops.castMat t v).isSome
  | _, _ => false

/-- The types of parameter templates used in the file. -/
inductive PRM_Type where
  | PRM_STRING
  | PRM_FILE
  | PRM_TOGGLE
  | PRM_RGB
  | PRM_RGBA
  | PRM_FLT
  | PRM_INT
  | PRM_XYZ
  | PRM_ORD
  | PRM_SWITCHER
  deriving DecidableEq

/-- Embeds `PRM_Template` as far as the file fills it in: the type, the number
of components (vector size), the token of its name, the token of its default
when it has one, the tokens of its menu, and whether it has the restricted
range `theUnsignedRange`. -/
structure PRM_Template where
  type : PRM_Type
  vectorSize : Nat
  name : String
  defaultToken : Option String
  menu : List String
  restrictedRange : Bool
  deriving DecidableEq

/-- A template of the given type and vector size named by `theDefaultName`. -/
def namedTemplate (type : PRM_Type) (vectorSize : Nat) : PRM_Template where
  type := type
  vectorSize := vectorSize
  name := "name"
  defaultToken := none
  menu := []
  restrictedRange := false

/-- Embeds `theDefaultTemplate`: `PRM_Template(PRM_STRING, 1, &theDefaultName)`. -/
def theDefaultTemplate : PRM_Template := namedTemplate PRM_Type.PRM_STRING 1

/-- Embeds the class `AttribInfo` -/
structure AttribInfo where
  myTemplate : PRM_Template
  myValueConverter : ValueConverter
  myArrayValueConverter : ValueConverter
  deriving DecidableEq

/-- The default-constructed `AttribInfo`, from the member initialisers of the
class. -/
def AttribInfo.default : AttribInfo where
  myTemplate := theDefaultTemplate
  myValueConverter := ValueConverter.theDefaultConverter
  myArrayValueConverter := ValueConverter.theDefaultConverter

/-- Embeds `UT_Map<UT_StringHolder, AttribInfo>` as the list of its entries. -/
abbrev UT_Map := List (String × AttribInfo)

/-- Embeds `UT_Map::operator[]`: the value mapped to the key; when the key is
absent a default-constructed value is inserted for it and returned. The result
is the value and the map after the call. -/
def UT_Map.index (m : UT_Map) (key : String) : AttribInfo × UT_Map :=
  match m.lookup key with
  | some info => (info, m)
  | none => (AttribInfo.default, m ++ [(key, AttribInfo.default)])

/-- Embeds the static `theStringTemplate` -/
def theStringTemplate : PRM_Template := namedTemplate PRM_Type.PRM_STRING 1
/-- Embeds the static `theFileTemplate` -/
def theFileTemplate : PRM_Template := namedTemplate PRM_Type.PRM_FILE 1
/-- Embeds the static `theBoolTemplate` -/
def theBoolTemplate : PRM_Template := namedTemplate PRM_Type.PRM_TOGGLE 1
/-- Embeds the static `theColor3Template` -/
def theColor3Template : PRM_Template := namedTemplate PRM_Type.PRM_RGB 3
/-- Embeds the static `theColor4Template` -/
def theColor4Template : PRM_Template := namedTemplate PRM_Type.PRM_RGBA 4
/-- Embeds the static `theFloatTemplate` -/
def theFloatTemplate : PRM_Template := namedTemplate PRM_Type.PRM_FLT 1
/-- Embeds the static `theFloat2Template` -/
def theFloat2Template : PRM_Template := namedTemplate PRM_Type.PRM_FLT 2
/-- Embeds the static `theFloat3Template` -/
def theFloat3Template : PRM_Template := namedTemplate PRM_Type.PRM_FLT 3
/-- Embeds the static `theFloat4Template` -/
def theFloat4Template : PRM_Template := namedTemplate PRM_Type.PRM_FLT 4
/-- Embeds the static `theFloat9Template` -/
def theFloat9Template : PRM_Template := namedTemplate PRM_Type.PRM_FLT 9
/-- Embeds the static `theFloat16Template` -/
def theFloat16Template : PRM_Template := namedTemplate PRM_Type.PRM_FLT 16
/-- Embeds the static `theIntTemplate` -/
def theIntTemplate : PRM_Template := namedTemplate PRM_Type.PRM_INT 1
/-- Embeds the static `theInt2Template` -/
def theInt2Template : PRM_Template := namedTemplate PRM_Type.PRM_INT 2
/-- Embeds the static `theInt3Template` -/
def theInt3Template : PRM_Template := namedTemplate PRM_Type.PRM_INT 3
/-- Embeds the static `theInt4Template` -/
def theInt4Template : PRM_Template := namedTemplate PRM_Type.PRM_INT 4
/-- Embeds the static `theUIntTemplate`, with the range `theUnsignedRange`. -/
def theUIntTemplate : PRM_Template :=
  { namedTemplate PRM_Type.PRM_INT 1 with restrictedRange := true }

/-- Embeds the initial value of the static `theTemplateMap` of
`getAttribInfoForValueType`, entry by entry. -/
def theTemplateMap : UT_Map := [
    ("token", ⟨theStringTemplate, (ValueConverter.theStringConverter ScalarType.TfToken),
      (ValueConverter.theArrayStringConverter ScalarType.TfToken)⟩),
    ("string", ⟨theStringTemplate, (ValueConverter.theStringConverter ScalarType.stdString),
      (ValueConverter.theArrayStringConverter ScalarType.stdString)⟩),
    ("uchar", ⟨theStringTemplate, (ValueConverter.theStringConverter ScalarType.stdString),
      (ValueConverter.theArrayStringConverter ScalarType.stdString)⟩),
    ("asset", ⟨theFileTemplate, ValueConverter.theAssetConverter,
      ValueConverter.theArrayAssetConverter⟩),
    ("bool", ⟨theBoolTemplate, (ValueConverter.theScalarConverter ScalarType.int),
      (ValueConverter.theArrayScalarConverter ScalarType.int)⟩),
    ("color3d", ⟨theColor3Template, (ValueConverter.theVecConverter VecType.GfVec3d),
      (ValueConverter.theArrayVecConverter VecType.GfVec3d)⟩),
    ("color3f", ⟨theColor3Template, (ValueConverter.theVecConverter VecType.GfVec3f),
      (ValueConverter.theArrayVecConverter VecType.GfVec3f)⟩),
    ("color3h", ⟨theColor3Template, (ValueConverter.theVecConverter VecType.GfVec3f),
      (ValueConverter.theArrayVecConverter VecType.GfVec3f)⟩),
    ("color4d", ⟨theColor4Template, (ValueConverter.theVecConverter VecType.GfVec4d),
      (ValueConverter.theArrayVecConverter VecType.GfVec4d)⟩),
    ("color4f", ⟨theColor4Template, (ValueConverter.theVecConverter VecType.GfVec4f),
      (ValueConverter.theArrayVecConverter VecType.GfVec4f)⟩),
    ("color4h", ⟨theColor4Template, (ValueConverter.theVecConverter VecType.GfVec4f),
      (ValueConverter.theArrayVecConverter VecType.GfVec4f)⟩),
    ("double", ⟨theFloatTemplate, (ValueConverter.theScalarConverter ScalarType.fpreal64),
      (ValueConverter.theArrayScalarConverter ScalarType.fpreal64)⟩),
    ("float", ⟨theFloatTemplate, (ValueConverter.theScalarConverter ScalarType.fpreal32),
      (ValueConverter.theArrayScalarConverter ScalarType.fpreal32)⟩),
    ("half", ⟨theFloatTemplate, (ValueConverter.theScalarConverter ScalarType.fpreal32),
      (ValueConverter.theArrayScalarConverter ScalarType.fpreal32)⟩),
    ("double2", ⟨theFloat2Template, (ValueConverter.theVecConverter VecType.GfVec2d),
      (ValueConverter.theArrayVecConverter VecType.GfVec2d)⟩),
    ("float2", ⟨theFloat2Template, (ValueConverter.theVecConverter VecType.GfVec2f),
      (ValueConverter.theArrayVecConverter VecType.GfVec2f)⟩),
    ("half2", ⟨theFloat2Template, (ValueConverter.theVecConverter VecType.GfVec2f),
      (ValueConverter.theArrayVecConverter VecType.GfVec2f)⟩),
    ("texcoord2d", ⟨theFloat2Template, (ValueConverter.theVecConverter VecType.GfVec2d),
      (ValueConverter.theArrayVecConverter VecType.GfVec2d)⟩),
    ("texcoord2f", ⟨theFloat2Template, (ValueConverter.theVecConverter VecType.GfVec2f),
      (ValueConverter.theArrayVecConverter VecType.GfVec2f)⟩),
    ("texcoord2h", ⟨theFloat2Template, (ValueConverter.theVecConverter VecType.GfVec2f),
      (ValueConverter.theArrayVecConverter VecType.GfVec2f)⟩),
    ("double3", ⟨theFloat3Template, (ValueConverter.theVecConverter VecType.GfVec3d),
      (ValueConverter.theArrayVecConverter VecType.GfVec3d)⟩),
    ("float3", ⟨theFloat3Template, (ValueConverter.theVecConverter VecType.GfVec3f),
      (ValueConverter.theArrayVecConverter VecType.GfVec3f)⟩),
    ("half3", ⟨theFloat3Template, (ValueConverter.theVecConverter VecType.GfVec3f),
      (ValueConverter.theArrayVecConverter VecType.GfVec3f)⟩),
    ("normal3d", ⟨theFloat3Template, (ValueConverter.theVecConverter VecType.GfVec3d),
      (ValueConverter.theArrayVecConverter VecType.GfVec3d)⟩),
    ("normal3f", ⟨theFloat3Template, (ValueConverter.theVecConverter VecType.GfVec3f),
      (ValueConverter.theArrayVecConverter VecType.GfVec3f)⟩),
    ("normal3h", ⟨theFloat3Template, (ValueConverter.theVecConverter VecType.GfVec3f),
      (ValueConverter.theArrayVecConverter VecType.GfVec3f)⟩),
    ("point3d", ⟨theFloat3Template, (ValueConverter.theVecConverter VecType.GfVec3d),
      (ValueConverter.theArrayVecConverter VecType.GfVec3d)⟩),
    ("point3f", ⟨theFloat3Template, (ValueConverter.theVecConverter VecType.GfVec3f),
      (ValueConverter.theArrayVecConverter VecType.GfVec3f)⟩),
    ("point3h", ⟨theFloat3Template, (ValueConverter.theVecConverter VecType.GfVec3f),
      (ValueConverter.theArrayVecConverter VecType.GfVec3f)⟩),
    ("vector3d", ⟨theFloat3Template, (ValueConverter.theVecConverter VecType.GfVec3d),
      (ValueConverter.theArrayVecConverter VecType.GfVec3d)⟩),
    ("vector3f", ⟨theFloat3Template, (ValueConverter.theVecConverter VecType.GfVec3f),
      (ValueConverter.theArrayVecConverter VecType.GfVec3f)⟩),
    ("vector3h", ⟨theFloat3Template, (ValueConverter.theVecConverter VecType.GfVec3f),
      (ValueConverter.theArrayVecConverter VecType.GfVec3f)⟩),
    ("texcoord3d", ⟨theFloat3Template, (ValueConverter.theVecConverter VecType.GfVec3d),
      (ValueConverter.theArrayVecConverter VecType.GfVec3d)⟩),
    ("texcoord3f", ⟨theFloat3Template, (ValueConverter.theVecConverter VecType.GfVec3f),
      (ValueConverter.theArrayVecConverter VecType.GfVec3f)⟩),
    ("texcoord3h", ⟨theFloat3Template, (ValueConverter.theVecConverter VecType.GfVec3f),
      (ValueConverter.theArrayVecConverter VecType.GfVec3f)⟩),
    ("double4", ⟨theFloat4Template, (ValueConverter.theVecConverter VecType.GfVec4d),
      (ValueConverter.theArrayVecConverter VecType.GfVec4d)⟩),
    ("float4", ⟨theFloat4Template, (ValueConverter.theVecConverter VecType.GfVec4f),
      (ValueConverter.theArrayVecConverter VecType.GfVec4f)⟩),
    ("half4", ⟨theFloat4Template, (ValueConverter.theVecConverter VecType.GfVec4f),
      (ValueConverter.theArrayVecConverter VecType.GfVec4f)⟩),
    ("quatd", ⟨theFloat4Template, (ValueConverter.theVecConverter VecType.GfVec4d),
      (ValueConverter.theArrayVecConverter VecType.GfVec4d)⟩),
    ("quatf", ⟨theFloat4Template, (ValueConverter.theVecConverter VecType.GfVec4f),
      (ValueConverter.theArrayVecConverter VecType.GfVec4f)⟩),
    ("quath", ⟨theFloat4Template, (ValueConverter.theVecConverter VecType.GfVec4f),
      (ValueConverter.theArrayVecConverter VecType.GfVec4f)⟩),
    ("matrix2d", ⟨theFloat4Template, (ValueConverter.theMatConverter MatType.GfMatrix2d),
      (ValueConverter.theArrayMatConverter MatType.GfMatrix2d)⟩),
    ("matrix3d", ⟨theFloat9Template, (ValueConverter.theMatConverter MatType.GfMatrix3d),
      (ValueConverter.theArrayMatConverter MatType.GfMatrix3d)⟩),
    ("matrix4d", ⟨theFloat16Template, (ValueConverter.theMatConverter MatType.GfMatrix4d),
      (ValueConverter.theArrayMatConverter MatType.GfMatrix4d)⟩),
    ("frame4d", ⟨theFloat16Template, (ValueConverter.theMatConverter MatType.GfMatrix4d),
      (ValueConverter.theArrayMatConverter MatType.GfMatrix4d)⟩),
    ("int", ⟨theIntTemplate, (ValueConverter.theScalarConverter ScalarType.int),
      (ValueConverter.theArrayScalarConverter ScalarType.int)⟩),
    ("int64", ⟨theIntTemplate, (ValueConverter.theScalarConverter ScalarType.int64),
      (ValueConverter.theArrayScalarConverter ScalarType.int64)⟩),
    ("int2", ⟨theInt2Template, (ValueConverter.theVecConverter VecType.GfVec2i),
      (ValueConverter.theArrayVecConverter VecType.GfVec2i)⟩),
    ("int3", ⟨theInt3Template, (ValueConverter.theVecConverter VecType.GfVec3i),
      (ValueConverter.theArrayVecConverter VecType.GfVec3i)⟩),
    ("int4", ⟨theInt4Template, (ValueConverter.theVecConverter VecType.GfVec4i),
      (ValueConverter.theArrayVecConverter VecType.GfVec4i)⟩),
    ("uint", ⟨theUIntTemplate, (ValueConverter.theScalarConverter ScalarType.uint),
      (ValueConverter.theArrayScalarConverter ScalarType.uint)⟩),
    ("uint64", ⟨theUIntTemplate, (ValueConverter.theScalarConverter ScalarType.uint64),
      (ValueConverter.theArrayScalarConverter ScalarType.uint64)⟩)
  ]

/-- Embeds `getAttribInfoForValueType`: `return theTemplateMap[scalartypename]`.
The static map is the argument `map`, `theTemplateMap` before the first call;
the result is the entry returned and the static map after the call. -/
def getAttribInfoForValueType (map : UT_Map) (scalartypename : String) :
    AttribInfo × UT_Map :=
  UT_Map.index map scalartypename

/-- The static map after a sequence of earlier lookups, first name first. -/
def mapAfterLookups (names : List String) : UT_Map :=
  names.foldl (fun m n => (getAttribInfoForValueType m n).2) theTemplateMap

/-! ## HUSD_PropertyHandle: scripted parameters -/

/-- Embeds `UT_StringRef::isstring`: the string is not empty. -/
def isstring (s : String) : Bool := decide (s ≠ "")

/-- The keys of the spare values the file sets on a parameter. -/
inductive SpareKey where
  | HUSD_PROPERTY_VALUETYPE
  | HUSD_PROPERTY_APISCHEMA
  | HUSD_PROPERTY_XFORM_PARM_PREFIX
  deriving DecidableEq

/-- Embeds `PI_EditScriptedParm` as far as the file reads and writes it.
`myTemplate` is the template the parameter was constructed from,
`myDisableCond` is `myConditional[PRM_CONDTYPE_DISABLE]`, and the values of
library enumerations are held as the names of their enumerators. -/
structure PI_EditScriptedParm where
  myTemplate : PRM_Template
  myName : String
  myLabel : String
  myDefaults : Nat → String
  myDefaultsStringMeaning : Nat → String
  myMenu : List (String × String)
  myMenuEnable : String
  myMenuType : String
  myMenuScript : String
  myMenuScriptLanguage : String
  myDisableCond : String
  mySpareValues : SpareKey → String

/-- Embeds `PI_EditScriptedParm::setSpareValue` -/
def PI_EditScriptedParm.setSpareValue (parm : PI_EditScriptedParm) (key : SpareKey)
    (value : String) : PI_EditScriptedParm :=
  { parm with mySpareValues := Function.update parm.mySpareValues key value }

/-- Embeds `PI_EditScriptedParm::getSpareValue` -/
def PI_EditScriptedParm.getSpareValue (parm : PI_EditScriptedParm) (key : SpareKey) :
    String :=
  parm.mySpareValues key

/-- Embeds `theXformTemplates` without its terminating entry: types and vector
sizes as in the source, each named by the library name object it refers to. -/
def theXformTemplates : List PRM_Template := [
    { namedTemplate PRM_Type.PRM_ORD 1 with name := "PRMtrsName" },
    { namedTemplate PRM_Type.PRM_ORD 1 with name := "PRMxyzName" },
    { namedTemplate PRM_Type.PRM_XYZ 3 with name := "PRMxlateName" },
    { namedTemplate PRM_Type.PRM_XYZ 3 with name := "PRMrotName" },
    { namedTemplate PRM_Type.PRM_XYZ 3 with name := "PRMscaleName" },
    { namedTemplate PRM_Type.PRM_FLT 3 with name := "PRMshearName" },
    { namedTemplate PRM_Type.PRM_FLT 1 with name := "PRMuscaleName" },
    { namedTemplate PRM_Type.PRM_SWITCHER 1 with name := "PRMpivotXformParmGroupName" },
    { namedTemplate PRM_Type.PRM_XYZ 3 with name := "PRMpivotXlateLabelName" },
    { namedTemplate PRM_Type.PRM_XYZ 3 with name := "PRMpivotRotName" }
  ]

/-- Embeds `getTemplateForRelationship` -/
def getTemplateForRelationship : PRM_Template := theDefaultTemplate

/-- Embeds `getTemplateForTransform`: a string template with the default
`append` and the menu of transform choices. -/
def getTemplateForTransform : PRM_Template :=
  { namedTemplate PRM_Type.PRM_STRING 1 with
    defaultToken := some "append",
    menu := ["append", "prepend", "overwriteorappend", "overwriteorprepend", "world",
      "replace"] }

/-- Embeds the static `theControlParm` of `createScriptedControlParm`. -/
def theControlParm : PRM_Template :=
  { namedTemplate PRM_Type.PRM_STRING 1 with name := "control" }

/-- Embeds a `UsdAttribute` as far as `createScriptedParms` reads it.
`isTransformOp` is the outcome of `UsdGeomXformOp::IsXformOp(attr)`, of the
validity of the op and of `GetOpType() == TypeTransform`; `value` is the value
at the current time code, possibly empty. -/
structure UsdAttribute (ν : Type) where
  isTransformOp : Bool
  typeName : String
  scalarTypeName : String
  value : ν
  allowedTokens : Option (List String)

/-- What a locked `UsdProperty` is: an attribute, a relationship with its
targets as path strings, or neither. -/
inductive UsdPropertyKind (ν : Type) where
  | usdAttribute (attr : UsdAttribute ν)
  | usdRelationship (targets : List String)
  | neither

/-- Embeds a locked `UsdProperty` -/
structure UsdProperty (ν : Type) where
  displayName : String
  kind : UsdPropertyKind ν

/-- Embeds `HUSD_PropertyHandle` as far as `createScriptedParms` reads it:
`lockObj` is the object of `XUSD_AutoObjectLock<UsdProperty> lock(*this)`, `none`
when the property cannot be locked; `sourceSchema` is the result of
`getSourceSchema()`. -/
structure HUSD_PropertyHandle (ν : Type) where
  myName : String
  lockObj : Option (UsdProperty ν)
  sourceSchema : String

/-- The library operations `createScriptedParms` calls, outside the sources. -/
structure ParmEnv (ν κ : Type) where
  ops : VtOps ν κ
  IsEmpty : ν → Bool
  IsArrayValued : ν → Bool
  /-- Embeds `new PI_EditScriptedParm(tplate, nullptr, false)`. -/
  newParm : PRM_Template → PI_EditScriptedParm
  /-- Embeds `UT_VarEncode::encodeParm`. -/
  encodeParm : String → String
  /-- The parameters of `PI_EditScriptedParms(nullptr, templates, false, false,
  false)`, in the order of `getParm`. -/
  PI_EditScriptedParms : List PRM_Template → List PI_EditScriptedParm
  /-- Whether a name is a transform-op name: `HUSDisXformAttribute` succeeds and
  the op type of its type is `TypeTransform`. -/
  isTransformOpName : String → Bool
  /-- Embeds `UsdGeomXformOp::GetOpName(TypeTransform, suffix)`. -/
  transformOpName : String → String
  HUSD_PROPERTY_VALUETYPE_XFORM : String
  HUSD_PROPERTY_VALUETYPE_RELATIONSHIP : String

/-- The loop of the relationship branch over the targets: a space is appended
when the buffer is not empty, then the path string of the target. -/
def joinTargets : List String → List Char → List Char
  | [], buf => buf
  | target :: rest, buf =>
    joinTargets rest ((if buf.isEmpty then buf else buf ++ [' ']) ++ target.data)

namespace HUSD_PropertyHandle

variable {ν κ : Type}

/-- Embeds `HUSD_PropertyHandle::createScriptedControlParm` -/
def createScriptedControlParm (env : ParmEnv ν κ) (parms : List PI_EditScriptedParm)
    (propbasename : String) (usdvaluetype : String) : List PI_EditScriptedParm :=
  let menuscript := "import loputils\nreturn loputils.createEditPropertiesControlMenu(kwargs, \x27"
    ++ usdvaluetype ++ "\x27)"
  let propname := propbasename ++ "_control"
  let parm := env.newParm theControlParm
  let parm := { parm with
    myName := env.encodeParm propname,
    myLabel := propbasename,
    myDefaults := Function.update parm.myDefaults 0 "set",
    myDefaultsStringMeaning := Function.update parm.myDefaultsStringMeaning 0 "CH_STRING_LITERAL",
    myMenuEnable := "PI_MENU_SCRIPT",
    myMenuType := "PI_MENU_JOIN",
    myMenuScript := menuscript,
    myMenuScriptLanguage := "CH_PYTHON_SCRIPT" }
  parms ++ [parm]

/-- The base name for the parameters of the property, as `createScriptedParms`
works it out. -/
def propBaseName (env : ParmEnv ν κ) (name custom_name : String) (istransformop : Bool) :
    String :=
  let propbasename := if isstring custom_name then custom_name else name
  if istransformop && isstring custom_name then
    if !env.isTransformOpName propbasename then env.transformOpName propbasename
    else propbasename
  else propbasename

/-- Whether the locked property is an attribute that is a transform op. -/
def isTransformOp (obj : UsdProperty ν) : Bool :=
  match obj.kind with
  | UsdPropertyKind.usdAttribute attr => attr.isTransformOp
  | _ => false

/-- The parameter `createScriptedParms` creates for the property in its three
branches (transform op, attribute, relationship), before its name and label are
set, with the static map after the call; `none` when no parameter is created. -/
def createPropertyParm (env : ParmEnv ν κ) (h : HUSD_PropertyHandle ν) (obj : UsdProperty ν)
    (propbasename : String) ( prefix_xform_parms : Bool) (map : UT_Map) :
    Option PI_EditScriptedParm × UT_Map :=
  match obj.kind with
  | UsdPropertyKind.usdAttribute attr =>
    if attr.isTransformOp then
      let parm := env.newParm getTemplateForTransform
      let parm := parm.setSpareValue SpareKey.HUSD_PROPERTY_VALUETYPE
        env.HUSD_PROPERTY_VALUETYPE_XFORM
      let parm :=
        if prefix_xform_parms then
          parm.setSpareValue SpareKey.HUSD_PROPERTY_XFORM_PARM_PREFIX (propbasename ++ "_")
        else parm
      (some parm, map)
    else
      let looked := getAttribInfoForValueType map attr.scalarTypeName
      let info := looked.1
      let parm := env.newParm info.myTemplate
      let parm := parm.setSpareValue SpareKey.HUSD_PROPERTY_VALUETYPE attr.typeName
      let parm :=
        if isstring h.sourceSchema then
          parm.setSpareValue SpareKey.HUSD_PROPERTY_APISCHEMA h.sourceSchema
        else parm
      let parm :=
        if !env.IsEmpty attr.value then
          if env.IsArrayValued attr.value then
            { parm with myDefaults :=
                applyWrites (info.myArrayValueConverter.run env.ops attr.value) parm.myDefaults }
          else
            { parm with myDefaults :=
                applyWrites (info.myValueConverter.run env.ops attr.value) parm.myDefaults }
        else parm
      let parm :=
        if attr.scalarTypeName = "token" then
          match attr.allowedTokens with
          | some allowedtokens =>
            { parm with
              myMenu := parm.myMenu ++ allowedtokens.map (fun token => (token, token)),
              myMenuType := "PI_MENU_NORMAL",
              myMenuEnable := "PI_MENU_ITEMS" }
          | none => parm
        else parm
      (some parm, looked.2)
  | UsdPropertyKind.usdRelationship targets =>
    let parm := env.newParm getTemplateForRelationship
    let parm := parm.setSpareValue SpareKey.HUSD_PROPERTY_VALUETYPE
      env.HUSD_PROPERTY_VALUETYPE_RELATIONSHIP
    let targets_buf := joinTargets targets []
    (some { parm with myDefaults := Function.update parm.myDefaults 0 (String.mk targets_buf) },
      map)
  | UsdPropertyKind.neither => (none, map)

/-- One step of the loop over the transform components: the copy of a
component parameter as it is appended. -/
def xformComponentParm (env : ParmEnv ν κ) (propbasename disablecond : String)
    ( prefix_xform_parms : Bool) (component : PI_EditScriptedParm) : PI_EditScriptedParm :=
  let xformparm :=
    if prefix_xform_parms then
      { component with myName := env.encodeParm (propbasename ++ "_" ++ component.myName) }
    else component
  { xformparm with myDisableCond := disablecond }

/-- Embeds `HUSD_PropertyHandle::createScriptedParms`: the array `parms` and
the static map of `getAttribInfoForValueType` after the call. -/
def createScriptedParms (env : ParmEnv ν κ) (h : HUSD_PropertyHandle ν)
    (parms : List PI_EditScriptedParm) (custom_name : String)
    (prepend_control_parm : Bool) ( prefix_xform_parms : Bool) (map : UT_Map) :
    List PI_EditScriptedParm × UT_Map :=
  match h.lockObj with
  | none => (parms, map)
  | some obj =>
    let istransformop := isTransformOp obj
    let propbasename := propBaseName env h.myName custom_name istransformop
    match createPropertyParm env h obj propbasename prefix_xform_parms map with
    | (none, map) => (parms, map)
    | (some parm, map) =>
      let propname := propbasename
      let proplabel := if isstring obj.displayName then obj.displayName else propname
      let parm := { parm with myName := env.encodeParm propname, myLabel := proplabel }
      let controlled :=
        if prepend_control_parm then
          createScriptedControlParm env parms propbasename
            (parm.getSpareValue SpareKey.HUSD_PROPERTY_VALUETYPE)
        else parms
      let disablecond :=
        if prepend_control_parm then
          match controlled.getLast? with
          | some last =>
            "\x7b " ++ last.myName ++ " == block \x7d \x7b " ++ last.myName ++ " == none \x7d"
          | none => ""
        else ""
      let parm :=
        if prepend_control_parm then { parm with myDisableCond := disablecond } else parm
      let appended := controlled ++ [parm]
      if istransformop then
        (appended ++ (env.PI_EditScriptedParms theXformTemplates).map
          (xformComponentParm env propbasename disablecond prefix_xform_parms), map)
      else (appended, map)

end HUSD_PropertyHandle

/-! ## HUSD_PropertyHandle: auxiliary definitions and samples -/

/-- The number of default strings a converter writes when its cast succeeds:
one for the default, asset, string and scalar converters, the dimension for the
vector converters, rows times columns for the matrix converters. -/
def ValueConverter.writeCount : ValueConverter → Nat
  | ValueConverter.theDefaultConverter => 1
  | ValueConverter.theAssetConverter => 1
  | ValueConverter.theArrayAssetConverter => 1
  | ValueConverter.theStringConverter _ => 1
  | ValueConverter.theArrayStringConverter _ => 1
  | ValueConverter.theScalarConverter _ => 1
  | ValueConverter.theArrayScalarConverter _ => 1
  | ValueConverter.theVecConverter t => t.dimension
  | ValueConverter.theArrayVecConverter t => t.dimension
  | ValueConverter.theMatConverter t => t.numRows * t.numColumns
  | ValueConverter.theArrayMatConverter t => t.numRows * t.numColumns

/-- The array converter that matches a scalar converter: the same family
instantiated with the same type. -/
def ValueConverter.arrayVariant : ValueConverter → ValueConverter
  | ValueConverter.theAssetConverter => ValueConverter.theArrayAssetConverter
  | ValueConverter.theStringConverter t => ValueConverter.theArrayStringConverter t
  | ValueConverter.theScalarConverter t => ValueConverter.theArrayScalarConverter t
  | ValueConverter.theVecConverter t => ValueConverter.theArrayVecConverter t
  | ValueConverter.theMatConverter t => ValueConverter.theArrayMatConverter t
  | other => other

/-- Whether a converter is one of the scalar converters (asset, string,
scalar, vector, matrix). -/
def ValueConverter.isScalar : ValueConverter → Bool
  | ValueConverter.theAssetConverter => true
  | ValueConverter.theStringConverter _ => true
  | ValueConverter.theScalarConverter _ => true
  | ValueConverter.theVecConverter _ => true
  | ValueConverter.theMatConverter _ => true
  | _ => false

/-- Sample value operations: a value is a list of integers, an array of its
elements; a scalar is a list of one element, vectors and matrices read the list
by index, and there are no assets and no strings. -/
def sampleVtOps : VtOps (List Int) Int where
  GetArraySize := fun v => v.length
  castAsset := fun _ => none
  castAssetArray := fun _ => none
  assetElement := fun _ => []
  castString := fun _ _ => none
  castStringArray := fun _ _ => none
  stringElement := fun _ _ => []
  castScalar := fun _ v => match v with
    | [x] => some x
    | _ => none
  castScalarArray := fun _ v => some v
  scalarElement := fun _ x => [x]
  castVec := fun _ v => some (fun i => v.getD i 0)
  castVecArray := fun _ _ => none
  vecElement := fun _ _ => []
  castMat := fun t v => some (fun r c => v.getD (r * t.numColumns + c) 0)
  castMatArray := fun _ _ => none
  matElement := fun _ _ => []
  UTformat := fun _ x => toString x
  sprintfDig := fun x => toString x

/-- A parameter as constructed from a template, with empty strings. -/
def sampleNewParm (tplate : PRM_Template) : PI_EditScriptedParm where
  myTemplate := tplate
  myName := tplate.name
  myLabel := tplate.name
  myDefaults := fun _ => ""
  myDefaultsStringMeaning := fun _ => ""
  myMenu := []
  myMenuEnable := ""
  myMenuType := ""
  myMenuScript := ""
  myMenuScriptLanguage := ""
  myDisableCond := ""
  mySpareValues := fun _ => ""

/-- Sample library operations: one parameter per template, names encoded as
they are. -/
def sampleParmEnv : ParmEnv (List Int) Int where
  ops := sampleVtOps
  IsEmpty := fun v => v.isEmpty
  IsArrayValued := fun v => decide (1 < v.length)
  newParm := sampleNewParm
  encodeParm := fun s => s
  PI_EditScriptedParms := fun templates => templates.map sampleNewParm
  isTransformOpName := fun _ => true
  transformOpName := fun s => s
  HUSD_PROPERTY_VALUETYPE_XFORM := "xform"
  HUSD_PROPERTY_VALUETYPE_RELATIONSHIP := "relationship"

/-- A handle on a relationship with the given targets. -/
def sampleRelationship (targets : List String) : HUSD_PropertyHandle (List Int) where
  myName := "material:binding"
  lockObj := some ⟨"", UsdPropertyKind.usdRelationship targets⟩
  sourceSchema := ""

/-- A handle on an attribute of the given scalar type, transform op or not,
with the given value. -/
def sampleAttribute (scalarTypeName : String) (isTransformOp : Bool) (value : List Int) :
    HUSD_PropertyHandle (List Int) where
  myName := "xformOp:transform"
  lockObj := some ⟨"", UsdPropertyKind.usdAttribute
    ⟨isTransformOp, scalarTypeName, scalarTypeName, value, none⟩⟩
  sourceSchema := ""

end HUSD

namespace HdKarma

/-! ## Auxiliary lemmas -/

/-! ## Auxiliary lemmas on rounding -/

theorem log_two_eq (r : ℚ) (n : Int) (hlo : (2 : ℚ) ^ n ≤ r) (hhi : r < (2 : ℚ) ^ (n + 1)) :
    Int.log 2 r = n := by
  have hr : 0 < r := lt_of_lt_of_le (by positivity) hlo
  apply le_antisymm
  · have := (Int.lt_zpow_iff_log_lt (b := 2) (by norm_num) hr (x := n + 1)).1 (by exact_mod_cast hhi)
    omega
  · exact (Int.zpow_le_iff_le_log (b := 2) (by norm_num) hr).1 (by exact_mod_cast hlo)

theorem roundHalfEven_sub_abs_le (x : ℚ) : |(roundHalfEven x : ℚ) - x| ≤ 1 / 2 := by
  have h1 := Int.floor_le x
  have h2 := Int.lt_floor_add_one x
  unfold roundHalfEven
  split_ifs with ha hb hc
  · rw [abs_le]; constructor <;> linarith
  · rw [abs_le]; push_cast; constructor <;> linarith
  · rw [abs_le]; constructor <;> linarith
  · rw [abs_le]; push_cast; constructor <;> linarith

theorem roundHalfEven_intCast (m : Int) : roundHalfEven (m : ℚ) = m := by
  unfold roundHalfEven
  simp

theorem roundHalfEven_of_lt (x : ℚ) (m : Int) (h1 : (m : ℚ) ≤ x) (h2 : x - m < 1 / 2) :
    roundHalfEven x = m := by
  have hf : ⌊x⌋ = m := Int.floor_eq_iff.2 ⟨h1, by linarith⟩
  unfold roundHalfEven
  rw [hf, if_pos h2]

theorem roundHalfEven_of_gt (x : ℚ) (m : Int) (h1 : 1 / 2 < x - m) (h2 : x < m + 1) :
    roundHalfEven x = m + 1 := by
  have hf : ⌊x⌋ = m := Int.floor_eq_iff.2 ⟨by linarith, h2⟩
  unfold roundHalfEven
  rw [hf, if_neg (by linarith), if_pos h1]

namespace FloatFormat

theorem quantum_pos (f : FloatFormat) (q : ℚ) : 0 < f.quantum q := by
  unfold quantum
  positivity

theorem nearest_sub_abs_le (f : FloatFormat) (q : ℚ) :
    |f.nearest q - q| ≤ f.quantum q / 2 := by
  have hQ := f.quantum_pos q
  have h := roundHalfEven_sub_abs_le (q / f.quantum q)
  unfold nearest
  have e : (roundHalfEven (q / f.quantum q) : ℚ) * f.quantum q - q
      = ((roundHalfEven (q / f.quantum q) : ℚ) - q / f.quantum q) * f.quantum q := by
    field_simp
  rw [e, abs_mul, abs_of_pos hQ]
  calc |(roundHalfEven (q / f.quantum q) : ℚ) - q / f.quantum q| * f.quantum q
      ≤ 1 / 2 * f.quantum q := mul_le_mul_of_nonneg_right h hQ.le
    _ = f.quantum q / 2 := by ring

/-- In the normal range the quantum is at most 2^(1-prec) times the value. -/
theorem quantum_le (f : FloatFormat) (q : ℚ) (hq : (2 : ℚ) ^ f.emin ≤ |q|) :
    f.quantum q ≤ |q| * 2 ^ (1 - (f.prec : Int)) := by
  have hpos : 0 < |q| := lt_of_lt_of_le (by positivity) hq
  have hlog : f.emin ≤ Int.log 2 |q| :=
    (Int.zpow_le_iff_le_log (b := 2) (by norm_num) hpos).1 (by exact_mod_cast hq)
  have hle : (2 : ℚ) ^ Int.log 2 |q| ≤ |q| := by
    have := Int.zpow_log_le_self (b := 2) (r := |q|) (by norm_num) hpos
    exact_mod_cast this
  unfold quantum
  rw [max_eq_left hlog]
  have e : Int.log 2 |q| - ((f.prec : Int) - 1) = Int.log 2 |q| + (1 - (f.prec : Int)) := by ring
  rw [e, zpow_add₀ (by norm_num)]
  exact mul_le_mul_of_nonneg_right hle (by positivity)

end FloatFormat

namespace FloatFormat

theorem round_eq_fin (f : FloatFormat) (q : ℚ) (h : |f.nearest q| < 2 ^ (f.emax + 1)) :
    f.round q = Fp.fin (f.nearest q) := by
  unfold round
  rw [if_neg (not_le.2 h)]

theorem nearest_rel (f : FloatFormat) (q : ℚ) (hq : (2 : ℚ) ^ f.emin ≤ |q|) :
    |f.nearest q - q| ≤ |q| * 2 ^ (-(f.prec : Int)) := by
  have h1 := f.nearest_sub_abs_le q
  have h2 := f.quantum_le q hq
  have e : |q| * (2 : ℚ) ^ (1 - (f.prec : Int)) / 2 = |q| * 2 ^ (-(f.prec : Int)) := by
    rw [show (1 - (f.prec : Int)) = -(f.prec : Int) + 1 by ring, zpow_add₀ (by norm_num)]
    simp
    ring
  linarith

theorem abs_nearest_le (f : FloatFormat) (q : ℚ) (hq : (2 : ℚ) ^ f.emin ≤ |q|) :
    |f.nearest q| ≤ |q| * (1 + 2 ^ (-(f.prec : Int))) := by
  have h := f.nearest_rel q hq
  have h3 : |f.nearest q| ≤ |f.nearest q - q| + |q| := by
    have := abs_add (f.nearest q - q) q
    simpa using this
  linarith

theorem abs_nearest_ge (f : FloatFormat) (q : ℚ) (hq : (2 : ℚ) ^ f.emin ≤ |q|) :
    |q| * (1 - 2 ^ (-(f.prec : Int))) ≤ |f.nearest q| := by
  have h := f.nearest_rel q hq
  have h3 : |q| ≤ |f.nearest q - q| + |f.nearest q| := by
    have := abs_sub_abs_le_abs_sub q (f.nearest q)
    rw [abs_sub_comm] at this
    linarith
  linarith

theorem nearest_two_zpow (f : FloatFormat) (hp : 1 ≤ f.prec) (k : Int) (hk : f.emin ≤ k)
    (sign : Int) (hs : sign = 1 ∨ sign = -1) :
    f.nearest (sign * 2 ^ k) = sign * 2 ^ k := by
  have habs : |((sign : ℚ) * 2 ^ k)| = 2 ^ k := by
    have hpos : (0 : ℚ) < 2 ^ k := by positivity
    rcases hs with h | h <;> simp [h, abs_of_pos hpos]
  have hlog : Int.log 2 ((2 : ℚ) ^ k) = k := by
    have := Int.log_zpow (R := ℚ) (b := 2) (by norm_num) k
    exact_mod_cast this
  obtain ⟨n, hn⟩ : ∃ n : Nat, f.prec = n + 1 := ⟨f.prec - 1, by omega⟩
  have hQ : f.quantum ((sign : ℚ) * 2 ^ k) = 2 ^ (k - (n : Int)) := by
    unfold quantum
    rw [habs, hlog, max_eq_left hk, hn]
    congr 1
    push_cast
    ring
  have hdiv : ((sign : ℚ) * 2 ^ k) / 2 ^ (k - (n : Int)) = ((sign * 2 ^ n : Int) : ℚ) := by
    rw [zpow_sub₀ (by norm_num)]
    push_cast
    field_simp
    ring
  unfold nearest
  rw [hQ, hdiv, roundHalfEven_intCast]
  push_cast
  rw [zpow_sub₀ (by norm_num)]
  field_simp
  ring

end FloatFormat

theorem nearest32_24 : binary32.nearest (binary64.nearest (1 / 24))
    = 11184811 / 268435456 := by
  have h64 : binary64.nearest (1 / 24) = 6004799503160661 / 144115188075855872 := by
    have hl : Int.log 2 |(1 / 24 : ℚ)| = -5 := by
      apply log_two_eq <;> norm_num [abs_of_pos]
    unfold FloatFormat.nearest FloatFormat.quantum
    rw [hl]
    have hr : roundHalfEven ((1 / 24 : ℚ) / 2 ^ (max (-5) binary64.emin - ((binary64.prec : Int) - 1)))
        = 6004799503160661 := by
      apply roundHalfEven_of_lt <;> norm_num [binary64]
    rw [hr]
    norm_num [binary64]
  rw [h64]
  have hl : Int.log 2 |(6004799503160661 / 144115188075855872 : ℚ)| = -5 := by
    apply log_two_eq <;> norm_num [abs_of_pos]
  unfold FloatFormat.nearest FloatFormat.quantum
  rw [hl]
  have hr : roundHalfEven ((6004799503160661 / 144115188075855872 : ℚ)
      / 2 ^ (max (-5) binary32.emin - ((binary32.prec : Int) - 1))) = 11184810 + 1 := by
    apply roundHalfEven_of_gt <;> norm_num [binary32]
  rw [hr]
  norm_num [binary32]

theorem nearest32_rel (q : ℚ) (hq : 1 / 2 ^ 126 ≤ |q|) :
    |binary32.nearest q - q| ≤ |q| / 2 ^ 24 := by
  have h := binary32.nearest_rel q (by
    have e : (2 : ℚ) ^ binary32.emin = 1 / 2 ^ 126 := by
      norm_num [binary32, zpow_neg]
    rw [e]
    exact hq)
  have e : (2 : ℚ) ^ (-(binary32.prec : Int)) = 1 / 2 ^ 24 := by
    norm_num [binary32, zpow_neg]
  rw [e] at h
  linarith

theorem nearest64_rel (q : ℚ) (hq : 1 / 2 ^ 1022 ≤ |q|) :
    |binary64.nearest q - q| ≤ |q| / 2 ^ 53 := by
  have h := binary64.nearest_rel q (by
    have e : (2 : ℚ) ^ binary64.emin = 1 / 2 ^ 1022 := by
      norm_num [binary64, zpow_neg]
    rw [e]
    exact hq)
  have e : (2 : ℚ) ^ (-(binary64.prec : Int)) = 1 / 2 ^ 53 := by
    norm_num [binary64, zpow_neg]
  rw [e] at h
  linarith

theorem abs_le_of_sub (a q d : ℚ) (h : |a - q| ≤ d) : |a| ≤ |q| + d ∧ |q| - d ≤ |a| := by
  have h1 : |a| ≤ |a - q| + |q| := by
    have := abs_add (a - q) q
    simpa using this
  have h2 := abs_sub_abs_le_abs_sub q a
  rw [abs_sub_comm] at h2
  constructor <;> linarith

theorem round32_eq_fin (q : ℚ) (h : |binary32.nearest q| < 2 ^ 128) :
    binary32.round q = Fp.fin (binary32.nearest q) :=
  binary32.round_eq_fin q (by
    have e : (2 : ℚ) ^ (binary32.emax + 1) = 2 ^ 128 := by
      norm_num [binary32]
    rw [e]
    exact h)

theorem round64_eq_fin (q : ℚ) (h : |binary64.nearest q| < 2 ^ 1024) :
    binary64.round q = Fp.fin (binary64.nearest q) :=
  binary64.round_eq_fin q (by
    have e : (2 : ℚ) ^ (binary64.emax + 1) = 2 ^ 1024 := by
      norm_num [binary64]
    rw [e]
    exact h)

theorem inverse_product_bound (q : ℚ) (hlo : 1 / 2 ^ 125 ≤ |q|) (hhi : |q| ≤ 2 ^ 125) :
    ∃ a c, (Fpreal.fin q).toFloat = Fp.fin a ∧ (Fpreal.fin q).inv.toFloat = Fp.fin c ∧
      |a - q| ≤ |q| / 2 ^ 24 ∧ |c - 1 / q| ≤ |1 / q| / 2 ^ 23 ∧ |a * c - 1| ≤ 1 / 2 ^ 22 := by
  have hqpos : 0 < |q| := lt_of_lt_of_le (by positivity) hlo
  have hq0 : q ≠ 0 := abs_pos.1 hqpos
  have hx : |1 / q| = 1 / |q| := by
    rw [abs_div, abs_one]
  have hxlo : 1 / 2 ^ 125 ≤ |1 / q| := by
    rw [hx]
    exact one_div_le_one_div_of_le hqpos hhi
  have hxhi : |1 / q| ≤ 2 ^ 125 := by
    rw [hx, div_le_iff₀ hqpos]
    have := mul_le_mul_of_nonneg_left hlo (by positivity : (0 : ℚ) ≤ 2 ^ 125)
    have e : (2 : ℚ) ^ 125 * (1 / 2 ^ 125) = 1 := by norm_num
    linarith
  have hqx : |q| * |1 / q| = 1 := by
    rw [hx]
    field_simp
  -- the stored frame rate
  have ha := nearest32_rel q (le_trans (by norm_num) hlo)
  have ha2 := abs_le_of_sub _ _ _ ha
  have hafin : binary32.round q = Fp.fin (binary32.nearest q) :=
    round32_eq_fin q (by
      have : |q| + |q| / 2 ^ 24 < 2 ^ 128 := by
        have h2 : |q| / 2 ^ 24 ≤ |q| := div_le_self hqpos.le (by norm_num)
        have h3 : (2 : ℚ) ^ 125 + 2 ^ 125 < 2 ^ 128 := by norm_num
        linarith
      linarith [ha2.1])
  -- the double quotient
  have hb := nearest64_rel (1 / q) (le_trans (by norm_num) hxlo)
  have hb2 := abs_le_of_sub _ _ _ hb
  have hxpos : 0 < |1 / q| := lt_of_lt_of_le (by positivity) hxlo
  have hxdiv : |1 / q| / 2 ^ 53 ≤ |1 / q| / 2 := by
    apply div_le_div_of_nonneg_left hxpos.le (by norm_num) (by norm_num)
  have hbfin : binary64.round (1 / q) = Fp.fin (binary64.nearest (1 / q)) :=
    round64_eq_fin _ (by
      have h3 : (2 : ℚ) ^ 125 + 2 ^ 125 < 2 ^ 1024 := by norm_num
      have h4 : |1 / q| / 2 ^ 53 ≤ |1 / q| := div_le_self hxpos.le (by norm_num)
      linarith [hb2.1])
  have hblo : 1 / 2 ^ 126 ≤ |binary64.nearest (1 / q)| := by
    have h3 : (1 : ℚ) / 2 ^ 126 = 1 / 2 ^ 125 / 2 := by norm_num
    have h4 : |1 / q| / 2 = |1 / q| - |1 / q| / 2 := by ring
    linarith [hb2.2]
  have hbne : binary64.nearest (1 / q) ≠ 0 := by
    intro h0
    rw [h0, abs_zero] at hblo
    have : (0 : ℚ) < 1 / 2 ^ 126 := by positivity
    linarith
  have hinv : (Fpreal.fin q).inv = Fpreal.fin (binary64.nearest (1 / q)) := by
    show (if q = 0 then Fpreal.posInf
      else Fpreal.ofRounded (decide (q < 0)) (binary64.round (1 / q))) = _
    rw [if_neg hq0, hbfin]
    show (if binary64.nearest (1 / q) = 0 ∧ decide (q < 0) = true then Fpreal.negZero
      else Fpreal.fin (binary64.nearest (1 / q))) = _
    rw [if_neg (fun h => hbne h.1)]
  -- the stored inverse
  have hc := nearest32_rel (binary64.nearest (1 / q)) hblo
  have hc2 := abs_le_of_sub _ _ _ hc
  have hbhi : |binary64.nearest (1 / q)| ≤ |1 / q| + |1 / q| / 2 ^ 53 := hb2.1
  have hcfin : binary32.round (binary64.nearest (1 / q))
      = Fp.fin (binary32.nearest (binary64.nearest (1 / q))) :=
    round32_eq_fin _ (by
      have h4 : |1 / q| / 2 ^ 53 ≤ |1 / q| := div_le_self hxpos.le (by norm_num)
      have h5 : |binary64.nearest (1 / q)| / 2 ^ 24 ≤ |binary64.nearest (1 / q)| :=
        div_le_self (abs_nonneg _) (by norm_num)
      have h3 : (2 : ℚ) ^ 125 + 2 ^ 125 + (2 ^ 125 + 2 ^ 125) < 2 ^ 128 := by norm_num
      linarith [hc2.1])
  have hcx : |binary32.nearest (binary64.nearest (1 / q)) - 1 / q| ≤ |1 / q| / 2 ^ 23 := by
    have h1 : |binary32.nearest (binary64.nearest (1 / q)) - 1 / q|
        ≤ |binary32.nearest (binary64.nearest (1 / q)) - binary64.nearest (1 / q)|
          + |binary64.nearest (1 / q) - 1 / q| := abs_sub_le _ _ _
    have h2 : |binary64.nearest (1 / q)| / 2 ^ 24
        ≤ (|1 / q| + |1 / q| / 2 ^ 53) / 2 ^ 24 :=
      div_le_div_of_nonneg_right hbhi (by positivity)
    have h3 : (|1 / q| + |1 / q| / 2 ^ 53) / 2 ^ 24 + |1 / q| / 2 ^ 53
        ≤ |1 / q| / 2 ^ 23 := by
      have e : |1 / q| / 2 ^ 23 - ((|1 / q| + |1 / q| / 2 ^ 53) / 2 ^ 24 + |1 / q| / 2 ^ 53)
          = |1 / q| * (1 / 2 ^ 23 - (1 + 1 / 2 ^ 53) / 2 ^ 24 - 1 / 2 ^ 53) := by ring
      have hp : (0 : ℚ) ≤ 1 / 2 ^ 23 - (1 + 1 / 2 ^ 53) / 2 ^ 24 - 1 / 2 ^ 53 := by norm_num
      nlinarith [mul_nonneg hxpos.le hp]
    linarith
  refine ⟨binary32.nearest q, binary32.nearest (binary64.nearest (1 / q)), hafin, ?_, ha, hcx, ?_⟩
  · rw [hinv]
    exact hcfin
  · have hcabs := (abs_le_of_sub _ _ _ hcx).1
    have e : binary32.nearest q * binary32.nearest (binary64.nearest (1 / q)) - 1
        = (binary32.nearest q - q) * binary32.nearest (binary64.nearest (1 / q))
          + q * (binary32.nearest (binary64.nearest (1 / q)) - 1 / q) := by
      have hq1 : q * (1 / q) = 1 := by
        rw [mul_one_div, div_self hq0]
      rw [mul_sub, hq1]
      ring
    have t1 : |binary32.nearest q - q| * |binary32.nearest (binary64.nearest (1 / q))|
        ≤ |q| / 2 ^ 24 * (|1 / q| + |1 / q| / 2 ^ 23) :=
      mul_le_mul ha hcabs (abs_nonneg _) (div_nonneg (abs_nonneg _) (by norm_num))
    have t2 : |q| * |binary32.nearest (binary64.nearest (1 / q)) - 1 / q|
        ≤ |q| * (|1 / q| / 2 ^ 23) :=
      mul_le_mul_of_nonneg_left hcx (abs_nonneg _)
    have e1 : |q| / 2 ^ 24 * (|1 / q| + |1 / q| / 2 ^ 23)
        = |q| * |1 / q| * ((1 + 1 / 2 ^ 23) / 2 ^ 24) := by ring
    have e2 : |q| * (|1 / q| / 2 ^ 23) = |q| * |1 / q| * (1 / 2 ^ 23) := by ring
    rw [e1, hqx] at t1
    rw [e2, hqx] at t2
    rw [e]
    have t3 := abs_add ((binary32.nearest q - q) * binary32.nearest (binary64.nearest (1 / q)))
      (q * (binary32.nearest (binary64.nearest (1 / q)) - 1 / q))
    rw [abs_mul, abs_mul] at t3
    have hn : (1 : ℚ) * ((1 + 1 / 2 ^ 23) / 2 ^ 24) + 1 * (1 / 2 ^ 23) ≤ 1 / 2 ^ 22 := by
      norm_num
    linarith

theorem round32_24 : binary32.round 24 = Fp.fin 24 := by
  have hl : Int.log 2 |(24 : ℚ)| = 4 := by
    apply log_two_eq <;> norm_num [abs_of_pos]
  have hn : binary32.nearest 24 = 24 := by
    unfold FloatFormat.nearest FloatFormat.quantum
    rw [hl]
    have hr : roundHalfEven ((24 : ℚ) / 2 ^ (max 4 binary32.emin - ((binary32.prec : Int) - 1)))
        = 12582912 := by
      apply roundHalfEven_of_lt <;> norm_num [binary32]
    rw [hr]
    norm_num [binary32]
  rw [round32_eq_fin 24 (by rw [hn]; norm_num), hn]

theorem round32_overflow : binary32.round (2 ^ 128) = Fp.posInf := by
  have e : ((1 : Int) : ℚ) * (2 : ℚ) ^ (128 : Int) = 2 ^ 128 := by
    rw [Int.cast_one, one_mul]
    exact zpow_ofNat 2 128
  have hn : binary32.nearest (2 ^ 128) = 2 ^ 128 := by
    have h := binary32.nearest_two_zpow (by decide) 128 (by decide) 1 (Or.inl rfl)
    rw [e] at h
    exact h
  have e1 : (2 : ℚ) ^ (binary32.emax + 1) = 2 ^ 128 := by
    norm_num [binary32]
  have hpos : (0 : ℚ) < 2 ^ 128 := by positivity
  unfold FloatFormat.round
  rw [hn, e1, abs_of_pos hpos, if_pos (le_refl _), if_neg (not_lt.2 hpos.le)]

theorem Fpreal.inv_24 :
    (Fpreal.fin 24).inv.toFloat = Fp.fin (11184811 / 268435456) := by
  have h64 : binary64.nearest (1 / 24) ≠ 0 := by
    intro h0
    have h := nearest32_24
    rw [h0] at h
    have hz : binary32.nearest 0 = 0 := by
      simp [FloatFormat.nearest, roundHalfEven]
    rw [hz] at h
    norm_num at h
  have hb := abs_le_of_sub _ _ _ (nearest64_rel (1 / 24) (by norm_num [abs_of_pos]))
  have hfin : binary64.round (1 / 24) = Fp.fin (binary64.nearest (1 / 24)) :=
    round64_eq_fin _ (by
      have e : |(1 / 24 : ℚ)| = 1 / 24 := abs_of_pos (by norm_num)
      rw [e] at hb
      have h3 : (1 / 24 : ℚ) + 1 / 24 / 2 ^ 53 < 2 ^ 1024 := by norm_num
      linarith [hb.1])
  have hinv : (Fpreal.fin 24).inv = Fpreal.fin (binary64.nearest (1 / 24)) := by
    show (if (24 : ℚ) = 0 then Fpreal.posInf
      else Fpreal.ofRounded (decide ((24 : ℚ) < 0)) (binary64.round (1 / 24))) = _
    rw [if_neg (by norm_num), hfin]
    show (if binary64.nearest (1 / 24) = 0 ∧ decide ((24 : ℚ) < 0) = true then Fpreal.negZero
      else Fpreal.fin (binary64.nearest (1 / 24))) = _
    rw [if_neg (fun h => h64 h.1)]
  rw [hinv]
  show binary32.round (binary64.nearest (1 / 24)) = _
  rw [round32_eq_fin _ (by rw [nearest32_24]; norm_num [abs_of_pos]), nearest32_24]

theorem FloatFormat.nearest_of_lt (f : FloatFormat) (q : ℚ) (e m : Int)
    (hlo : (2 : ℚ) ^ e ≤ |q|) (hhi : |q| < (2 : ℚ) ^ (e + 1)) (he : f.emin ≤ e)
    (h1 : (m : ℚ) ≤ q / 2 ^ (e - ((f.prec : Int) - 1)))
    (h2 : q / 2 ^ (e - ((f.prec : Int) - 1)) - m < 1 / 2) :
    f.nearest q = m * 2 ^ (e - ((f.prec : Int) - 1)) := by
  have hl := log_two_eq |q| e hlo hhi
  unfold FloatFormat.nearest FloatFormat.quantum
  rw [hl, max_eq_left he, roundHalfEven_of_lt _ m h1 h2]

theorem FloatFormat.nearest_of_gt (f : FloatFormat) (q : ℚ) (e m : Int)
    (hlo : (2 : ℚ) ^ e ≤ |q|) (hhi : |q| < (2 : ℚ) ^ (e + 1)) (he : f.emin ≤ e)
    (h1 : 1 / 2 < q / 2 ^ (e - ((f.prec : Int) - 1)) - m)
    (h2 : q / 2 ^ (e - ((f.prec : Int) - 1)) < m + 1) :
    f.nearest q = (m + 1 : Int) * 2 ^ (e - ((f.prec : Int) - 1)) := by
  have hl := log_two_eq |q| e hlo hhi
  unfold FloatFormat.nearest FloatFormat.quantum
  rw [hl, max_eq_left he, roundHalfEven_of_gt _ m h1 h2]

theorem Fpreal.inv_toFloat_eval (q b c : ℚ) (hq : q ≠ 0)
    (hb : binary64.nearest (1 / q) = b) (hb0 : b ≠ 0) (hb2 : |b| < 2 ^ 1024)
    (hc : binary32.nearest b = c) (hc2 : |c| < 2 ^ 128) :
    (Fpreal.fin q).inv.toFloat = Fp.fin c := by
  have hfin : binary64.round (1 / q) = Fp.fin b := by
    rw [round64_eq_fin _ (by rw [hb]; exact hb2), hb]
  have hinv : (Fpreal.fin q).inv = Fpreal.fin b := by
    show (if q = 0 then Fpreal.posInf
      else Fpreal.ofRounded (decide (q < 0)) (binary64.round (1 / q))) = _
    rw [if_neg hq, hfin]
    show (if b = 0 ∧ decide (q < 0) = true then Fpreal.negZero else Fpreal.fin b) = _
    rw [if_neg (fun h => hb0 h.1)]
  rw [hinv]
  show binary32.round b = _
  rw [round32_eq_fin _ (by rw [hc]; exact hc2), hc]

theorem round32_41 : binary32.round 41 = Fp.fin 41 := by
  have hn : binary32.nearest 41 = 41 := by
    rw [binary32.nearest_of_lt 41 5 10747904 (by norm_num [abs_of_pos])
      (by norm_num [abs_of_pos]) (by decide) (by norm_num [binary32])
      (by norm_num [binary32])]
    norm_num [binary32]
  rw [round32_eq_fin 41 (by rw [hn]; norm_num [abs_of_pos]), hn]

theorem Fpreal.inv_41 :
    (Fpreal.fin 41).inv.toFloat = Fp.fin (3273603 / 134217728) := by
  have hb : binary64.nearest (1 / 41) = 7030009174431994 / 288230376151711744 := by
    rw [binary64.nearest_of_gt (1 / 41) (-6) 7030009174431993 (by norm_num [abs_of_pos])
      (by norm_num [abs_of_pos]) (by decide) (by norm_num [binary64])
      (by norm_num [binary64])]
    norm_num [binary64]
  have hc : binary32.nearest (7030009174431994 / 288230376151711744)
      = 3273603 / 134217728 := by
    rw [binary32.nearest_of_lt (7030009174431994 / 288230376151711744) (-6) 13094412
      (by norm_num [abs_of_pos]) (by norm_num [abs_of_pos]) (by decide)
      (by norm_num [binary32]) (by norm_num [binary32])]
    norm_num [binary32]
  exact Fpreal.inv_toFloat_eval 41 _ _ (by norm_num) hb (by norm_num)
    (by norm_num [abs_of_pos]) hc (by norm_num [abs_of_pos])

theorem round32_product_41 :
    binary32.round (134217723 / 134217728) = Fp.fin (16777215 / 16777216) := by
  have hn : binary32.nearest (134217723 / 134217728) = 16777215 / 16777216 := by
    rw [binary32.nearest_of_lt (134217723 / 134217728) (-1) 16777215
      (by norm_num [abs_of_pos]) (by norm_num [abs_of_pos]) (by decide)
      (by norm_num [binary32]) (by norm_num [binary32])]
    norm_num [binary32]
  rw [round32_eq_fin _ (by rw [hn]; norm_num [abs_of_pos]), hn]

theorem FloatFormat.round_zero (f : FloatFormat) : f.round 0 = Fp.fin 0 := by
  have hn : f.nearest 0 = 0 := by
    simp [FloatFormat.nearest, roundHalfEven]
  have h := f.round_eq_fin 0 (by
    rw [hn, abs_zero]
    positivity)
  rw [h, hn]

theorem Fpreal.inv_posInf_toFloat : Fpreal.posInf.inv.toFloat = Fp.fin 0 :=
  binary32.round_zero

theorem abs_sign_mul_two_zpow (k : Int) (sign : Int) (hs : sign = 1 ∨ sign = -1) :
    |((sign : ℚ) * 2 ^ k)| = 2 ^ k := by
  have hpos : (0 : ℚ) < 2 ^ k := by positivity
  rcases hs with h | h <;> simp [h, abs_of_pos hpos]

theorem FloatFormat.round_two_zpow (f : FloatFormat) (hp : 1 ≤ f.prec) (k : Int)
    (hk : f.emin ≤ k) (hk2 : k ≤ f.emax) (sign : Int) (hs : sign = 1 ∨ sign = -1) :
    f.round (sign * 2 ^ k) = Fp.fin (sign * 2 ^ k) := by
  have hn := f.nearest_two_zpow hp k hk sign hs
  have h := f.round_eq_fin ((sign : ℚ) * 2 ^ k) (by
    rw [hn, abs_sign_mul_two_zpow k sign hs]
    exact zpow_lt_zpow_right₀ (by norm_num) (by omega))
  rw [h, hn]

theorem one_div_sign_mul_two_zpow (k : Int) (sign : Int) (hs : sign = 1 ∨ sign = -1) :
    1 / ((sign : ℚ) * 2 ^ k) = sign * 2 ^ (-k) := by
  have hpos : (2 : ℚ) ^ k ≠ 0 := by positivity
  rcases hs with h | h
  · simp [h, zpow_neg]
  · simp [h, zpow_neg]
    field_simp

theorem Fpreal.toFloat_two_zpow (k : Int) (hk : -126 ≤ k) (hk2 : k ≤ 127) (sign : Int)
    (hs : sign = 1 ∨ sign = -1) :
    (Fpreal.fin (sign * 2 ^ k)).toFloat = Fp.fin (sign * 2 ^ k) :=
  binary32.round_two_zpow (by decide) k hk hk2 sign hs

theorem Fpreal.inv_two_zpow (k : Int) (hk : -1023 ≤ k) (hk2 : k ≤ 1022) (sign : Int)
    (hs : sign = 1 ∨ sign = -1) :
    (Fpreal.fin (sign * 2 ^ k)).inv = Fpreal.fin (sign * 2 ^ (-k)) := by
  have hq : ((sign : ℚ) * 2 ^ k) ≠ 0 := by
    have h := abs_sign_mul_two_zpow k sign hs
    intro h0
    rw [h0, abs_zero] at h
    have hpos : (0 : ℚ) < 2 ^ k := by positivity
    linarith
  have hr : ((sign : ℚ) * 2 ^ (-k)) ≠ 0 := by
    have h := abs_sign_mul_two_zpow (-k) sign hs
    intro h0
    rw [h0, abs_zero] at h
    have hpos : (0 : ℚ) < 2 ^ (-k) := by positivity
    linarith
  show (if ((sign : ℚ) * 2 ^ k) = 0 then Fpreal.posInf
    else Fpreal.ofRounded (decide (((sign : ℚ) * 2 ^ k) < 0))
      (binary64.round (1 / ((sign : ℚ) * 2 ^ k)))) = _
  rw [if_neg hq, one_div_sign_mul_two_zpow k sign hs,
    binary64.round_two_zpow (by decide) (-k)
      (by show (-1022 : Int) ≤ -k; omega) (by show -k ≤ (1023 : Int); omega) sign hs]
  show (if ((sign : ℚ) * 2 ^ (-k)) = 0 ∧ decide (((sign : ℚ) * 2 ^ k) < 0) = true
    then Fpreal.negZero else Fpreal.fin ((sign : ℚ) * 2 ^ (-k))) = _
  rw [if_neg (fun h => hr h.1)]

theorem wrapInt32_add_wrapInt32 (a b : Int) :
    wrapInt32 (wrapInt32 a + b) = wrapInt32 (a + b) := by
  unfold wrapInt32
  omega

theorem wrapInt32_of_mem_range (a : Int) (hlo : -2147483648 ≤ a) (hhi : a ≤ 2147483647) :
    wrapInt32 a = a := by
  unfold wrapInt32
  omega

theorem wrapInt32_mem_range (a : Int) :
    -2147483648 ≤ wrapInt32 a ∧ wrapInt32 a ≤ 2147483647 := by
  unfold wrapInt32
  omega

theorem wrapInt32_sub_emod (v n : Int) :
    (wrapInt32 (v + n) - v) % 4294967296 = n % 4294967296 := by
  unfold wrapInt32
  omega

theorem Fp.lt_irrefl (a : Fp) : Fp.lt a a = false := by
  cases a <;> simp [Fp.lt]

theorem Fp.lt_eq_false_of_le (a b : Fp) (h : Fp.le a b = true) : Fp.lt b a = false := by
  cases a <;> cases b <;> simp_all [Fp.le, Fp.lt]

theorem Fp.lt_eq_false_of_beq (a b : Fp) (h : Fp.beq a b = true) : Fp.lt b a = false := by
  cases a <;> cases b <;> simp_all [Fp.beq, Fp.lt]

theorem Fp.div?_isSome_of_ne_zero (x : Fp) (q : ℚ) (hq : q ≠ 0) :
    ∃ v, Fp.div? x (Fp.fin q) = some v := by
  cases x <;> simp [Fp.div?, Fp.nonZero, Fp.beq, hq]

theorem Fp.nonZero_ofInt (i : Int) : Fp.nonZero (Fp.ofInt i) = decide (i ≠ 0) := by
  simp [Fp.nonZero, Fp.ofInt, Fp.beq]

namespace BRAY_HdParam

variable {β σ : Type}

theorem stopRendering_state (asserts : Bool) (ops : Backend β) (s : BRAY_HdParam β σ) :
    (stopRendering asserts ops s).state =
      { s with backend := ops.StopRender (ops.prepareForStop s.backend) } := by
  unfold stopRendering
  dsimp only
  split <;> rfl

theorem stopRendering_passes (asserts : Bool) (ops : Backend β) (s : BRAY_HdParam β σ)
    (h : PassesAssert asserts ops) :
    stopRendering asserts ops s =
      { trace := [Effect.prepareForStop, Effect.StopRender],
        state := { s with backend := ops.StopRender (ops.prepareForStop s.backend) },
        result := some () } := by
  unfold stopRendering UT_ASSERT
  rcases h with h | h
  · simp [h]
  · simp [h (ops.prepareForStop s.backend)]

theorem getSceneForEdit_passes (asserts : Bool) (ops : Backend β) (s : BRAY_HdParam β σ)
    (h : PassesAssert asserts ops) :
    getSceneForEdit asserts ops s =
      { trace := [Effect.prepareForStop, Effect.StopRender, Effect.versionAdd 1,
          Effect.returnScene],
        state := { s with
          backend := ops.StopRender (ops.prepareForStop s.backend),
          mySceneVersion := SYS_AtomicInt32.add s.mySceneVersion 1 },
        result := some s.myScene } := by
  unfold getSceneForEdit
  rw [stopRendering_passes asserts ops s h]
  rfl

theorem getSceneForEditTimes_version (asserts : Bool) (ops : Backend β)
    (h : PassesAssert asserts ops) (k : Nat) (s : BRAY_HdParam β σ)
    (hlo : -2147483648 ≤ s.mySceneVersion) (hhi : s.mySceneVersion ≤ 2147483647) :
    (getSceneForEditTimes asserts ops k s).mySceneVersion =
      wrapInt32 (s.mySceneVersion + k) := by
  induction k generalizing s with
  | zero =>
    simp only [getSceneForEditTimes, Nat.cast_zero, add_zero]
    exact (wrapInt32_of_mem_range _ hlo hhi).symm
  | succ k ih =>
    rw [getSceneForEditTimes, ih, getSceneForEdit_passes asserts ops s h]
    · simp only [SYS_AtomicInt32.add]
      rw [wrapInt32_add_wrapInt32]
      congr 1
      push_cast
      ring
    · rw [getSceneForEdit_passes asserts ops s h]
      exact (wrapInt32_mem_range _).1
    · rw [getSceneForEdit_passes asserts ops s h]
      exact (wrapInt32_mem_range _).2

/-! ## Render lifecycle controller: claims C1, C2, C5 and C6 -/

/-- C1: for every coordinator state and every backend state, a call of
`getSceneForEdit` that passes the assertion (assertions compiled out, or a
blocking stop that honours its contract) returns the scene and changes the
shared scene version by exactly one in 32-bit counter arithmetic: the new value
is the wrapped successor, it differs from the old one, exactly one increment is
issued, and `k` consecutive calls advance the version by exactly `k`. Below the
largest `int32` the new value is the old value plus one. -/
theorem getSceneForEdit_advances_version_by_one (asserts : Bool) (ops : Backend β)
    (s : BRAY_HdParam β σ) (h : PassesAssert asserts ops)
    (hlo : -2147483648 ≤ s.mySceneVersion) (hhi : s.mySceneVersion ≤ 2147483647) :
    (getSceneForEdit asserts ops s).result = some s.myScene ∧
    (getSceneForEdit asserts ops s).state.mySceneVersion = wrapInt32 (s.mySceneVersion + 1) ∧
    ((getSceneForEdit asserts ops s).state.mySceneVersion - s.mySceneVersion) % 4294967296 = 1 ∧
    (getSceneForEdit asserts ops s).state.mySceneVersion ≠ s.mySceneVersion ∧
    (getSceneForEdit asserts ops s).trace.count (Effect.versionAdd 1) = 1 ∧
    (s.mySceneVersion < 2147483647 →
      (getSceneForEdit asserts ops s).state.mySceneVersion = s.mySceneVersion + 1) ∧
    ∀ k : Nat,
      (getSceneForEditTimes asserts ops k s).mySceneVersion = wrapInt32 (s.mySceneVersion + k) ∧
      ((getSceneForEditTimes asserts ops k s).mySceneVersion - s.mySceneVersion) % 4294967296
        = (k : Int) % 4294967296 := by
  have hmod := wrapInt32_sub_emod s.mySceneVersion 1
  rw [getSceneForEdit_passes asserts ops s h]
  refine ⟨rfl, rfl, ?_, ?_, ?_, ?_, ?_⟩
  · exact hmod
  · intro heq
    change wrapInt32 (s.mySceneVersion + 1) = s.mySceneVersion at heq
    rw [heq] at hmod
    simp at hmod
  · show List.count (Effect.versionAdd 1)
      [Effect.prepareForStop, Effect.StopRender, Effect.versionAdd 1, Effect.returnScene] = 1
    decide
  · intro hlt
    exact wrapInt32_of_mem_range _ (by omega) (by omega)
  · intro k
    rw [getSceneForEditTimes_version asserts ops h k s hlo hhi]
    exact ⟨rfl, wrapInt32_sub_emod _ _⟩

/-- Witness of C1: called while the backend reports rendering, with assertions
enabled, the version goes from 41 to 42. -/
theorem getSceneForEdit_advances_version_by_one_witness :
    flagBackend.isRendering (sampleParam true 41).backend = true ∧
    (getSceneForEdit true flagBackend (sampleParam true 41)).state.mySceneVersion = 41 + 1 :=
  ⟨rfl, (getSceneForEdit_advances_version_by_one true flagBackend (sampleParam true 41)
    (Or.inr (fun _ => rfl)) (by decide) (by decide)).2.2.2.2.2.1 (by decide)⟩

/-- C2: `getSceneForEdit` issues its effects in one fixed order. In every call
the stop notice and then the blocking stop come first and the halt sequence
leaves the version untouched and issues no increment; a call that passes the
assertion issues exactly the notice, the blocking stop, one increment and the
return of the scene, in this order, and its final state is the halted state with
the version incremented; under the contract of the blocking stop the halted
state, in which the increment happens, reports not-rendering. -/
theorem getSceneForEdit_effect_order (asserts : Bool) (ops : Backend β)
    (s : BRAY_HdParam β σ) :
    [Effect.prepareForStop, Effect.StopRender] <+: (getSceneForEdit asserts ops s).trace ∧
    [Effect.prepareForStop, Effect.StopRender] <+: (stopRendering asserts ops s).trace ∧
    (∀ n, Effect.versionAdd n ∉ (stopRendering asserts ops s).trace) ∧
    (stopRendering asserts ops s).state.mySceneVersion = s.mySceneVersion ∧
    (stopRendering asserts ops s).state.backend = ops.StopRender (ops.prepareForStop s.backend) ∧
    (PassesAssert asserts ops →
      (getSceneForEdit asserts ops s).trace =
        [Effect.prepareForStop, Effect.StopRender, Effect.versionAdd 1, Effect.returnScene] ∧
      (getSceneForEdit asserts ops s).state =
        { (stopRendering asserts ops s).state with
          mySceneVersion :=
            SYS_AtomicInt32.add (stopRendering asserts ops s).state.mySceneVersion 1 } ∧
      (getSceneForEdit asserts ops s).result = some s.myScene) ∧
    (StopContract ops →
      ops.isRendering (stopRendering asserts ops s).state.backend = false) := by
  have hst := stopRendering_state asserts ops s
  have htr : (stopRendering asserts ops s).trace = [Effect.prepareForStop, Effect.StopRender] ∨
      (stopRendering asserts ops s).trace =
        [Effect.prepareForStop, Effect.StopRender, Effect.assertFailed] ∧
      (stopRendering asserts ops s).result = none := by
    unfold stopRendering
    dsimp only
    split
    · exact Or.inl rfl
    · exact Or.inr ⟨rfl, rfl⟩
  refine ⟨?_, ?_, ?_, ?_, ?_, ?_, ?_⟩
  · unfold getSceneForEdit
    dsimp only
    rcases htr with h1 | ⟨h1, h2⟩
    · split
      · rw [h1]
      · rw [h1]
        exact ⟨[Effect.versionAdd 1, Effect.returnScene], rfl⟩
    · rw [h2, h1]
      exact ⟨[Effect.assertFailed], rfl⟩
  · rcases htr with h1 | ⟨h1, _⟩
    · rw [h1]
    · rw [h1]
      exact ⟨[Effect.assertFailed], rfl⟩
  · intro n
    rcases htr with h1 | ⟨h1, _⟩ <;> rw [h1] <;> simp
  · rw [hst]
  · rw [hst]
  · intro h
    rw [getSceneForEdit_passes asserts ops s h, stopRendering_passes asserts ops s h]
    exact ⟨rfl, rfl, rfl⟩
  · intro h
    rw [hst]
    exact h _

/-- Witness of C2: on a rendering backend with assertions enabled the four
effects are issued in order and the increment happens on a halted backend. -/
theorem getSceneForEdit_effect_order_witness :
    (getSceneForEdit true flagBackend (sampleParam true 7)).trace =
      [Effect.prepareForStop, Effect.StopRender, Effect.versionAdd 1, Effect.returnScene] ∧
    flagBackend.isRendering (stopRendering true flagBackend (sampleParam true 7)).state.backend
      = false :=
  ⟨((getSceneForEdit_effect_order true flagBackend (sampleParam true 7)).2.2.2.2.2.1
      (Or.inr (fun _ => rfl))).1,
    (getSceneForEdit_effect_order true flagBackend (sampleParam true 7)).2.2.2.2.2.2
      (fun _ => rfl)⟩

/-- Counterexample to C5 as stated: from the largest `int32` the version after
the call is the smallest `int32`, which is not greater than the value before. -/
theorem getSceneForEdit_version_wraps_at_max :
    (getSceneForEdit false flagBackend (sampleParam true 2147483647)).state.mySceneVersion
      = -2147483648 ∧
    ¬ ((sampleParam true 2147483647 : BRAY_HdParam Bool String).mySceneVersion <
      (getSceneForEdit false flagBackend (sampleParam true 2147483647)).state.mySceneVersion) := by
  constructor
  · decide
  · decide

/-- C5 (amended): for every starting value of the signed 32-bit counter other
than the largest, the version after a `getSceneForEdit` call that passes the
assertion is the value before plus one, hence strictly greater; from the largest
value it wraps to the smallest; in every case it differs from the value
before. -/
theorem getSceneForEdit_version_increases_below_max (asserts : Bool) (ops : Backend β)
    (s : BRAY_HdParam β σ) (h : PassesAssert asserts ops)
    (hlo : -2147483648 ≤ s.mySceneVersion) (hhi : s.mySceneVersion ≤ 2147483647) :
    (s.mySceneVersion < 2147483647 →
      (getSceneForEdit asserts ops s).state.mySceneVersion = s.mySceneVersion + 1 ∧
      s.mySceneVersion < (getSceneForEdit asserts ops s).state.mySceneVersion) ∧
    (s.mySceneVersion = 2147483647 →
      (getSceneForEdit asserts ops s).state.mySceneVersion = -2147483648) ∧
    (getSceneForEdit asserts ops s).state.mySceneVersion ≠ s.mySceneVersion := by
  rw [getSceneForEdit_passes asserts ops s h]
  show (_ → wrapInt32 (s.mySceneVersion + 1) = _ ∧ _ < wrapInt32 (s.mySceneVersion + 1)) ∧
    (_ → wrapInt32 (s.mySceneVersion + 1) = _) ∧ wrapInt32 (s.mySceneVersion + 1) ≠ _
  unfold wrapInt32
  refine ⟨fun hlt => ⟨by omega, by omega⟩, fun heq => by omega, by omega⟩

/-- Witness of C5 (amended): from version 41 the version after the call is 42. -/
theorem getSceneForEdit_version_increases_below_max_witness :
    (sampleParam true 41 : BRAY_HdParam Bool String).mySceneVersion <
      (getSceneForEdit true flagBackend (sampleParam true 41)).state.mySceneVersion :=
  ((getSceneForEdit_version_increases_below_max true flagBackend (sampleParam true 41)
    (Or.inr (fun _ => rfl)) (by decide) (by decide)).1 (by decide)).2

/-- Counterexample to C6 as stated: with assertions compiled out, a backend
that still reports rendering after the halt sequence does not stop the call:
`getSceneForEdit` increments the version and returns the scene handle. -/
theorem getSceneForEdit_returns_scene_on_stuck_backend :
    stuckBackend.isRendering
      (stuckBackend.StopRender (stuckBackend.prepareForStop (sampleParam true 5).backend))
      = true ∧
    (getSceneForEdit false stuckBackend (sampleParam true 5)).result = some "scene" ∧
    (getSceneForEdit false stuckBackend (sampleParam true 5)).state.mySceneVersion = 6 ∧
    stuckBackend.isRendering (getSceneForEdit false stuckBackend (sampleParam true 5)).state.backend
      = true := by
  refine ⟨rfl, rfl, ?_, rfl⟩
  decide

/-- C6 (amended): when the backend still reports rendering after the halt
sequence, the only check is the assertion in `stopRendering`. With assertions
enabled the call ends at the failed assertion: no scene handle is returned, the
version is not incremented and no increment is issued. With assertions compiled
out the call increments the version and returns the scene handle all the
same, on a backend that is still rendering. -/
theorem getSceneForEdit_on_unstoppable_backend (asserts : Bool) (ops : Backend β)
    (s : BRAY_HdParam β σ)
    (hstuck : ops.isRendering (ops.StopRender (ops.prepareForStop s.backend)) = true) :
    (asserts = true →
      (getSceneForEdit asserts ops s).result = none ∧
      (getSceneForEdit asserts ops s).state.mySceneVersion = s.mySceneVersion ∧
      (getSceneForEdit asserts ops s).trace =
        [Effect.prepareForStop, Effect.StopRender, Effect.assertFailed]) ∧
    (asserts = false →
      (getSceneForEdit asserts ops s).result = some s.myScene ∧
      (getSceneForEdit asserts ops s).state.mySceneVersion
        = SYS_AtomicInt32.add s.mySceneVersion 1 ∧
      ops.isRendering (getSceneForEdit asserts ops s).state.backend = true) := by
  constructor
  · intro ha
    subst ha
    have hs : stopRendering true ops s =
        { trace := [Effect.prepareForStop, Effect.StopRender, Effect.assertFailed],
          state := { s with backend := ops.StopRender (ops.prepareForStop s.backend) },
          result := none } := by
      unfold stopRendering UT_ASSERT
      simp [hstuck]
    unfold getSceneForEdit
    rw [hs]
    exact ⟨rfl, rfl, rfl⟩
  · intro ha
    rw [getSceneForEdit_passes asserts ops s (Or.inl ha)]
    exact ⟨rfl, rfl, hstuck⟩

/-- Witness of C6 (amended): the stuck backend with assertions enabled ends the
call without a scene handle. -/
theorem getSceneForEdit_on_unstoppable_backend_witness :
    stuckBackend.isRendering
      (stuckBackend.StopRender (stuckBackend.prepareForStop (sampleParam true 5).backend))
      = true ∧
    (getSceneForEdit true stuckBackend (sampleParam true 5)).result = none :=
  ⟨rfl, ((getSceneForEdit_on_unstoppable_backend true stuckBackend (sampleParam true 5) rfl).1
    rfl).1⟩

/-! ## Parameter store queries: claims C7 to C10 -/

/-- C7: for every stored shutter interval and instant-shutter flag,
`validShutter` is true exactly when the instant-shutter flag is false and
close > open. It is false whenever the flag is true, whatever the interval, and
false whenever close <= open, in particular when close == open or when the two
stored values are identical. -/
theorem validShutter_iff (s : BRAY_HdParam β σ) :
    (validShutter s = true ↔
      s.myInstantShutter = false ∧ Fp.gt (shutterClose s) (shutterOpen s) = true) ∧
    (s.myInstantShutter = true → validShutter s = false) ∧
    (Fp.le (shutterClose s) (shutterOpen s) = true → validShutter s = false) ∧
    (Fp.beq (shutterClose s) (shutterOpen s) = true → validShutter s = false) ∧
    (shutterClose s = shutterOpen s → validShutter s = false) := by
  unfold validShutter shutterClose shutterOpen Fp.gt
  refine ⟨?_, ?_, ?_, ?_, ?_⟩
  · simp
  · intro h
    simp [h]
  · intro h
    have h2 := Fp.lt_eq_false_of_le _ _ h
    simp [h2]
  · intro h
    have h2 := Fp.lt_eq_false_of_beq _ _ h
    simp [h2]
  · intro h
    rw [h, Fp.lt_irrefl]
    simp

/-- Witness of C7: an instant shutter over a proper interval, and a closed
interval whose ends coincide, are both invalid; a proper interval without
instant shutter is valid. -/
theorem validShutter_iff_witness :
    validShutter { (sampleParam true 0) with myInstantShutter := true } = false ∧
    validShutter { (sampleParam true 0) with myShutter := (Fp.fin 2, Fp.fin 2) } = false ∧
    validShutter (sampleParam true 0) = true :=
  ⟨(validShutter_iff { (sampleParam true 0) with myInstantShutter := true }).2.1 rfl,
    (validShutter_iff { (sampleParam true 0) with myShutter := (Fp.fin 2, Fp.fin 2) }).2.2.2.2 rfl,
    (validShutter_iff (sampleParam true 0)).1.2 ⟨rfl, by simp [sampleParam, shutterClose, shutterOpen, Fp.gt, Fp.lt]⟩⟩

/-- C8: `resolution` returns the viewport resolution when the explicitly
requested resolution has a negative width and the explicitly requested
resolution otherwise; two states with the same explicit width take the same
branch, whatever their heights. With explicit (-1,-1) and viewport (1920,1080)
the result is (1920,1080); with explicit (640,480) it is (640,480) for every
viewport resolution. -/
theorem resolution_falls_back_on_negative_width (s : BRAY_HdParam β σ) :
    (s.myResolution.1 < 0 → resolution s = s.myRenderRes) ∧
    (0 ≤ s.myResolution.1 → resolution s = s.myResolution) ∧
    (∀ t : BRAY_HdParam β σ, t.myResolution.1 = s.myResolution.1 →
      (resolution s = s.myRenderRes ∧ resolution t = t.myRenderRes) ∨
      (resolution s = s.myResolution ∧ resolution t = t.myResolution)) ∧
    resolution { s with myResolution := (-1, -1), myRenderRes := (1920, 1080) } = (1920, 1080) ∧
    (∀ vp : GfVec2i,
      resolution { s with myResolution := (640, 480), myRenderRes := vp } = (640, 480)) := by
  unfold resolution
  refine ⟨?_, ?_, ?_, ?_, ?_⟩
  · intro h
    rw [if_pos h]
  · intro h
    rw [if_neg (by omega)]
  · intro t ht
    rw [ht]
    by_cases hw : s.myResolution.1 < 0
    · left
      rw [if_pos hw, if_pos hw]
      exact ⟨rfl, rfl⟩
    · right
      rw [if_neg hw, if_neg hw]
      exact ⟨rfl, rfl⟩
  · rfl
  · intro vp
    rfl

/-- Witness of C8: the sample state has an unset explicit resolution and
resolves to its viewport resolution; after an explicit (640,480) it resolves to
(640,480). -/
theorem resolution_falls_back_on_negative_width_witness :
    resolution (sampleParam true 0) = (1920, 1080) ∧
    resolution { (sampleParam true 0) with myResolution := (640, 480) } = (640, 480) :=
  ⟨(resolution_falls_back_on_negative_width (sampleParam true 0)).1 (by decide),
    (resolution_falls_back_on_negative_width
      { (sampleParam true 0) with myResolution := (640, 480) }).2.1 (by decide)⟩

/-- C9 (the code at the failing input): with an unset explicit resolution
(-1,-1), viewport (1920,1080) and pixel aspect 1, the effective resolution is
(1920,1080) and pixelAspect * W / H over it is 16/9, but `imageAspect` divides
the stored sentinel components and returns 1, for every fallback of the guarded
division. -/
theorem imageAspect_ignores_viewport_fallback (fallback : Fp → Fp) :
    resolution (sampleParam true 0) = (1920, 1080) ∧
    Fp.div? (Fp.mul (pixelAspect (sampleParam true 0))
        (Fp.ofInt (resolution (sampleParam true 0)).1))
      (Fp.ofInt (resolution (sampleParam true 0)).2) = some (Fp.fin (16 / 9)) ∧
    imageAspect fallback (sampleParam true 0) = some (Fp.fin 1) ∧
    imageAspect fallback (sampleParam true 0) ≠ some (Fp.fin (16 / 9)) := by
  have h1 : imageAspect fallback (sampleParam true 0) = some (Fp.fin 1) := by
    simp [imageAspect, SYSsafediv, sampleParam, Fp.mul, Fp.ofInt, Fp.div?, Fp.nonZero, Fp.beq]
  refine ⟨rfl, ?_, h1, ?_⟩
  · simp [pixelAspect, resolution, sampleParam, Fp.mul, Fp.ofInt, Fp.div?]
    norm_num
  · rw [h1]
    simp
    norm_num

/-- C10: `imageAspect` is total: for every stored state and every fallback of
the guarded division it returns a value and never a division by zero. With a
resolution height of 0 the value is the fallback of the guarded division for
the numerator pixelAspect * width; with a non-zero height it is the quotient of
that numerator by the height. -/
theorem imageAspect_total (fallback : Fp → Fp) (s : BRAY_HdParam β σ) :
    (∃ v, imageAspect fallback s = some v) ∧
    (s.myResolution.2 = 0 →
      imageAspect fallback s
        = some (fallback (Fp.mul s.myPixelAspect (Fp.ofInt s.myResolution.1)))) ∧
    (s.myResolution.2 ≠ 0 →
      imageAspect fallback s
        = Fp.div? (Fp.mul s.myPixelAspect (Fp.ofInt s.myResolution.1))
            (Fp.ofInt s.myResolution.2)) := by
  unfold imageAspect SYSsafediv
  rw [Fp.nonZero_ofInt]
  by_cases hz : s.myResolution.2 = 0
  · simp [hz]
  · simp only [hz, ne_eq, not_false_eq_true, decide_True, if_true, true_implies,
      false_implies, and_true]
    exact Fp.div?_isSome_of_ne_zero _ _ (by exact_mod_cast hz)

/-- Witness of C10: with resolution (640, 0) and the numerator as fallback,
`imageAspect` returns the numerator 640. -/
theorem imageAspect_total_witness :
    imageAspect (fun x => x) { (sampleParam true 0) with myResolution := (640, 0) }
      = some (Fp.fin 640) := by
  have h := (imageAspect_total (fun x => x)
    { (sampleParam true 0) with myResolution := (640, 0) }).2.1 rfl
  rw [h]
  simp [sampleParam, Fp.mul, Fp.ofInt]

end BRAY_HdParam

/-! ## Auxiliary lemmas on setters, samples and the queue -/

theorem storeIfChanged_detects {S α ν : Type} [DecidableEq α] (conv : ν → Option α)
    (get : S → α) (set : α → S → S) (hget : ∀ v s, get (set v s) = v) :
    DetectsChange conv get (fun val s => storeIfChanged get set (conv val) s) := by
  intro val s
  refine ⟨?_, ?_, ?_, ?_⟩
  · intro v hv heq
    simp [storeIfChanged, hv, heq]
  · intro v hv hne
    simp [storeIfChanged, hv, hne, hget]
  · cases hc : conv val with
    | none =>
      dsimp only
      rw [hc]
      rfl
    | some v =>
      dsimp only
      rw [hc]
      by_cases heq : v = get s
      · simp [storeIfChanged, heq]
      · simp [storeIfChanged, heq, hget]
  · intro hc
    simp [storeIfChanged, hc]

theorem storeIfChanged_keeps {S α γ : Type} [DecidableEq α] (get : S → α) (set : α → S → S)
    (obs : S → γ) (hobs : ∀ v s, obs (set v s) = obs s) (c : Option α) (s : S) :
    obs (storeIfChanged get set c s).2 = obs s := by
  cases c with
  | none => rfl
  | some v =>
    by_cases heq : v = get s
    · simp [storeIfChanged, heq]
    · simp [storeIfChanged, heq, hobs]

namespace BRAY_HdParam

variable {β σ ν π : Type}

theorem setShutterIndex_keeps {γ : Type} (obs : BRAY_HdParam β σ → γ)
    (hobs : ∀ (p : Fp × Fp) (t : BRAY_HdParam β σ), obs { t with myShutter := p } = obs t)
    (cv : VtConvert ν) (index : Fin 2) (val : ν) (s : BRAY_HdParam β σ) :
    obs (setShutterIndex cv index val s).2 = obs s := by
  unfold setShutterIndex
  split
  · exact storeIfChanged_keeps _ _ obs (fun v t => hobs _ t) _ s
  · exact storeIfChanged_keeps _ _ obs (fun v t => hobs _ t) _ s

theorem setCameraPath_keeps {γ : Type} (obs : BRAY_HdParam β σ → γ)
    (hobs : ∀ (p : String) (t : BRAY_HdParam β σ), obs { t with myCameraPath := p } = obs t)
    (path : String) (s : BRAY_HdParam β σ) :
    obs (setCameraPath path s).2 = obs s :=
  storeIfChanged_keeps _ _ obs (fun v t => hobs v t) _ s

theorem setShutterIndex_open_detects (cv : VtConvert ν) :
    DetectsChange cv.toReal (fun t : BRAY_HdParam β σ => t.myShutter.1)
      (setShutterIndex cv 0) := by
  have h := storeIfChanged_detects cv.toReal (fun t : BRAY_HdParam β σ => t.myShutter.1)
    (fun v t => { t with myShutter := (v, t.myShutter.2) }) (fun _ _ => rfl)
  exact h

theorem setShutterIndex_close_detects (cv : VtConvert ν) :
    DetectsChange cv.toReal (fun t : BRAY_HdParam β σ => t.myShutter.2)
      (setShutterIndex cv 1) := by
  have h := storeIfChanged_detects cv.toReal (fun t : BRAY_HdParam β σ => t.myShutter.2)
    (fun v t => { t with myShutter := (t.myShutter.1, v) }) (fun _ _ => rfl)
  exact h

theorem getSceneForEdit_state_cases (asserts : Bool) (ops : Backend β) (s : BRAY_HdParam β σ) :
    (getSceneForEdit asserts ops s).state =
        { s with backend := ops.StopRender (ops.prepareForStop s.backend) } ∨
    (getSceneForEdit asserts ops s).state =
        { s with backend := ops.StopRender (ops.prepareForStop s.backend),
                 mySceneVersion := SYS_AtomicInt32.add s.mySceneVersion 1 } := by
  have hst := stopRendering_state asserts ops s
  unfold getSceneForEdit
  dsimp only
  split
  · left
    exact hst
  · right
    dsimp only
    rw [hst]

theorem fps_setFPS (v : Fpreal) (s : BRAY_HdParam β σ) :
    fps (setFPS v s) = v.toFloat := rfl

theorem myIFPS_setFPS (v : Fpreal) (s : BRAY_HdParam β σ) :
    (setFPS v s).myIFPS = v.inv.toFloat := rfl

theorem storeIfChanged_keepsFrameRate {α : Type} [DecidableEq α]
    (get : BRAY_HdParam β σ → α) (set : α → BRAY_HdParam β σ → BRAY_HdParam β σ)
    (hset : ∀ v t, (set v t).myFPS = t.myFPS ∧ (set v t).myIFPS = t.myIFPS) (c : Option α) :
    KeepsFrameRate (fun s => (storeIfChanged get set c s).2) := fun s =>
  ⟨storeIfChanged_keeps get set (fun t => t.myFPS) (fun v t => (hset v t).1) c s,
    storeIfChanged_keeps get set (fun t => t.myIFPS) (fun v t => (hset v t).2) c s⟩

theorem setShutterIndex_keepsFrameRate (cv : VtConvert ν) (index : Fin 2) (val : ν) :
    KeepsFrameRate (fun s : BRAY_HdParam β σ => (setShutterIndex cv index val s).2) := fun s =>
  ⟨setShutterIndex_keeps (fun t => t.myFPS) (fun _ _ => rfl) cv index val s,
    setShutterIndex_keeps (fun t => t.myIFPS) (fun _ _ => rfl) cv index val s⟩

theorem setRenderResolutionAll_myResolution (rs : List GfVec2i) (s : BRAY_HdParam β σ) :
    (setRenderResolutionAll s rs).myResolution = s.myResolution := by
  induction rs generalizing s with
  | nil => rfl
  | cons r rs ih =>
    show (setRenderResolutionAll (setRenderResolution s r) rs).myResolution = s.myResolution
    rw [ih]
    rfl

theorem setRenderResolutionAll_last (rs : List GfVec2i) (r : GfVec2i) (s : BRAY_HdParam β σ) :
    (setRenderResolutionAll s (rs ++ [r])).myRenderRes = r := by
  unfold setRenderResolutionAll
  rw [List.foldl_append]
  rfl

/-! ## Parameter store setters: claims C11 to C15 -/

/-- C11: the combined `setShutter(open, close)` is the open setter followed by
the close setter, both applied unconditionally: it agrees with the combined
setter in the words of the spec, its final state is the state after the close
setter run on the state left by the open setter (also when the open setter
reported a change), and its result is the logical OR of the two results. With
the change-detecting single setters, a call with the open time unchanged and
the close time changed returns true and stores the close time, and the same
call repeated immediately returns false. -/
theorem setShutter_eq_single_setters
    (single : Fin 2 → ν → BRAY_HdParam β σ → Bool × BRAY_HdParam β σ)
    (vOpen vClose : ν) (s : BRAY_HdParam β σ) :
    setShutter single vOpen vClose s = setShutterSpec single vOpen vClose s ∧
    (setShutter single vOpen vClose s).2 = (single 1 vClose (single 0 vOpen s).2).2 ∧
    (setShutter single vOpen vClose s).1 =
      ((single 0 vOpen s).1 || (single 1 vClose (single 0 vOpen s).2).1) ∧
    ∀ (cv : VtConvert ν) (c : Fp), cv.toReal vOpen = some s.myShutter.1 →
      cv.toReal vClose = some c → c ≠ s.myShutter.2 →
      (setShutter (setShutterIndex cv) vOpen vClose s).1 = true ∧
      (setShutter (setShutterIndex cv) vOpen vClose s).2
        = { s with myShutter := (s.myShutter.1, c) } ∧
      (setShutter (setShutterIndex cv) vOpen vClose
        (setShutter (setShutterIndex cv) vOpen vClose s).2).1 = false := by
  refine ⟨rfl, rfl, rfl, ?_⟩
  intro cv c ho hc hne
  have h0 : setShutterIndex cv 0 vOpen s = (false, s) :=
    ((setShutterIndex_open_detects cv) vOpen s).1 _ ho rfl
  have h1 : setShutterIndex cv 1 vClose s = (true, { s with myShutter := (s.myShutter.1, c) }) := by
    simp [setShutterIndex, storeIfChanged, hc, hne]
  have h2 : setShutterIndex cv 0 vOpen { s with myShutter := (s.myShutter.1, c) }
      = (false, { s with myShutter := (s.myShutter.1, c) }) :=
    ((setShutterIndex_open_detects cv) vOpen _).1 _ ho rfl
  have h3 : setShutterIndex cv 1 vClose { s with myShutter := (s.myShutter.1, c) }
      = (false, { s with myShutter := (s.myShutter.1, c) }) :=
    ((setShutterIndex_close_detects cv) vClose _).1 _ hc rfl
  simp [setShutter, h0, h1, h2, h3]

/-- Witness of C11: with the stored shutter (0, 1), setting open 0 and close 2
returns true, and the same call repeated returns false. -/
theorem setShutter_eq_single_setters_witness :
    (setShutter (setShutterIndex VtValue.holding) (VtValue.real (Fp.fin 0))
      (VtValue.real (Fp.fin 2)) (sampleParam true 0)).1 = true ∧
    (setShutter (setShutterIndex VtValue.holding) (VtValue.real (Fp.fin 0))
      (VtValue.real (Fp.fin 2))
      (setShutter (setShutterIndex VtValue.holding) (VtValue.real (Fp.fin 0))
        (VtValue.real (Fp.fin 2)) (sampleParam true 0)).2).1 = false :=
  have h := (setShutter_eq_single_setters (setShutterIndex VtValue.holding)
    (VtValue.real (Fp.fin 0)) (VtValue.real (Fp.fin 2)) (sampleParam true 0)).2.2.2
    VtValue.holding (Fp.fin 2) rfl rfl (by simp [sampleParam])
  ⟨h.1, h.2.2⟩

/-- Counterexample to C12 as stated: for the non-zero value 24 the stored
frame rate is 24 but the stored inverse is the `float` 11184811/2^28, not 1/24.
For 41 the stored values are 41 and 3273603/2^27; their exact product is
134217723/2^27 and their `float` product, the conversion of the exact one, is
16777215/2^24: neither is 1. For 2^128 the stored frame rate is not v but
infinity. For +infinity the stored inverse is 0 and the product is
not-a-number. -/
theorem setFPS_inverse_not_exact :
    fps (setFPS (Fpreal.fin 24) (sampleParam true 0)) = Fp.fin 24 ∧
    (setFPS (Fpreal.fin 24) (sampleParam true 0)).myIFPS = Fp.fin (11184811 / 268435456) ∧
    (setFPS (Fpreal.fin 24) (sampleParam true 0)).myIFPS ≠ Fp.fin (1 / 24) ∧
    fps (setFPS (Fpreal.fin 41) (sampleParam true 0)) = Fp.fin 41 ∧
    (setFPS (Fpreal.fin 41) (sampleParam true 0)).myIFPS = Fp.fin (3273603 / 134217728) ∧
    Fp.mul (fps (setFPS (Fpreal.fin 41) (sampleParam true 0)))
      (setFPS (Fpreal.fin 41) (sampleParam true 0)).myIFPS
      = Fp.fin (134217723 / 134217728) ∧
    binary32.round (134217723 / 134217728) = Fp.fin (16777215 / 16777216) ∧
    Fp.fin (134217723 / 134217728) ≠ Fp.fin 1 ∧
    Fp.fin (16777215 / 16777216) ≠ Fp.fin 1 ∧
    fps (setFPS (Fpreal.fin (2 ^ 128)) (sampleParam true 0)) = Fp.posInf ∧
    fps (setFPS Fpreal.posInf (sampleParam true 0)) = Fp.posInf ∧
    (setFPS Fpreal.posInf (sampleParam true 0)).myIFPS = Fp.fin 0 ∧
    Fp.mul (fps (setFPS Fpreal.posInf (sampleParam true 0)))
      (setFPS Fpreal.posInf (sampleParam true 0)).myIFPS = Fp.nan := by
  have h1 : fps (setFPS (Fpreal.fin 24) (sampleParam true 0)) = Fp.fin 24 := by
    rw [fps_setFPS]
    exact round32_24
  have h2 : (setFPS (Fpreal.fin 24) (sampleParam true 0)).myIFPS
      = Fp.fin (11184811 / 268435456) := by
    rw [myIFPS_setFPS]
    exact Fpreal.inv_24
  have h3 : (setFPS Fpreal.posInf (sampleParam true 0)).myIFPS = Fp.fin 0 := by
    rw [myIFPS_setFPS]
    exact Fpreal.inv_posInf_toFloat
  have h4 : fps (setFPS Fpreal.posInf (sampleParam true 0)) = Fp.posInf := by
    rw [fps_setFPS]
    rfl
  have h6 : fps (setFPS (Fpreal.fin (2 ^ 128)) (sampleParam true 0)) = Fp.posInf := by
    rw [fps_setFPS]
    exact round32_overflow
  have h7 : fps (setFPS (Fpreal.fin 41) (sampleParam true 0)) = Fp.fin 41 := by
    rw [fps_setFPS]
    exact round32_41
  have h8 : (setFPS (Fpreal.fin 41) (sampleParam true 0)).myIFPS
      = Fp.fin (3273603 / 134217728) := by
    rw [myIFPS_setFPS]
    exact Fpreal.inv_41
  refine ⟨h1, h2, ?_, h7, h8, ?_, round32_product_41, ?_, ?_, h6, h4, h3, ?_⟩
  · rw [h2]
    intro h
    have h5 := Fp.fin.inj h
    norm_num at h5
  · rw [h7, h8]
    show Fp.fin (41 * (3273603 / 134217728)) = _
    norm_num
  · intro h
    have h5 := Fp.fin.inj h
    norm_num at h5
  · intro h
    have h5 := Fp.fin.inj h
    norm_num at h5
  · rw [h4, h3]
    rfl

/-- C12 (amended): `setFPS(v)` returns for every v and stores the frame rate v
converted to `float` and the inverse 1/v, taken in double precision and
converted to `float`; it changes no other field. For a finite v with
2^-125 <= |v| <= 2^125 both stored values are finite, the stored frame rate is
within |v|/2^24 of v, the stored inverse within |1/v|/2^23 of 1/v, and their
product within 1/2^22 of 1. For v a power of two 2^k or its negative, with
-126 <= k <= 126, the stored values are exactly v and 1/v and their product is
1. For v = 0 the stored inverse is +infinity, for the negative zero -infinity.
The other operations (stopRendering, getSceneForEdit, setRenderResolution, the
value setters, the shutter and camera setters, the queue operations) write
neither of the two fields. -/
theorem setFPS_stores_rounded (v : Fpreal) (s : BRAY_HdParam β σ)
    (asserts : Bool) (ops : Backend β) (cv : VtConvert ν) (val val2 : ν) (index : Fin 2)
    (GetText : π → String) (path : π) (binOf : Nat → Nat → Nat) (alive : Nat → Bool)
    (sd inst : Nat) (r : GfVec2i) :
    setFPS v s = { s with myFPS := v.toFloat, myIFPS := v.inv.toFloat } ∧
    (∀ q : ℚ, v = Fpreal.fin q → 1 / 2 ^ 125 ≤ |q| → |q| ≤ 2 ^ 125 →
      ∃ a c : ℚ, fps (setFPS v s) = Fp.fin a ∧ (setFPS v s).myIFPS = Fp.fin c ∧
        |a - q| ≤ |q| / 2 ^ 24 ∧ |c - 1 / q| ≤ |1 / q| / 2 ^ 23 ∧
        Fp.mul (fps (setFPS v s)) (setFPS v s).myIFPS = Fp.fin (a * c) ∧
        |a * c - 1| ≤ 1 / 2 ^ 22) ∧
    (∀ k sign : Int, -126 ≤ k → k ≤ 126 → sign = 1 ∨ sign = -1 →
      v = Fpreal.fin (sign * 2 ^ k) →
      fps (setFPS v s) = Fp.fin (sign * 2 ^ k) ∧
      (setFPS v s).myIFPS = Fp.fin (1 / (sign * 2 ^ k)) ∧
      Fp.mul (fps (setFPS v s)) (setFPS v s).myIFPS = Fp.fin 1) ∧
    (v = Fpreal.fin 0 → fps (setFPS v s) = Fp.fin 0 ∧ (setFPS v s).myIFPS = Fp.posInf) ∧
    (v = Fpreal.negZero →
      fps (setFPS v s) = Fp.fin 0 ∧ (setFPS v s).myIFPS = Fp.negInf) ∧
    KeepsFrameRate (fun t : BRAY_HdParam β σ => (stopRendering asserts ops t).state) ∧
    KeepsFrameRate (fun t : BRAY_HdParam β σ => (getSceneForEdit asserts ops t).state) ∧
    KeepsFrameRate (fun t : BRAY_HdParam β σ => setRenderResolution t r) ∧
    KeepsFrameRate (fun t : BRAY_HdParam β σ => (setResolution cv val t).2) ∧
    KeepsFrameRate (fun t : BRAY_HdParam β σ => (setDataWindow cv val t).2) ∧
    KeepsFrameRate (fun t : BRAY_HdParam β σ => (setPixelAspect cv val t).2) ∧
    KeepsFrameRate (fun t : BRAY_HdParam β σ => (setConformPolicy cv val t).2) ∧
    KeepsFrameRate (fun t : BRAY_HdParam β σ => (setInstantShutter cv val t).2) ∧
    KeepsFrameRate (fun t : BRAY_HdParam β σ => (setShutterIndex cv index val t).2) ∧
    KeepsFrameRate (fun t : BRAY_HdParam β σ =>
      (setShutter (setShutterIndex cv) val val2 t).2) ∧
    KeepsFrameRate (fun t : BRAY_HdParam β σ =>
      (setCameraPathSdf GetText setCameraPath path t).2) ∧
    KeepsFrameRate (fun t : BRAY_HdParam β σ => queueInstancer binOf sd inst t) ∧
    KeepsFrameRate (fun t : BRAY_HdParam β σ => (processQueuedInstancers alive t).2) := by
  refine ⟨rfl, ?_, ?_, ?_, ?_, ?_, ?_, ?_, ?_, ?_, ?_, ?_, ?_, ?_, ?_, ?_, ?_, ?_⟩
  · intro q hv hlo hhi
    obtain ⟨a, c, ha, hc, hab, hcb, hprod⟩ := inverse_product_bound q hlo hhi
    have h1 : fps (setFPS v s) = Fp.fin a := by
      rw [hv]
      exact ha
    have h2 : (setFPS v s).myIFPS = Fp.fin c := by
      rw [hv]
      exact hc
    refine ⟨a, c, h1, h2, hab, hcb, ?_, hprod⟩
    rw [h1, h2]
    rfl
  · intro k sign hk hk2 hs hv
    have h1 : fps (setFPS v s) = Fp.fin (sign * 2 ^ k) := by
      rw [hv]
      exact Fpreal.toFloat_two_zpow k hk (by omega) sign hs
    have h2 : (setFPS v s).myIFPS = Fp.fin (1 / (sign * 2 ^ k)) := by
      rw [hv]
      show (Fpreal.fin (sign * 2 ^ k)).inv.toFloat = _
      rw [Fpreal.inv_two_zpow k (by omega) (by omega) sign hs,
        Fpreal.toFloat_two_zpow (-k) (by omega) (by omega) sign hs,
        one_div_sign_mul_two_zpow k sign hs]
    refine ⟨h1, h2, ?_⟩
    rw [h1, h2]
    show Fp.fin (_ * _) = Fp.fin 1
    have hne : ((sign : ℚ) * 2 ^ k) ≠ 0 := by
      have h := abs_sign_mul_two_zpow k sign hs
      intro h0
      rw [h0, abs_zero] at h
      have hpos : (0 : ℚ) < 2 ^ k := by positivity
      linarith
    rw [mul_one_div, div_self hne]
  · intro hv
    rw [hv]
    refine ⟨?_, ?_⟩
    · exact binary32.round_zero
    · show (Fpreal.fin 0).inv.toFloat = Fp.posInf
      simp [Fpreal.inv, Fpreal.toFloat]
  · intro hv
    rw [hv]
    exact ⟨rfl, rfl⟩
  · intro t
    dsimp only
    rw [stopRendering_state]
    exact ⟨rfl, rfl⟩
  · intro t
    dsimp only
    rcases getSceneForEdit_state_cases asserts ops t with h | h
    · rw [h]
      exact ⟨rfl, rfl⟩
    · rw [h]
      exact ⟨rfl, rfl⟩
  · intro t
    exact ⟨rfl, rfl⟩
  · unfold setResolution
    refine storeIfChanged_keepsFrameRate _ _ ?_ _
    intro v u
    exact ⟨rfl, rfl⟩
  · unfold setDataWindow
    refine storeIfChanged_keepsFrameRate _ _ ?_ _
    intro v u
    exact ⟨rfl, rfl⟩
  · unfold setPixelAspect
    refine storeIfChanged_keepsFrameRate _ _ ?_ _
    intro v u
    exact ⟨rfl, rfl⟩
  · unfold setConformPolicy
    refine storeIfChanged_keepsFrameRate _ _ ?_ _
    intro v u
    exact ⟨rfl, rfl⟩
  · unfold setInstantShutter
    refine storeIfChanged_keepsFrameRate _ _ ?_ _
    intro v u
    exact ⟨rfl, rfl⟩
  · exact setShutterIndex_keepsFrameRate cv index val
  · intro t
    have h0 := setShutterIndex_keepsFrameRate cv 0 val t
    have h1 := setShutterIndex_keepsFrameRate cv 1 val2 (setShutterIndex cv 0 val t).2
    exact ⟨h1.1.trans h0.1, h1.2.trans h0.2⟩
  · unfold setCameraPathSdf setCameraPath
    refine storeIfChanged_keepsFrameRate _ _ ?_ _
    intro v u
    exact ⟨rfl, rfl⟩
  · intro t
    exact ⟨rfl, rfl⟩
  · intro t
    exact ⟨rfl, rfl⟩

/-- Witness of C12 (amended): setting 24 frames per second stores two finite
values whose product is within 1/2^22 of 1, and setting 2 frames per second
stores 2 and 1/2, whose product is 1. -/
theorem setFPS_stores_rounded_witness :
    (∃ a c : ℚ, fps (setFPS (Fpreal.fin 24) (sampleParam true 0)) = Fp.fin a ∧
      (setFPS (Fpreal.fin 24) (sampleParam true 0)).myIFPS = Fp.fin c ∧
      |a * c - 1| ≤ 1 / 2 ^ 22) ∧
    Fp.mul (fps (setFPS (Fpreal.fin ((1 : Int) * 2 ^ (1 : Int))) (sampleParam true 0)))
      (setFPS (Fpreal.fin ((1 : Int) * 2 ^ (1 : Int))) (sampleParam true 0)).myIFPS
      = Fp.fin 1 :=
  have h := setFPS_stores_rounded (Fpreal.fin 24) (sampleParam true 0) true flagBackend
    VtValue.holding VtValue.empty VtValue.empty 0 (fun p : String => p) "/cam"
    (fun _ _ => 0) (fun _ => true) 0 0 (0, 0)
  have h2 := setFPS_stores_rounded (Fpreal.fin ((1 : Int) * 2 ^ (1 : Int)))
    (sampleParam true 0) true flagBackend
    VtValue.holding VtValue.empty VtValue.empty 0 (fun p : String => p) "/cam"
    (fun _ _ => 0) (fun _ => true) 0 0 (0, 0)
  ⟨(h.2.1 24 rfl (by norm_num [abs_of_pos]) (by norm_num [abs_of_pos])).elim
      fun a ha => ha.elim fun c hc => ⟨a, c, hc.1, hc.2.1, hc.2.2.2.2.2⟩,
    (h2.2.2.1 1 1 (by decide) (by decide) (Or.inl rfl) rfl).2.2⟩

/-- C13: for every structured scene path and every prior state, the `SdfPath`
overload of `setCameraPath` returns exactly what the string overload returns on
the text of the path, result and state alike, whatever the string overload
does; two paths with the same text act alike. With the change-detecting string
overload the stored camera identifier afterwards is the text of the path and
the result tells whether that text differs from the identifier stored
before. -/
theorem setCameraPathSdf_eq_string_overload (GetText : π → String)
    (setString : String → BRAY_HdParam β σ → Bool × BRAY_HdParam β σ)
    (path : π) (s : BRAY_HdParam β σ) :
    setCameraPathSdf GetText setString path s = setString (GetText path) s ∧
    (∀ p2 : π, GetText p2 = GetText path →
      setCameraPathSdf GetText setString p2 s = setCameraPathSdf GetText setString path s) ∧
    setCameraPathSdf GetText setCameraPath path s = setCameraPath (GetText path) s ∧
    (setCameraPathSdf GetText setCameraPath path s).2.myCameraPath = GetText path ∧
    (setCameraPathSdf GetText setCameraPath path s).1
      = decide (GetText path ≠ s.myCameraPath) := by
  refine ⟨rfl, ?_, rfl, ?_, ?_⟩
  · intro p2 h
    simp only [setCameraPathSdf, h]
  · by_cases h : GetText path = s.myCameraPath
    · simp [setCameraPathSdf, setCameraPath, storeIfChanged, h]
    · simp [setCameraPathSdf, setCameraPath, storeIfChanged, h]
  · by_cases h : GetText path = s.myCameraPath
    · simp [setCameraPathSdf, setCameraPath, storeIfChanged, h]
    · simp [setCameraPathSdf, setCameraPath, storeIfChanged, h]

/-- Witness of C13: a path given by its parent and its name, with the text
parent/name, acts as its text does, and two paths with the same text act
alike. -/
theorem setCameraPathSdf_eq_string_overload_witness :
    setCameraPathSdf (fun p : String × String => p.1 ++ "/" ++ p.2) setCameraPath
        ("/cameras", "camera2") (sampleParam true 0)
      = setCameraPath ((fun p : String × String => p.1 ++ "/" ++ p.2) ("/cameras", "camera2"))
        (sampleParam true 0) :=
  (setCameraPathSdf_eq_string_overload (fun p : String × String => p.1 ++ "/" ++ p.2)
    setCameraPath ("/cameras", "camera2") (sampleParam true 0)).1

/-- Counterexample to C14 as stated: `setRenderResolution` stores what it is
given without validation. After the calls with (1920,1080) and then (-1,-1) the
stored viewport resolution is (-1,-1), which is not positive, and with the
explicit resolution unset `resolution` returns it, negative width included. -/
theorem setRenderResolution_stores_invalid :
    (setRenderResolutionAll (sampleParam true 0) [(1920, 1080), (-1, -1)]).myRenderRes
      = (-1, -1) ∧
    ¬ (0 < (setRenderResolutionAll (sampleParam true 0)
          [(1920, 1080), (-1, -1)]).myRenderRes.1 ∧
       0 < (setRenderResolutionAll (sampleParam true 0)
          [(1920, 1080), (-1, -1)]).myRenderRes.2) ∧
    (resolution (setRenderResolutionAll (sampleParam true 0) [(1920, 1080), (-1, -1)])).1
      < 0 := by
  refine ⟨rfl, ?_, ?_⟩
  · decide
  · decide

/-- C14 (amended): after any sequence of `setRenderResolution` calls the stored
viewport resolution is the argument of the last call, whatever it is, and the
explicit resolution is untouched. When the last argument has positive width and
height, so has the stored viewport resolution, and the width returned by
`resolution` is not negative. In general `resolution` returns a negative width
exactly when both the explicit width and the width of the last argument are
negative. -/
theorem setRenderResolution_stores_last (s : BRAY_HdParam β σ) (rs : List GfVec2i)
    (r : GfVec2i) :
    (setRenderResolutionAll s (rs ++ [r])).myRenderRes = r ∧
    (setRenderResolutionAll s (rs ++ [r])).myResolution = s.myResolution ∧
    (0 < r.1 ∧ 0 < r.2 →
      0 < (setRenderResolutionAll s (rs ++ [r])).myRenderRes.1 ∧
      0 < (setRenderResolutionAll s (rs ++ [r])).myRenderRes.2 ∧
      0 ≤ (resolution (setRenderResolutionAll s (rs ++ [r]))).1) ∧
    ((resolution (setRenderResolutionAll s (rs ++ [r]))).1 < 0 ↔
      s.myResolution.1 < 0 ∧ r.1 < 0) := by
  have h1 := setRenderResolutionAll_last rs r s
  have h2 := setRenderResolutionAll_myResolution (rs ++ [r]) s
  have h3 : (resolution (setRenderResolutionAll s (rs ++ [r]))).1 < 0 ↔
      s.myResolution.1 < 0 ∧ r.1 < 0 := by
    unfold resolution
    rw [h1, h2]
    by_cases hw : s.myResolution.1 < 0
    · simp [hw]
    · simp [hw]
  refine ⟨h1, h2, ?_, h3⟩
  intro hr
  rw [h1]
  refine ⟨hr.1, hr.2, ?_⟩
  by_contra hneg
  have := (h3.1 (by omega)).2
  omega

/-- Witness of C14 (amended): after (0,0) and then (1280,720) the stored
viewport resolution is positive and the effective width is not negative. -/
theorem setRenderResolution_stores_last_witness :
    0 ≤ (resolution (setRenderResolutionAll (sampleParam true 0)
      ([(0, 0)] ++ [(1280, 720)]))).1 :=
  ((setRenderResolution_stores_last (sampleParam true 0) [(0, 0)] (1280, 720)).2.2.1
    ⟨by decide, by decide⟩).2.2

/-- C15: every operation of the header other than `getSceneForEdit` leaves the
scene version unchanged: `stopRendering`, `setRenderResolution`, `setFPS`, the
combined `setShutter` and the `SdfPath` overload of `setCameraPath`. The last
two forward to setters defined outside the header and keep the version
whenever those do, as the change-detecting setters do. The queries
(`validShutter`, `resolution`, `imageAspect`, `shutterOpen`, `shutterClose`,
`fps`) are functions from the state to a value and return no state.
`getSceneForEdit` is the operation that advances the version. -/
theorem sceneVersion_only_advanced_by_getSceneForEdit (asserts : Bool) (ops : Backend β)
    (s : BRAY_HdParam β σ) (r : GfVec2i) (v : Fpreal)
    (single : Fin 2 → ν → BRAY_HdParam β σ → Bool × BRAY_HdParam β σ)
    (cv : VtConvert ν) (val val2 : ν) (GetText : π → String)
    (setString : String → BRAY_HdParam β σ → Bool × BRAY_HdParam β σ) (path : π) :
    (stopRendering asserts ops s).state.mySceneVersion = s.mySceneVersion ∧
    (setRenderResolution s r).mySceneVersion = s.mySceneVersion ∧
    (setFPS v s).mySceneVersion = s.mySceneVersion ∧
    ((∀ i w t, (single i w t).2.mySceneVersion = t.mySceneVersion) →
      (setShutter single val val2 s).2.mySceneVersion = s.mySceneVersion) ∧
    (setShutter (setShutterIndex cv) val val2 s).2.mySceneVersion = s.mySceneVersion ∧
    ((∀ p t, (setString p t).2.mySceneVersion = t.mySceneVersion) →
      (setCameraPathSdf GetText setString path s).2.mySceneVersion = s.mySceneVersion) ∧
    (setCameraPathSdf GetText setCameraPath path s).2.mySceneVersion = s.mySceneVersion ∧
    (PassesAssert asserts ops →
      (getSceneForEdit asserts ops s).state.mySceneVersion
        = SYS_AtomicInt32.add s.mySceneVersion 1) := by
  refine ⟨?_, rfl, rfl, ?_, ?_, ?_, ?_, ?_⟩
  · rw [stopRendering_state]
  · intro h
    show (single 1 val2 (single 0 val s).2).2.mySceneVersion = s.mySceneVersion
    rw [h, h]
  · show (setShutterIndex cv 1 val2 (setShutterIndex cv 0 val s).2).2.mySceneVersion
      = s.mySceneVersion
    rw [setShutterIndex_keeps (fun t => t.mySceneVersion) (fun _ _ => rfl),
      setShutterIndex_keeps (fun t => t.mySceneVersion) (fun _ _ => rfl)]
  · intro h
    exact h _ _
  · exact setCameraPath_keeps (fun t => t.mySceneVersion) (fun _ _ => rfl) _ s
  · intro h
    rw [getSceneForEdit_passes asserts ops s h]

/-- Witness of C15: with the change-detecting setters, the combined shutter
setter and the camera path forwarder leave version 9 unchanged. -/
theorem sceneVersion_only_advanced_by_getSceneForEdit_witness :
    (setShutter (setShutterIndex VtValue.holding) (VtValue.real (Fp.fin 0))
      (VtValue.real (Fp.fin 2)) (sampleParam true 9)).2.mySceneVersion = 9 ∧
    (setCameraPathSdf (fun p : String => p) setCameraPath "/cameras/camera2"
      (sampleParam true 9)).2.mySceneVersion = 9 :=
  have h := sceneVersion_only_advanced_by_getSceneForEdit true flagBackend (sampleParam true 9)
    (0, 0) (Fpreal.fin 24) (setShutterIndex VtValue.holding) VtValue.holding
    (VtValue.real (Fp.fin 0)) (VtValue.real (Fp.fin 2)) (fun p : String => p) setCameraPath
    "/cameras/camera2"
  ⟨h.2.2.2.1 (fun i w t =>
      setShutterIndex_keeps (fun u => u.mySceneVersion) (fun _ _ => rfl) VtValue.holding i w t),
    h.2.2.2.2.2.1 (fun p t =>
      setCameraPath_keeps (fun u => u.mySceneVersion) (fun _ _ => rfl) p t)⟩

end BRAY_HdParam

/-! ## Auxiliary lemmas on sample times -/

theorem collectAll_map_total {ι α : Type} (f : ι → Option α) (hf : ∀ i, ∃ v, f i = some v)
    (l : List ι) :
    ∃ ts, collectAll (l.map f) = some ts ∧ ts.length = l.length := by
  induction l with
  | nil => exact ⟨[], rfl, rfl⟩
  | cons x xs ih =>
    obtain ⟨ts, hts, hlen⟩ := ih
    obtain ⟨v, hv⟩ := hf x
    refine ⟨v :: ts, ?_, ?_⟩
    · simp [collectAll, hv, hts]
    · simp [hlen]

theorem Fp.div?_zero (x : Fp) : Fp.div? x (Fp.fin 0) = none := by
  cases x <;> simp [Fp.div?, Fp.nonZero, Fp.beq]

namespace BRAY_HdParam

variable {β σ ν π : Type}

theorem shutterTime_total (tOpen tClose : Fp) (n : Int) (i : Nat) (hn : n ≠ 1) :
    ∃ v, shutterTime tOpen tClose n i = some v := by
  have hq : ((n - 1 : Int) : ℚ) ≠ 0 := by
    intro h
    apply hn
    have : n - 1 = 0 := by exact_mod_cast h
    omega
  obtain ⟨d, hd⟩ := Fp.div?_isSome_of_ne_zero
    (Fp.mul (Fp.ofInt i) (Fp.sub tClose tOpen)) _ hq
  refine ⟨Fp.add tOpen d, ?_⟩
  unfold shutterTime Fp.ofInt
  unfold Fp.ofInt at hd
  rw [hd]

theorem shutterTime_one (tOpen tClose : Fp) (i : Nat) :
    shutterTime tOpen tClose 1 i = none := by
  unfold shutterTime
  have h : Fp.ofInt (1 - 1) = Fp.fin 0 := by simp [Fp.ofInt]
  rw [h, Fp.div?_zero]

theorem fillShutterTimes_total (zeroOnInstant : Bool) (s : BRAY_HdParam β σ) (n : Int) :
    ∃ ts, fillShutterTimes zeroOnInstant s n = some ts ∧ ts.length = n.toNat := by
  unfold fillShutterTimes
  by_cases h1 : n = 1
  · rw [if_pos h1]
    refine ⟨_, rfl, ?_⟩
    rw [h1]
    rfl
  · rw [if_neg h1]
    by_cases hv : validShutter s = true
    · rw [if_pos hv]
      obtain ⟨ts, hts, hlen⟩ := collectAll_map_total
        (shutterTime (shutterOpen s) (shutterClose s) n)
        (fun i => shutterTime_total _ _ n i h1) (List.range n.toNat)
      exact ⟨ts, hts, by rw [hlen, List.length_range]⟩
    · rw [if_neg hv]
      exact ⟨_, rfl, List.length_replicate _ _⟩

/-- C17: for n == 1, in every state, `fillShutterTimes` writes exactly one
value, the shutter open time. No division takes place: the call returns a
value, while the general sample formula taken at n = 1 would divide by
n-1 = 0. -/
theorem fillShutterTimes_one (zeroOnInstant : Bool) (s : BRAY_HdParam β σ) :
    fillShutterTimes zeroOnInstant s 1 = some [shutterOpen s] ∧
    (∀ ts, fillShutterTimes zeroOnInstant s 1 = some ts → ts.length = 1) ∧
    fillShutterTimes zeroOnInstant s 1 ≠ none ∧
    (∀ i : Nat, shutterTime (shutterOpen s) (shutterClose s) 1 i = none) := by
  have h : fillShutterTimes zeroOnInstant s 1 = some [shutterOpen s] := by
    unfold fillShutterTimes
    rw [if_pos rfl]
  refine ⟨h, ?_, ?_, fun i => shutterTime_one _ _ i⟩
  · intro ts hts
    rw [h] at hts
    rw [← Option.some.inj hts]
    rfl
  · rw [h]
    simp

/-- Witness of C17: with an instant shutter and the shutter (0, 1), one sample
is the open time 0. -/
theorem fillShutterTimes_one_witness :
    fillShutterTimes true { (sampleParam true 0) with myInstantShutter := true } 1
      = some [Fp.fin 0] :=
  (fillShutterTimes_one true { (sampleParam true 0) with myInstantShutter := true }).1

/-- C18: for every n and every stored state, `fillShutterTimes` and
`fillFrameTimes` both return, they write the same number of values, n for
n >= 1, and the i-th value written by `fillFrameTimes` is the i-th value
written by `fillShutterTimes` multiplied by fps, for every 0 <= i < n. -/
theorem fillFrameTimes_eq_scaled_shutter_times (zeroOnInstant : Bool)
    (s : BRAY_HdParam β σ) (n : Int) :
    ∃ ts fs : List Fp,
      fillShutterTimes zeroOnInstant s n = some ts ∧
      fillFrameTimes zeroOnInstant s n = some fs ∧
      ts.length = n.toNat ∧ fs.length = n.toNat ∧
      fs = ts.map (fun t => Fp.mul t (fps s)) ∧
      (∀ i : Nat, (i : Int) < n →
        ∃ t, ts[i]? = some t ∧ fs[i]? = some (Fp.mul t (fps s))) := by
  obtain ⟨ts, hts, hlen⟩ := fillShutterTimes_total zeroOnInstant s n
  refine ⟨ts, ts.map (fun t => Fp.mul t (fps s)), hts, ?_, hlen, ?_, rfl, ?_⟩
  · unfold fillFrameTimes
    rw [hts]
    rfl
  · rw [List.length_map, hlen]
  · intro i hlt
    have hi : i < ts.length := by omega
    refine ⟨ts[i], ?_, ?_⟩
    · exact List.getElem?_eq_getElem hi
    · rw [List.getElem?_map, List.getElem?_eq_getElem hi]
      rfl

/-- Witness of C18: two samples of the sample state, at 24 frames per second. -/
theorem fillFrameTimes_eq_scaled_shutter_times_witness :
    ∃ ts fs : List Fp,
      fillShutterTimes false (sampleParam true 0) 2 = some ts ∧
      fillFrameTimes false (sampleParam true 0) 2 = some fs ∧
      fs = ts.map (fun t => Fp.mul t (Fp.fin 24)) :=
  (fillFrameTimes_eq_scaled_shutter_times false (sampleParam true 0) 2).elim
    fun ts h => h.elim fun fs hfs => ⟨ts, fs, hfs.1, hfs.2.1, hfs.2.2.2.2.1⟩

end BRAY_HdParam

/-! ## Auxiliary lemmas on the bins of the queue -/

theorem allBins_cons (b : Finset Nat) (bs : List (Finset Nat)) :
    allBins (b :: bs) = b ∪ allBins bs := rfl

theorem allBins_insertIntoBin (bins : List (Finset Nat)) (k x : Nat) :
    allBins (insertIntoBin bins k x) = insert x (allBins bins) := by
  induction bins generalizing k with
  | nil =>
    induction k with
    | zero => simp [insertIntoBin, allBins]
    | succ k ih =>
      rw [insertIntoBin, allBins_cons, ih]
      simp
  | cons b bs ih =>
    cases k with
    | zero =>
      rw [insertIntoBin, allBins_cons, allBins_cons]
      simp
    | succ k =>
      rw [insertIntoBin, allBins_cons, allBins_cons, ih]
      ext y
      simp only [Finset.mem_union, Finset.mem_insert]
      tauto

theorem insertIntoBin_idem (bins : List (Finset Nat)) (k x : Nat) :
    insertIntoBin (insertIntoBin bins k x) k x = insertIntoBin bins k x := by
  induction bins generalizing k with
  | nil =>
    induction k with
    | zero => simp [insertIntoBin]
    | succ k ih =>
      rw [insertIntoBin, insertIntoBin, ih]
  | cons b bs ih =>
    cases k with
    | zero => simp [insertIntoBin]
    | succ k =>
      rw [insertIntoBin, insertIntoBin, ih]

theorem allBins_map_empty (bins : List (Finset Nat)) :
    allBins (bins.map (fun _ => (∅ : Finset Nat))) = ∅ := by
  induction bins with
  | nil => rfl
  | cons b bs ih =>
    rw [List.map_cons, allBins_cons, ih]
    simp

namespace BRAY_HdParam

variable {β σ ν π : Type}

/-! ## Deferred queue and change detection: claims C19 and C20 -/

/-- C19: for every instancer that still exists at the drain, queueing it twice
with `queueInstancer` and then draining with `processQueuedInstancers`
processes it exactly once. The second enqueue changes nothing; before the drain
the instancer counts as one entry (the count is that of the queue before plus
one, or plus zero if it was queued already, and is 1 from an empty queue);
after the drain the count is zero. -/
theorem queueInstancer_twice_processed_once (binOf : Nat → Nat → Nat) (alive : Nat → Bool)
    (sd inst : Nat) (s : BRAY_HdParam β σ) (halive : alive inst = true) :
    queueInstancer binOf sd inst (queueInstancer binOf sd inst s)
      = queueInstancer binOf sd inst s ∧
    getQueueCount (queueInstancer binOf sd inst (queueInstancer binOf sd inst s))
      = getQueueCount s + (if inst ∈ allBins s.myQueuedInstancers then 0 else 1) ∧
    inst ∈ (processQueuedInstancers alive
      (queueInstancer binOf sd inst (queueInstancer binOf sd inst s))).1 ∧
    (processQueuedInstancers alive
      (queueInstancer binOf sd inst (queueInstancer binOf sd inst s))).1.val.count inst = 1 ∧
    getQueueCount (processQueuedInstancers alive
      (queueInstancer binOf sd inst (queueInstancer binOf sd inst s))).2 = 0 ∧
    (allBins s.myQueuedInstancers = ∅ →
      getQueueCount (queueInstancer binOf sd inst (queueInstancer binOf sd inst s)) = 1 ∧
      (processQueuedInstancers alive
        (queueInstancer binOf sd inst (queueInstancer binOf sd inst s))).1 = {inst}) := by
  have hidem : queueInstancer binOf sd inst (queueInstancer binOf sd inst s)
      = queueInstancer binOf sd inst s := by
    unfold queueInstancer
    simp only [insertIntoBin_idem]
  have hall : allBins (queueInstancer binOf sd inst s).myQueuedInstancers
      = insert inst (allBins s.myQueuedInstancers) :=
    allBins_insertIntoBin _ _ _
  have hmem : inst ∈ (processQueuedInstancers alive (queueInstancer binOf sd inst s)).1 := by
    unfold processQueuedInstancers
    simp only [Finset.mem_filter]
    rw [hall]
    exact ⟨Finset.mem_insert_self _ _, halive⟩
  rw [hidem]
  refine ⟨rfl, ?_, hmem, ?_, ?_, ?_⟩
  · unfold getQueueCount
    rw [hall]
    by_cases hin : inst ∈ allBins s.myQueuedInstancers
    · rw [Finset.card_insert_of_mem hin, if_pos hin]
      rfl
    · rw [Finset.card_insert_of_not_mem hin, if_neg hin]
  · exact Multiset.count_eq_one_of_mem (Finset.nodup _) hmem
  · unfold getQueueCount processQueuedInstancers
    simp only [allBins_map_empty]
    rfl
  · intro hempty
    constructor
    · unfold getQueueCount
      rw [hall, hempty]
      rfl
    · unfold processQueuedInstancers
      simp only
      rw [hall, hempty]
      ext y
      simp only [Finset.mem_filter, Finset.mem_insert, Finset.not_mem_empty, or_false,
        Finset.mem_singleton]
      constructor
      · intro h
        exact h.1
      · intro h
        exact ⟨h, by rw [h]; exact halive⟩

/-- Witness of C19: from the empty queue of the sample state, the instancer 7,
queued twice, is counted once and is the only one processed. -/
theorem queueInstancer_twice_processed_once_witness :
    getQueueCount (queueInstancer (fun _ _ => 0) 1 7
      (queueInstancer (fun _ _ => 0) 1 7 (sampleParam true 0))) = 1 ∧
    (processQueuedInstancers (fun _ => true) (queueInstancer (fun _ _ => 0) 1 7
      (queueInstancer (fun _ _ => 0) 1 7 (sampleParam true 0)))).1 = {7} :=
  (queueInstancer_twice_processed_once (fun _ _ => 0) (fun _ => true) 1 7
    (sampleParam true 0) rfl).2.2.2.2.2 rfl

/-- C20: every parameter setter detects changes: for the resolution, the data
window, the pixel aspect, the conform policy, the instant shutter flag, the
shutter open and close times and the camera path, setting the current value
returns false and leaves the store unchanged, setting a different valid value
returns true and stores that value, and repeating the identical set immediately
afterwards returns false; a value that fails to convert returns false and
leaves the store unchanged. -/
theorem setters_detect_change (cv : VtConvert ν) :
    DetectsChange cv.toVec2i (fun t : BRAY_HdParam β σ => t.myResolution)
      (setResolution cv) ∧
    DetectsChange cv.toVec4f (fun t : BRAY_HdParam β σ => t.myDataWindow)
      (setDataWindow cv) ∧
    DetectsChange cv.toReal (fun t : BRAY_HdParam β σ => t.myPixelAspect)
      (setPixelAspect cv) ∧
    DetectsChange cv.toConformPolicy (fun t : BRAY_HdParam β σ => t.myConformPolicy)
      (setConformPolicy cv) ∧
    DetectsChange cv.toBool (fun t : BRAY_HdParam β σ => t.myInstantShutter)
      (setInstantShutter cv) ∧
    DetectsChange cv.toReal (fun t : BRAY_HdParam β σ => t.myShutter.1)
      (setShutterIndex cv 0) ∧
    DetectsChange cv.toReal (fun t : BRAY_HdParam β σ => t.myShutter.2)
      (setShutterIndex cv 1) ∧
    DetectsChange (fun p : String => some p) (fun t : BRAY_HdParam β σ => t.myCameraPath)
      setCameraPath := by
  refine ⟨?_, ?_, ?_, ?_, ?_, setShutterIndex_open_detects cv,
    setShutterIndex_close_detects cv, ?_⟩
  · exact storeIfChanged_detects cv.toVec2i (fun t : BRAY_HdParam β σ => t.myResolution)
      (fun v t => { t with myResolution := v }) (fun _ _ => rfl)
  · exact storeIfChanged_detects cv.toVec4f (fun t : BRAY_HdParam β σ => t.myDataWindow)
      (fun v t => { t with myDataWindow := v }) (fun _ _ => rfl)
  · exact storeIfChanged_detects cv.toReal (fun t : BRAY_HdParam β σ => t.myPixelAspect)
      (fun v t => { t with myPixelAspect := v }) (fun _ _ => rfl)
  · exact storeIfChanged_detects cv.toConformPolicy
      (fun t : BRAY_HdParam β σ => t.myConformPolicy)
      (fun v t => { t with myConformPolicy := v }) (fun _ _ => rfl)
  · exact storeIfChanged_detects cv.toBool (fun t : BRAY_HdParam β σ => t.myInstantShutter)
      (fun v t => { t with myInstantShutter := v }) (fun _ _ => rfl)
  · exact storeIfChanged_detects (fun p : String => some p)
      (fun t : BRAY_HdParam β σ => t.myCameraPath)
      (fun v t => { t with myCameraPath := v }) (fun _ _ => rfl)

/-- Witness of C20: on the sample state, whose explicit resolution is (-1,-1),
setting (640,480) returns true and stores it, and the same set repeated returns
false. -/
theorem setters_detect_change_witness :
    (setResolution VtValue.holding (VtValue.vec2i (640, 480)) (sampleParam true 0)).1 = true ∧
    (setResolution VtValue.holding (VtValue.vec2i (640, 480))
      (sampleParam true 0)).2.myResolution = (640, 480) ∧
    (setResolution VtValue.holding (VtValue.vec2i (640, 480))
      (setResolution VtValue.holding (VtValue.vec2i (640, 480)) (sampleParam true 0)).2).1
      = false :=
  have h := (setters_detect_change VtValue.holding).1 (VtValue.vec2i (640, 480))
    (sampleParam true 0)
  ⟨(h.2.1 (640, 480) rfl (by decide)).1, (h.2.1 (640, 480) rfl (by decide)).2,
    congrArg Prod.fst h.2.2.1⟩

theorem storeIfChanged_false_unchanged {S α : Type} [DecidableEq α] (get : S → α)
    (set : α → S → S) (c : Option α) (s : S)
    (h : (storeIfChanged get set c s).1 = false) : (storeIfChanged get set c s).2 = s := by
  cases c with
  | none => rfl
  | some v =>
    by_cases heq : v = get s
    · simp [storeIfChanged, heq]
    · simp [storeIfChanged, heq] at h

theorem setShutterIndex_false_unchanged (cv : VtConvert ν) (index : Fin 2) (val : ν)
    (s : BRAY_HdParam β σ) (h : (setShutterIndex cv index val s).1 = false) :
    (setShutterIndex cv index val s).2 = s := by
  unfold setShutterIndex at h ⊢
  by_cases hi : index = 0
  · rw [if_pos hi] at h ⊢
    exact storeIfChanged_false_unchanged _ _ _ s h
  · rw [if_neg hi] at h ⊢
    exact storeIfChanged_false_unchanged _ _ _ s h

theorem forwardSetting_false_unchanged (cv : VtConvert ν) (setting : RenderSetting) (val : ν)
    (s : BRAY_HdParam β σ) (h : (forwardSetting cv setting val s).1 = false) :
    (forwardSetting cv setting val s).2 = s := by
  cases setting
  case shutterOpen => exact setShutterIndex_false_unchanged cv 0 val s h
  case shutterClose => exact setShutterIndex_false_unchanged cv 1 val s h
  all_goals exact storeIfChanged_false_unchanged _ _ _ s h

/-! ## Named dispatch and light categories: claims C21 to C23 -/

/-- C21: for every setting name that is not recognised and for every value,
`updateRenderSetting` returns false and the state it leaves is the state it was
given, every field included; the call is a total function and has no other
outcome. For a recognised name the call is that of the setter the name maps to,
and whenever the result is false, for whatever name, the state is unchanged. -/
theorem updateRenderSetting_unknown_name {τ : Type} (settingOf : τ → Option RenderSetting)
    (cv : VtConvert ν) (token : τ) (val : ν) (s : BRAY_HdParam β σ) :
    (settingOf token = none → updateRenderSetting settingOf cv token val s = (false, s)) ∧
    (∀ setting, settingOf token = some setting →
      updateRenderSetting settingOf cv token val s = forwardSetting cv setting val s) ∧
    ((updateRenderSetting settingOf cv token val s).1 = false →
      (updateRenderSetting settingOf cv token val s).2 = s) := by
  refine ⟨?_, ?_, ?_⟩
  · intro h
    simp [updateRenderSetting, h]
  · intro setting h
    simp [updateRenderSetting, h]
  · cases h : settingOf token with
    | none => simp [updateRenderSetting, h]
    | some setting =>
      simp only [updateRenderSetting, h]
      exact forwardSetting_false_unchanged cv setting val s

/-- Witness of C21: with the single recognised name "resolution", the name
"denoise" is a no-op that returns false. -/
theorem updateRenderSetting_unknown_name_witness :
    updateRenderSetting
        (fun n : String => if n = "resolution" then some RenderSetting.resolution else none)
        VtValue.holding "denoise" (VtValue.vec2i (640, 480)) (sampleParam true 0)
      = (false, sampleParam true 0) :=
  (updateRenderSetting_unknown_name
    (fun n : String => if n = "resolution" then some RenderSetting.resolution else none)
    VtValue.holding "denoise" (VtValue.vec2i (640, 480)) (sampleParam true 0)).1 (by decide)

/-- C22: light-category insertion is idempotent: for every category set and
every name, `addLightCategory` called twice leaves the state identical to
calling it once, and after one call as after two the name is reported valid by
`isValidLightCategory`; names that were valid stay valid and no other name
becomes valid. -/
theorem addLightCategory_idempotent (name : String) (s : BRAY_HdParam β σ) :
    addLightCategory name (addLightCategory name s) = addLightCategory name s ∧
    isValidLightCategory name (addLightCategory name s) = true ∧
    isValidLightCategory name (addLightCategory name (addLightCategory name s)) = true ∧
    (∀ other : String, other ≠ name →
      isValidLightCategory other (addLightCategory name s) = isValidLightCategory other s) := by
  refine ⟨?_, ?_, ?_, ?_⟩
  · simp [addLightCategory]
  · simp [addLightCategory, isValidLightCategory]
  · simp [addLightCategory, isValidLightCategory]
  · intro other hne
    simp [addLightCategory, isValidLightCategory, hne]

/-- Witness of C22: adding "shadow" twice to the empty set of the sample state
gives the same state as adding it once, with "shadow" valid and "key" not. -/
theorem addLightCategory_idempotent_witness :
    addLightCategory "shadow" (addLightCategory "shadow" (sampleParam true 0))
      = addLightCategory "shadow" (sampleParam true 0) ∧
    isValidLightCategory "shadow" (addLightCategory "shadow" (sampleParam true 0)) = true ∧
    isValidLightCategory "key" (addLightCategory "shadow" (sampleParam true 0))
      = isValidLightCategory "key" (sampleParam true 0) :=
  have h := addLightCategory_idempotent "shadow" (sampleParam true 0)
  ⟨h.1, h.2.1, h.2.2.2 "key" (by decide)⟩

/-- C23: for every category set and every name, `eraseLightCategory` returns
true exactly when the name was in the set before the call. When the name was
absent it returns false and leaves the state unchanged; in any case the
resulting set is the old set without that name: the name is no longer valid and
every other name is valid after the call exactly when it was before. -/
theorem eraseLightCategory_returns_presence (name : String) (s : BRAY_HdParam β σ) :
    ((eraseLightCategory name s).1 = true ↔ isValidLightCategory name s = true) ∧
    (isValidLightCategory name s = false →
      eraseLightCategory name s = (false, s)) ∧
    (eraseLightCategory name s).2.myLightCategories = s.myLightCategories \ {name} ∧
    isValidLightCategory name (eraseLightCategory name s).2 = false ∧
    (∀ other : String, other ≠ name →
      isValidLightCategory other (eraseLightCategory name s).2
        = isValidLightCategory other s) := by
  refine ⟨?_, ?_, ?_, ?_, ?_⟩
  · simp [eraseLightCategory, isValidLightCategory]
  · intro h
    have hn : name ∉ s.myLightCategories := by
      simpa [isValidLightCategory] using h
    simp [eraseLightCategory, hn, Finset.erase_eq_of_not_mem hn]
  · simp [eraseLightCategory, Finset.erase_eq]
  · simp [eraseLightCategory, isValidLightCategory]
  · intro other hne
    simp [eraseLightCategory, isValidLightCategory, hne]

/-- Witness of C23: erasing "shadow" from the empty set of the sample state
returns false and changes nothing; after adding it, erasing it returns true. -/
theorem eraseLightCategory_returns_presence_witness :
    eraseLightCategory "shadow" (sampleParam true 0) = (false, sampleParam true 0) ∧
    (eraseLightCategory "shadow" (addLightCategory "shadow" (sampleParam true 0))).1 = true :=
  ⟨(eraseLightCategory_returns_presence "shadow" (sampleParam true 0)).2.1 (by decide),
    (eraseLightCategory_returns_presence "shadow"
      (addLightCategory "shadow" (sampleParam true 0))).1.2
      (by simp [addLightCategory, isValidLightCategory])⟩

end BRAY_HdParam

end HdKarma

namespace HUSD

namespace HUSD_FindCollections

/-! ## Collection finder: claim C24 -/

/-- C24 (the code at the failing input): on a stage whose prim `/lights` has the
collections `key` and `fill`, a finder created with the pattern `key` returns
the path of `key`. After `setCollectionPattern` with `fill` it returns the
paths of both `key` and `fill`, where a fresh finder created with `fill`
returns the path of `fill` only; after `setCollectionPattern` with the empty
pattern it still returns the path of `key`, not the empty set. The path set of
the earlier query is never cleared. -/
theorem getExpandedPathSet_keeps_earlier_matches :
    (getExpandedPathSet sampleEnv (create "key")).1 = {"/lights.collection:key"} ∧
    (getExpandedPathSet sampleEnv
      (setCollectionPattern "fill" (getExpandedPathSet sampleEnv (create "key")).2)).1
      = {"/lights.collection:key", "/lights.collection:fill"} ∧
    (getExpandedPathSet sampleEnv (create "fill")).1 = {"/lights.collection:fill"} ∧
    (getExpandedPathSet sampleEnv
      (setCollectionPattern "fill" (getExpandedPathSet sampleEnv (create "key")).2)).1
      ≠ (getExpandedPathSet sampleEnv (create "fill")).1 ∧
    (getExpandedPathSet sampleEnv
      (setCollectionPattern "" (getExpandedPathSet sampleEnv (create "key")).2)).1
      = {"/lights.collection:key"} ∧
    (getExpandedPathSet sampleEnv (create "")).1 = ∅ := by
  refine ⟨?_, ?_, ?_, ?_, ?_, ?_⟩ <;> decide

end HUSD_FindCollections

end HUSD

namespace HUSD

/-! ## Auxiliary lemmas on writes -/

theorem applyWrites_nil (out : Nat → String) : applyWrites [] out = out := rfl

theorem applyWrites_append (ws1 ws2 : Writes) (out : Nat → String) :
    applyWrites (ws1 ++ ws2) out = applyWrites ws2 (applyWrites ws1 out) := by
  unfold applyWrites
  rw [List.foldl_append]

theorem applyWrites_range (n : Nat) (g : Nat → String) (out : Nat → String) (k : Nat) :
    applyWrites ((List.range n).map (fun i => (i, g i))) out k
      = if k < n then g k else out k := by
  induction n with
  | zero => simp [applyWrites]
  | succ n ih =>
    rw [List.range_succ, List.map_append, applyWrites_append]
    simp only [List.map_cons, List.map_nil, applyWrites, List.foldl_cons, List.foldl_nil]
    by_cases hk : k = n
    · subst hk
      simp
    · rw [Function.update_noteq hk]
      have := ih
      unfold applyWrites at this
      rw [this]
      by_cases hlt : k < n
      · have : k < n + 1 := by omega
        simp [hlt, this]
      · have : ¬ k < n + 1 := by omega
        simp [hlt, this]

theorem matWrites_eq_range {κ : Type} (numRows numColumns : Nat) (format : κ → String)
    (mat : Nat → Nat → κ) :
    matWrites numRows numColumns format mat
      = (List.range (numRows * numColumns)).map
          (fun k => (k, format (mat (k / numColumns) (k % numColumns)))) := by
  unfold matWrites
  induction numRows with
  | zero => simp
  | succ r ih =>
    rw [List.range_succ, List.flatMap_append, ih]
    have hmul : (r + 1) * numColumns = r * numColumns + numColumns := by ring
    rw [hmul, List.range_add, List.map_append]
    congr 1
    simp only [List.flatMap_cons, List.flatMap_nil, List.append_nil, List.map_map]
    apply List.map_congr_left
    intro c hc
    have hlt : c < numColumns := List.mem_range.mp hc
    have hpos : 0 < numColumns := by omega
    simp only [Function.comp]
    have h1 : (r * numColumns + c) / numColumns = r := by
      rw [Nat.add_comm, Nat.add_mul_div_right _ _ hpos, Nat.div_eq_of_lt hlt]
      simp
    have h2 : (r * numColumns + c) % numColumns = c := by
      rw [Nat.add_comm, Nat.add_mul_mod_self_right, Nat.mod_eq_of_lt hlt]
    rw [h1, h2]

theorem vecWrites_fst {κ : Type} (dimension : Nat) (format : κ → String) (vec : Nat → κ) :
    (vecWrites dimension format vec).map Prod.fst = List.range dimension := by
  unfold vecWrites
  rw [List.map_map]
  have h : (Prod.fst ∘ fun i => (i, format (vec i))) = id := rfl
  rw [h, List.map_id]

theorem matWrites_fst {κ : Type} (numRows numColumns : Nat) (format : κ → String)
    (mat : Nat → Nat → κ) :
    (matWrites numRows numColumns format mat).map Prod.fst
      = List.range (numRows * numColumns) := by
  rw [matWrites_eq_range, List.map_map]
  have h : (Prod.fst ∘ fun k => (k, format (mat (k / numColumns) (k % numColumns)))) = id :=
    rfl
  rw [h, List.map_id]

section ConverterLemmas

variable {ν κ : Type}

theorem theAssetConverter_cases (ops : VtOps ν κ) (v : ν) :
    theAssetConverter ops v = [] ∨ (theAssetConverter ops v).map Prod.fst = List.range 1 := by
  unfold theAssetConverter
  cases ops.castAsset v with
  | none => exact Or.inl rfl
  | some a => exact Or.inr rfl

theorem theStringConverter_cases (ops : VtOps ν κ) (t : ScalarType) (v : ν) :
    theStringConverter ops t v = [] ∨
      (theStringConverter ops t v).map Prod.fst = List.range 1 := by
  unfold theStringConverter
  cases ops.castString t v with
  | none => exact Or.inl rfl
  | some a => exact Or.inr rfl

theorem theScalarConverter_cases (ops : VtOps ν κ) (t : ScalarType) (v : ν) :
    theScalarConverter ops t v = [] ∨
      (theScalarConverter ops t v).map Prod.fst = List.range 1 := by
  unfold theScalarConverter
  cases ops.castScalar t v with
  | none => exact Or.inl rfl
  | some a => exact Or.inr rfl

theorem theVecConverter_cases (ops : VtOps ν κ) (t : VecType) (v : ν) :
    theVecConverter ops t v = [] ∨
      (theVecConverter ops t v).map Prod.fst = List.range t.dimension := by
  unfold theVecConverter
  cases ops.castVec t v with
  | none => exact Or.inl rfl
  | some a => exact Or.inr (vecWrites_fst _ _ _)

theorem theMatConverter_cases (ops : VtOps ν κ) (t : MatType) (v : ν) :
    theMatConverter ops t v = [] ∨
      (theMatConverter ops t v).map Prod.fst = List.range (t.numRows * t.numColumns) := by
  unfold theMatConverter
  cases ops.castMat t v with
  | none => exact Or.inl rfl
  | some a => exact Or.inr (matWrites_fst _ _ _ _)

theorem withElement0_cases {α : Type} (xs : List α) (convert : α → Writes) (n : Nat)
    (h : ∀ x, convert x = [] ∨ (convert x).map Prod.fst = List.range n) :
    withElement0 xs convert = [] ∨ (withElement0 xs convert).map Prod.fst = List.range n := by
  cases xs with
  | nil => exact Or.inl rfl
  | cons x rest => exact h x

theorem theArrayAssetConverter_cases (ops : VtOps ν κ) (v : ν) :
    theArrayAssetConverter ops v = [] ∨
      (theArrayAssetConverter ops v).map Prod.fst = List.range 1 := by
  unfold theArrayAssetConverter
  split
  · cases ops.castAssetArray v with
    | none => exact Or.inl rfl
    | some xs =>
      dsimp only
      exact withElement0_cases xs _ 1 (fun x => theAssetConverter_cases ops _)
  · exact Or.inl rfl

theorem theArrayStringConverter_cases (ops : VtOps ν κ) (t : ScalarType) (v : ν) :
    theArrayStringConverter ops t v = [] ∨
      (theArrayStringConverter ops t v).map Prod.fst = List.range 1 := by
  unfold theArrayStringConverter
  split
  · cases ops.castStringArray t v with
    | none => exact Or.inl rfl
    | some xs =>
      dsimp only
      exact withElement0_cases xs _ 1 (fun x => theStringConverter_cases ops t _)
  · exact Or.inl rfl

theorem theArrayScalarConverter_cases (ops : VtOps ν κ) (t : ScalarType) (v : ν) :
    theArrayScalarConverter ops t v = [] ∨
      (theArrayScalarConverter ops t v).map Prod.fst = List.range 1 := by
  unfold theArrayScalarConverter
  split
  · cases ops.castScalarArray t v with
    | none => exact Or.inl rfl
    | some xs =>
      dsimp only
      exact withElement0_cases xs _ 1 (fun x => theScalarConverter_cases ops t _)
  · exact Or.inl rfl

theorem theArrayVecConverter_cases (ops : VtOps ν κ) (t : VecType) (v : ν) :
    theArrayVecConverter ops t v = [] ∨
      (theArrayVecConverter ops t v).map Prod.fst = List.range t.dimension := by
  unfold theArrayVecConverter
  split
  · cases ops.castVecArray t v with
    | none => exact Or.inl rfl
    | some xs =>
      dsimp only
      exact withElement0_cases xs _ t.dimension (fun x => theVecConverter_cases ops t _)
  · exact Or.inl rfl

theorem theArrayMatConverter_cases (ops : VtOps ν κ) (t : MatType) (v : ν) :
    theArrayMatConverter ops t v = [] ∨
      (theArrayMatConverter ops t v).map Prod.fst = List.range (t.numRows * t.numColumns) := by
  unfold theArrayMatConverter
  split
  · cases ops.castMatArray t v with
    | none => exact Or.inl rfl
    | some xs =>
      dsimp only
      exact withElement0_cases xs _ (t.numRows * t.numColumns) (fun x => theMatConverter_cases ops t _)
  · exact Or.inl rfl

theorem converter_run_nil_or_range (ops : VtOps ν κ) (conv : ValueConverter) (v : ν) :
    conv.run ops v = [] ∨ (conv.run ops v).map Prod.fst = List.range conv.writeCount := by
  cases conv with
  | theDefaultConverter => exact Or.inr rfl
  | theAssetConverter => exact theAssetConverter_cases ops v
  | theStringConverter t => exact theStringConverter_cases ops t v
  | theScalarConverter t => exact theScalarConverter_cases ops t v
  | theVecConverter t => exact theVecConverter_cases ops t v
  | theMatConverter t => exact theMatConverter_cases ops t v
  | theArrayAssetConverter => exact theArrayAssetConverter_cases ops v
  | theArrayStringConverter t => exact theArrayStringConverter_cases ops t v
  | theArrayScalarConverter t => exact theArrayScalarConverter_cases ops t v
  | theArrayVecConverter t => exact theArrayVecConverter_cases ops t v
  | theArrayMatConverter t => exact theArrayMatConverter_cases ops t v

theorem converter_run_index_lt (ops : VtOps ν κ) (conv : ValueConverter) (v : ν)
    (w : Nat × String) (hw : w ∈ conv.run ops v) : w.1 < conv.writeCount := by
  rcases converter_run_nil_or_range ops conv v with h | h
  · rw [h] at hw
    cases hw
  · have hmem : w.1 ∈ (conv.run ops v).map Prod.fst := List.mem_map_of_mem _ hw
    rw [h] at hmem
    exact List.mem_range.mp hmem

theorem converter_run_of_castSucceeds (ops : VtOps ν κ) (conv : ValueConverter) (v : ν)
    (h : conv.castSucceeds ops v = true) :
    (conv.run ops v).map Prod.fst = List.range conv.writeCount := by
  cases conv with
  | theDefaultConverter => rfl
  | theAssetConverter =>
    simp only [ValueConverter.castSucceeds] at h
    cases hc : ops.castAsset v with
    | none =>
      rw [hc] at h
      cases h
    | some a =>
      simp only [ValueConverter.run, theAssetConverter, hc, ValueConverter.writeCount]
      rfl
  | theStringConverter t =>
    simp only [ValueConverter.castSucceeds] at h
    cases hc : ops.castString t v with
    | none =>
      rw [hc] at h
      cases h
    | some a =>
      simp only [ValueConverter.run, theStringConverter, hc, ValueConverter.writeCount]
      rfl
  | theScalarConverter t =>
    simp only [ValueConverter.castSucceeds] at h
    cases hc : ops.castScalar t v with
    | none =>
      rw [hc] at h
      cases h
    | some a =>
      simp only [ValueConverter.run, theScalarConverter, hc, ValueConverter.writeCount]
      rfl
  | theVecConverter t =>
    simp only [ValueConverter.castSucceeds] at h
    cases hc : ops.castVec t v with
    | none =>
      rw [hc] at h
      cases h
    | some a =>
      simp only [ValueConverter.run, theVecConverter, hc, ValueConverter.writeCount]
      exact vecWrites_fst _ _ _
  | theMatConverter t =>
    simp only [ValueConverter.castSucceeds] at h
    cases hc : ops.castMat t v with
    | none =>
      rw [hc] at h
      cases h
    | some a =>
      simp only [ValueConverter.run, theMatConverter, hc, ValueConverter.writeCount]
      exact matWrites_fst _ _ _ _
  | theArrayAssetConverter => cases h
  | theArrayStringConverter t => cases h
  | theArrayScalarConverter t => cases h
  | theArrayVecConverter t => cases h
  | theArrayMatConverter t => cases h

theorem converter_run_of_cast_fails (ops : VtOps ν κ) (conv : ValueConverter) (v : ν)
    (hs : conv.isScalar = true) (h : conv.castSucceeds ops v = false) :
    conv.run ops v = [] := by
  cases conv with
  | theDefaultConverter => cases hs
  | theAssetConverter =>
    simp only [ValueConverter.castSucceeds] at h
    cases hc : ops.castAsset v with
    | none => simp only [ValueConverter.run, theAssetConverter, hc]
    | some a =>
      rw [hc] at h
      cases h
  | theStringConverter t =>
    simp only [ValueConverter.castSucceeds] at h
    cases hc : ops.castString t v with
    | none => simp only [ValueConverter.run, theStringConverter, hc]
    | some a =>
      rw [hc] at h
      cases h
  | theScalarConverter t =>
    simp only [ValueConverter.castSucceeds] at h
    cases hc : ops.castScalar t v with
    | none => simp only [ValueConverter.run, theScalarConverter, hc]
    | some a =>
      rw [hc] at h
      cases h
  | theVecConverter t =>
    simp only [ValueConverter.castSucceeds] at h
    cases hc : ops.castVec t v with
    | none => simp only [ValueConverter.run, theVecConverter, hc]
    | some a =>
      rw [hc] at h
      cases h
  | theMatConverter t =>
    simp only [ValueConverter.castSucceeds] at h
    cases hc : ops.castMat t v with
    | none => simp only [ValueConverter.run, theMatConverter, hc]
    | some a =>
      rw [hc] at h
      cases h
  | theArrayAssetConverter => cases hs
  | theArrayStringConverter t => cases hs
  | theArrayScalarConverter t => cases hs
  | theArrayVecConverter t => cases hs
  | theArrayMatConverter t => cases hs

theorem theTemplateMap_consistent :
    ∀ e ∈ theTemplateMap,
      e.2.myValueConverter.isScalar = true ∧
      e.2.myValueConverter.writeCount = e.2.myTemplate.vectorSize ∧
      e.2.myArrayValueConverter.writeCount = e.2.myTemplate.vectorSize ∧
      e.2.myArrayValueConverter = e.2.myValueConverter.arrayVariant := by
  decide

end ConverterLemmas

/-! ## Auxiliary lemmas on the static map -/

theorem theTemplateMap_lookup_of_mem :
    ∀ e ∈ theTemplateMap, theTemplateMap.lookup e.1 = some e.2 := by
  decide

theorem lookup_append_single (m : UT_Map) (n key : String) (d : AttribInfo) :
    (m ++ [(n, d)]).lookup key
      = match m.lookup key with
        | some info => some info
        | none => if key = n then some d else none := by
  induction m with
  | nil =>
    by_cases h : key = n
    · simp [List.lookup, h]
    · have hb : (key == n) = false := by simpa using h
      simp [List.lookup, hb, h]
  | cons e rest ih =>
    obtain ⟨k, i⟩ := e
    by_cases h : key = k
    · simp [List.lookup, h]
    · have hb : (key == k) = false := by simpa using h
      simp only [List.cons_append, List.lookup, hb]
      exact ih

theorem index_lookup (m : UT_Map) (n key : String) :
    (UT_Map.index m n).2.lookup key
      = match m.lookup key with
        | some info => some info
        | none => if key = n then some AttribInfo.default else none := by
  unfold UT_Map.index
  cases hn : m.lookup n with
  | some info =>
    dsimp only
    cases hk : m.lookup key with
    | some i => rfl
    | none =>
      have hne : key ≠ n := by
        intro h
        rw [h, hn] at hk
        cases hk
      simp [hne]
  | none =>
    dsimp only
    exact lookup_append_single m n key AttribInfo.default

theorem index_fst (m : UT_Map) (key : String) :
    (UT_Map.index m key).1 = (m.lookup key).getD AttribInfo.default := by
  unfold UT_Map.index
  cases m.lookup key <;> rfl

theorem lookups_keep_known (names : List String) (m : UT_Map) (key : String)
    (info : AttribInfo) (h : m.lookup key = some info) :
    (names.foldl (fun m n => (getAttribInfoForValueType m n).2) m).lookup key = some info := by
  induction names generalizing m with
  | nil => exact h
  | cons n rest ih =>
    apply ih
    show (UT_Map.index m n).2.lookup key = some info
    rw [index_lookup, h]

theorem lookups_unknown (names : List String) (m : UT_Map) (key : String)
    (h : m.lookup key = none ∨ m.lookup key = some AttribInfo.default) :
    (names.foldl (fun m n => (getAttribInfoForValueType m n).2) m).lookup key = none ∨
    (names.foldl (fun m n => (getAttribInfoForValueType m n).2) m).lookup key
      = some AttribInfo.default := by
  induction names generalizing m with
  | nil => exact h
  | cons n rest ih =>
    apply ih
    show (UT_Map.index m n).2.lookup key = none ∨
      (UT_Map.index m n).2.lookup key = some AttribInfo.default
    rw [index_lookup]
    rcases h with h | h
    · rw [h]
      by_cases hk : key = n
      · simp [hk]
      · simp [hk]
    · rw [h]
      exact Or.inr rfl

/-! ## Value converters and the value-type table: claims C25, C28, C29, C30 -/

/-- C25: for every entry of the value-type table and every value, when the
cast of the scalar converter succeeds the converter writes the default strings
at the indices 0 up to the number of components of the template of the entry,
each once, and when it fails it writes nothing; no scalar or array converter of
an entry writes at an index greater than or equal to that number. The number
is 1 for the string, asset and scalar converters, the dimension for the vector
converters and rows times columns for the matrix converters: matrix2d 4,
matrix3d 9, matrix4d and frame4d 16, color3 3, quat 4. -/
theorem converter_writes_match_template {ν κ : Type} (ops : VtOps ν κ) (v : ν)
    (name : String) (info : AttribInfo) (hmem : (name, info) ∈ theTemplateMap) :
    (info.myValueConverter.castSucceeds ops v = true →
      (info.myValueConverter.run ops v).map Prod.fst
        = List.range info.myTemplate.vectorSize ∧
      (info.myValueConverter.run ops v).length = info.myTemplate.vectorSize) ∧
    (info.myValueConverter.castSucceeds ops v = false →
      info.myValueConverter.run ops v = []) ∧
    (∀ w ∈ info.myValueConverter.run ops v, w.1 < info.myTemplate.vectorSize) ∧
    (∀ w ∈ info.myArrayValueConverter.run ops v, w.1 < info.myTemplate.vectorSize) ∧
    info.myTemplate.vectorSize = info.myValueConverter.writeCount ∧
    (["matrix2d", "matrix3d", "matrix4d", "frame4d", "color3d", "color3f", "color3h",
        "quatd", "quatf", "quath", "string", "asset", "double"].map
      (fun n => (theTemplateMap.lookup n).map (fun i => i.myTemplate.vectorSize)))
      = [some 4, some 9, some 16, some 16, some 3, some 3, some 3, some 4, some 4, some 4,
          some 1, some 1, some 1] := by
  obtain ⟨hs, hc, hac, _⟩ := theTemplateMap_consistent (name, info) hmem
  dsimp only at hs hc hac
  refine ⟨?_, ?_, ?_, ?_, hc.symm, by decide⟩
  · intro h
    have h1 := converter_run_of_castSucceeds ops info.myValueConverter v h
    rw [hc] at h1
    refine ⟨h1, ?_⟩
    have h2 := congrArg List.length h1
    rw [List.length_map, List.length_range] at h2
    exact h2
  · intro h
    exact converter_run_of_cast_fails ops info.myValueConverter v hs h
  · intro w hw
    rw [← hc]
    exact converter_run_index_lt ops _ v w hw
  · intro w hw
    rw [← hac]
    exact converter_run_index_lt ops _ v w hw

/-- Witness of C25: the entry of `matrix4d` writes the 16 indices 0 to 15 for
a value of the sample operations. -/
theorem converter_writes_match_template_witness :
    ((ValueConverter.theMatConverter MatType.GfMatrix4d).run sampleVtOps [1, 2, 3]).map Prod.fst
      = List.range 16 :=
  ((converter_writes_match_template sampleVtOps [1, 2, 3] "matrix4d"
    ⟨theFloat16Template, ValueConverter.theMatConverter MatType.GfMatrix4d,
      ValueConverter.theArrayMatConverter MatType.GfMatrix4d⟩ (by decide)).1 rfl).1

/-- C28: the matrix converter fills the defaults in row-major order. For a
matrix of `numRows` rows and `numColumns` columns the indices written are 0 up
to rows times columns, in this order, so each of them is written exactly once
and no other index is written; write number k is at index k and holds element
`[k / numColumns][k % numColumns]`; afterwards default k holds that element for
k below rows times columns and its previous value otherwise. `theMatConverter`
makes these writes for the dimensions of its matrix type when the cast
succeeds. -/
theorem matWrites_row_major {ν κ : Type} (numRows numColumns : Nat) (format : κ → String)
    (mat : Nat → Nat → κ) (out : Nat → String) (ops : VtOps ν κ) (t : MatType) (v : ν) :
    (matWrites numRows numColumns format mat).map Prod.fst
      = List.range (numRows * numColumns) ∧
    ((matWrites numRows numColumns format mat).map Prod.fst).Nodup ∧
    (∀ k, k ∈ (matWrites numRows numColumns format mat).map Prod.fst ↔
      k < numRows * numColumns) ∧
    (∀ k, k < numRows * numColumns →
      (matWrites numRows numColumns format mat)[k]?
        = some (k, format (mat (k / numColumns) (k % numColumns)))) ∧
    (∀ k, k < numRows * numColumns →
      applyWrites (matWrites numRows numColumns format mat) out k
        = format (mat (k / numColumns) (k % numColumns))) ∧
    (∀ k, numRows * numColumns ≤ k →
      applyWrites (matWrites numRows numColumns format mat) out k = out k) ∧
    (∀ m, ops.castMat t v = some m →
      theMatConverter ops t v = matWrites t.numRows t.numColumns ops.sprintfDig m) := by
  have hfst := matWrites_fst numRows numColumns format mat
  have heq := matWrites_eq_range numRows numColumns format mat
  refine ⟨hfst, ?_, ?_, ?_, ?_, ?_, ?_⟩
  · rw [hfst]
    exact List.nodup_range _
  · intro k
    rw [hfst]
    exact List.mem_range
  · intro k hk
    rw [heq]
    simp [List.getElem?_map, List.getElem?_range, hk]
  · intro k hk
    rw [heq, applyWrites_range]
    simp [hk]
  · intro k hk
    rw [heq, applyWrites_range]
    have : ¬ k < numRows * numColumns := by omega
    simp [this]
  · intro m hm
    simp only [theMatConverter, hm]

/-- Witness of C28: in a 2 x 3 matrix whose element `[r][c]` is 10 r + c,
default 4 receives element `[1][1]` and default 6 is not written. -/
theorem matWrites_row_major_witness :
    applyWrites (matWrites 2 3 (fun x : Int => toString x) (fun r c => ((10 * r + c : Nat) : Int)))
        (fun _ => "old") 4
      = (fun x : Int => toString x) ((10 * (4 / 3) + 4 % 3 : Nat) : Int) ∧
    applyWrites (matWrites 2 3 (fun x : Int => toString x) (fun r c => ((10 * r + c : Nat) : Int)))
        (fun _ => "old") 6 = "old" :=
  have h := matWrites_row_major 2 3 (fun x : Int => toString x)
    (fun r c => ((10 * r + c : Nat) : Int)) (fun _ => "old") sampleVtOps MatType.GfMatrix2d []
  ⟨h.2.2.2.2.1 4 (by decide), h.2.2.2.2.2.1 6 (by decide)⟩

/-- C30: `getAttribInfoForValueType` is total. After any sequence of earlier
lookups, a scalar type name that is not in the table gets the default entry and
a name in the table gets the entry of that name, so the lookup of an unknown
name changes no later lookup. The default entry has the template
`theDefaultTemplate`, a string template of one component, and its scalar and
array converters are both `theDefaultConverter`, whose only write clears the
first default string. -/
theorem getAttribInfoForValueType_total {ν κ : Type} (ops : VtOps ν κ) (v : ν)
    (out : Nat → String) (names : List String) (name : String) :
    (theTemplateMap.lookup name = none →
      (getAttribInfoForValueType (mapAfterLookups names) name).1 = AttribInfo.default) ∧
    (∀ info, (name, info) ∈ theTemplateMap →
      (getAttribInfoForValueType (mapAfterLookups names) name).1 = info ∧
      (getAttribInfoForValueType (mapAfterLookups (names ++ ["unknown name"])) name).1
        = info) ∧
    AttribInfo.default.myTemplate = theDefaultTemplate ∧
    theDefaultTemplate.type = PRM_Type.PRM_STRING ∧
    theDefaultTemplate.vectorSize = 1 ∧
    AttribInfo.default.myValueConverter = ValueConverter.theDefaultConverter ∧
    AttribInfo.default.myArrayValueConverter = ValueConverter.theDefaultConverter ∧
    ValueConverter.theDefaultConverter.run ops v = [(0, "")] ∧
    applyWrites (ValueConverter.theDefaultConverter.run ops v) out
      = Function.update out 0 "" := by
  refine ⟨?_, ?_, rfl, rfl, rfl, rfl, rfl, rfl, rfl⟩
  · intro hnone
    rw [getAttribInfoForValueType, index_fst]
    rcases lookups_unknown names theTemplateMap name (Or.inl hnone) with h | h
    · unfold mapAfterLookups
      rw [h]
      rfl
    · unfold mapAfterLookups
      rw [h]
      rfl
  · intro info hmem
    have hl := theTemplateMap_lookup_of_mem (name, info) hmem
    dsimp only at hl
    constructor
    · rw [getAttribInfoForValueType, index_fst]
      unfold mapAfterLookups
      rw [lookups_keep_known names theTemplateMap name info hl]
      rfl
    · rw [getAttribInfoForValueType, index_fst]
      unfold mapAfterLookups
      rw [lookups_keep_known (names ++ ["unknown name"]) theTemplateMap name info hl]
      rfl

/-- Witness of C30: after the lookup of the unknown name `rotation`, `float3`
still gets its entry, and `rotation` gets the default entry. -/
theorem getAttribInfoForValueType_total_witness :
    (getAttribInfoForValueType (mapAfterLookups ["rotation"]) "float3").1
      = ⟨theFloat3Template, ValueConverter.theVecConverter VecType.GfVec3f,
          ValueConverter.theArrayVecConverter VecType.GfVec3f⟩ ∧
    (getAttribInfoForValueType (mapAfterLookups ["rotation"]) "rotation").1
      = AttribInfo.default :=
  ⟨((getAttribInfoForValueType_total sampleVtOps [] (fun _ => "") ["rotation"] "float3").2.1
      _ (by decide)).1,
    (getAttribInfoForValueType_total sampleVtOps [] (fun _ => "") ["rotation"] "rotation").1
      (by decide)⟩

/-! ## Auxiliary lemmas on scripted parameters -/

namespace HUSD_PropertyHandle

variable {ν κ : Type}

theorem createPropertyParm_neither (env : ParmEnv ν κ) (h : HUSD_PropertyHandle ν)
    (obj : UsdProperty ν) (propbasename : String) (pfx : Bool) (map : UT_Map)
    (hkind : obj.kind = UsdPropertyKind.neither) :
    createPropertyParm env h obj propbasename pfx map = (none, map) := by
  unfold createPropertyParm
  rw [hkind]

theorem createPropertyParm_some (env : ParmEnv ν κ) (h : HUSD_PropertyHandle ν)
    (obj : UsdProperty ν) (propbasename : String) (pfx : Bool) (map : UT_Map)
    (hkind : obj.kind ≠ UsdPropertyKind.neither) :
    ∃ parm map2, createPropertyParm env h obj propbasename pfx map = (some parm, map2) := by
  unfold createPropertyParm
  cases hk : obj.kind with
  | neither => exact absurd hk hkind
  | usdRelationship targets => exact ⟨_, _, rfl⟩
  | usdAttribute attr =>
    dsimp only
    split
    · exact ⟨_, _, rfl⟩
    · exact ⟨_, _, rfl⟩

theorem createPropertyParm_relationship (env : ParmEnv ν κ) (h : HUSD_PropertyHandle ν)
    (obj : UsdProperty ν) (propbasename : String) (pfx : Bool) (map : UT_Map)
    (targets : List String) (hkind : obj.kind = UsdPropertyKind.usdRelationship targets) :
    ∃ parm, createPropertyParm env h obj propbasename pfx map = (some parm, map) ∧
      parm.myDefaults 0 = String.mk (joinTargets targets []) := by
  unfold createPropertyParm
  rw [hkind]
  refine ⟨_, rfl, ?_⟩
  simp [PI_EditScriptedParm.setSpareValue]

theorem createScriptedParms_of_parm (env : ParmEnv ν κ) (h : HUSD_PropertyHandle ν)
    (parms : List PI_EditScriptedParm) (custom_name : String) (prepend_control_parm : Bool)
    (pfx : Bool) (map : UT_Map) (obj : UsdProperty ν) (parm : PI_EditScriptedParm)
    (map2 : UT_Map) (hlock : h.lockObj = some obj)
    (hparm : createPropertyParm env h obj
      (propBaseName env h.myName custom_name (isTransformOp obj)) pfx map = (some parm, map2)) :
    ∃ main disablecond,
      main.myName = env.encodeParm (propBaseName env h.myName custom_name (isTransformOp obj)) ∧
      main.myDefaults = parm.myDefaults ∧
      main.mySpareValues = parm.mySpareValues ∧
      (createScriptedParms env h parms custom_name prepend_control_parm pfx map).1
        = (if prepend_control_parm then
            createScriptedControlParm env parms
              (propBaseName env h.myName custom_name (isTransformOp obj))
              (parm.getSpareValue SpareKey.HUSD_PROPERTY_VALUETYPE)
          else parms)
          ++ [main]
          ++ (if isTransformOp obj then
              (env.PI_EditScriptedParms theXformTemplates).map
                (xformComponentParm env
                  (propBaseName env h.myName custom_name (isTransformOp obj)) disablecond pfx)
            else []) := by
  unfold createScriptedParms
  rw [hlock]
  dsimp only
  rw [hparm]
  dsimp only
  cases prepend_control_parm <;> cases isTransformOp obj
  all_goals
    simp only [Bool.false_eq_true, if_false, if_true, List.append_nil]
    first
      | refine ⟨_, _, ?_, ?_, ?_, rfl⟩ <;> rfl
      | refine ⟨_, "", ?_, ?_, ?_, rfl⟩ <;> rfl

end HUSD_PropertyHandle

/-! ## Auxiliary lemmas on joined targets -/

theorem joinTargets_of_ne_nil (ts : List String) (buf : List Char) (hbuf : buf ≠ []) :
    joinTargets ts buf = buf ++ (ts.map (fun t => ' ' :: t.data)).flatten := by
  induction ts generalizing buf with
  | nil => simp [joinTargets]
  | cons t rest ih =>
    have he : buf.isEmpty = false := by
      cases buf with
      | nil => exact absurd rfl hbuf
      | cons c cs => rfl
    rw [joinTargets, he]
    simp only [Bool.false_eq_true, if_false]
    rw [ih _ (by simp)]
    simp

theorem intercalate_cons_eq (a : List Char) (l : List (List Char)) :
    [' '].intercalate (a :: l) = a ++ (l.map (fun x => ' ' :: x)).flatten := by
  induction l generalizing a with
  | nil => simp [List.intercalate]
  | cons b rest ih =>
    have h := ih b
    simp only [List.intercalate] at h ⊢
    simp only [List.intersperse, List.flatten_cons, List.map_cons]
    rw [h]
    simp

theorem joinTargets_eq_intercalate (ts : List String) (hne : ∀ t ∈ ts, t.data ≠ []) :
    joinTargets ts [] = [' '].intercalate (ts.map String.data) := by
  cases ts with
  | nil => rfl
  | cons t rest =>
    have ht : t.data ≠ [] := hne t (List.mem_cons_self _ _)
    rw [joinTargets]
    simp only [List.isEmpty_nil, if_true, List.nil_append]
    rw [joinTargets_of_ne_nil rest t.data ht, List.map_cons, intercalate_cons_eq, List.map_map]
    rfl

theorem joinTargets_concat (ts : List String) (t : String) (buf : List Char) :
    joinTargets (ts ++ [t]) buf
      = (if (joinTargets ts buf).isEmpty then joinTargets ts buf
          else joinTargets ts buf ++ [' ']) ++ t.data := by
  induction ts generalizing buf with
  | nil => rfl
  | cons s rest ih =>
    rw [List.cons_append, joinTargets, joinTargets, ih]

theorem joinTargets_head (ts : List String) (hne : ∀ t ∈ ts, t.data ≠ [])
    (hsp : ∀ t ∈ ts, ' ' ∉ t.data) : (joinTargets ts []).head? ≠ some ' ' := by
  cases ts with
  | nil => simp [joinTargets]
  | cons t rest =>
    have ht : t.data ≠ [] := hne t (List.mem_cons_self _ _)
    rw [joinTargets]
    simp only [List.isEmpty_nil, if_true, List.nil_append]
    rw [joinTargets_of_ne_nil rest t.data ht, List.head?_append_of_ne_nil _ ht]
    intro h
    exact hsp t (List.mem_cons_self _ _) (List.mem_of_mem_head? h)

theorem joinTargets_getLast (ts : List String) (hne : ∀ t ∈ ts, t.data ≠ [])
    (hsp : ∀ t ∈ ts, ' ' ∉ t.data) : (joinTargets ts []).getLast? ≠ some ' ' := by
  rcases List.eq_nil_or_concat ts with h | ⟨init, t, h⟩
  · rw [h]
    simp [joinTargets]
  · rw [List.concat_eq_append] at h
    have hmem : t ∈ ts := by
      rw [h]
      simp
    have ht : t.data ≠ [] := hne t hmem
    rw [h, joinTargets_concat, List.getLast?_append_of_ne_nil _ ht]
    intro hl
    exact hsp t hmem (List.mem_of_getLast?_eq_some hl)

namespace HUSD_PropertyHandle

variable {ν κ : Type}

/-! ## Scripted parameters: claim C27 -/

/-- C27: for a relationship whose targets all have non-empty path strings
without a space (path strings contain none), the default of the property
parameter that `createScriptedParms` appends is the target path strings joined
by single spaces in target order: the empty string for no target, with no
leading and no trailing space; splitting it on spaces and dropping empty pieces
returns the list of target strings, and for at least one target the plain split
on spaces returns it. -/
theorem relationship_default_joins_targets (env : ParmEnv ν κ) (h : HUSD_PropertyHandle ν)
    (parms : List PI_EditScriptedParm) (custom_name : String) (prepend_control_parm : Bool)
    ( prefix_xform_parms : Bool) (map : UT_Map) (obj : UsdProperty ν) (targets : List String)
    (hlock : h.lockObj = some obj) (hkind : obj.kind = UsdPropertyKind.usdRelationship targets)
    (hne : ∀ t ∈ targets, t.data ≠ []) (hsp : ∀ t ∈ targets, ' ' ∉ t.data) :
    ∃ main,
      (createScriptedParms env h parms custom_name prepend_control_parm
        prefix_xform_parms map).1.getLast? = some main ∧
      (main.myDefaults 0).data = [' '].intercalate (targets.map String.data) ∧
      (targets = [] → main.myDefaults 0 = "") ∧
      (main.myDefaults 0).data.head? ≠ some ' ' ∧
      (main.myDefaults 0).data.getLast? ≠ some ' ' ∧
      ((main.myDefaults 0).data.splitOn ' ').filter (fun piece => decide (piece ≠ []))
        = targets.map String.data ∧
      (targets ≠ [] → (main.myDefaults 0).data.splitOn ' ' = targets.map String.data) := by
  have hx : isTransformOp obj = false := by
    unfold isTransformOp
    rw [hkind]
  obtain ⟨parm, hparm, hdef⟩ := createPropertyParm_relationship env h obj
    (propBaseName env h.myName custom_name (isTransformOp obj)) prefix_xform_parms map
    targets hkind
  obtain ⟨main, disablecond, _, hmd, _, hres⟩ :=
    createScriptedParms_of_parm env h parms custom_name prepend_control_parm
      prefix_xform_parms map obj parm map hlock hparm
  have hdata : (main.myDefaults 0).data = joinTargets targets [] := by
    rw [hmd, hdef]
  have hinter := joinTargets_eq_intercalate targets hne
  have hsplit : targets ≠ [] →
      (main.myDefaults 0).data.splitOn ' ' = targets.map String.data := by
    intro hnil
    rw [hdata, hinter]
    apply List.splitOn_intercalate
    · intro l hl
      obtain ⟨t, ht, rfl⟩ := List.mem_map.mp hl
      exact hsp t ht
    · simpa using hnil
  refine ⟨main, ?_, ?_, ?_, ?_, ?_, ?_, hsplit⟩
  · rw [hres, hx]
    simp
  · rw [hdata, hinter]
  · intro hnil
    have : (main.myDefaults 0).data = [] := by
      rw [hdata, hnil]
      rfl
    exact String.ext this
  · rw [hdata]
    exact joinTargets_head targets hne hsp
  · rw [hdata]
    exact joinTargets_getLast targets hne hsp
  · by_cases hnil : targets = []
    · rw [hdata, hnil]
      decide
    · rw [hsplit hnil, List.filter_eq_self]
      intro piece hp
      obtain ⟨t, ht, rfl⟩ := List.mem_map.mp hp
      simpa using hne t ht

/-- Witness of C27: the targets `/a` and `/b/c` give the default `/a /b/c`. -/
theorem relationship_default_joins_targets_witness :
    ∃ main,
      (createScriptedParms sampleParmEnv (sampleRelationship ["/a", "/b/c"]) [] "" false false
        theTemplateMap).1.getLast? = some main ∧
      (main.myDefaults 0).data = [' '].intercalate (["/a", "/b/c"].map String.data) :=
  (relationship_default_joins_targets sampleParmEnv (sampleRelationship ["/a", "/b/c"]) [] ""
    false false theTemplateMap ⟨"", UsdPropertyKind.usdRelationship ["/a", "/b/c"]⟩
    ["/a", "/b/c"] rfl rfl (by decide) (by decide)).elim
    fun main hm => ⟨main, hm.1, hm.2.1⟩

end HUSD_PropertyHandle

end HUSD
